import Mathlib

/-!
# HTTP file server (`httpserver.c`): shallow embedding and verified properties

The embedding follows `src/httpserver.c` function by function and keeps its
names.

* Buffers are lists of bytes (`List Nat`).  An index beyond the end of a list
  reads as `0`, which is how the zero-initialised `char buf[BUFSIZE + 1]` of
  `process_in_thread` looks beyond the bytes received.  A C string is the run of
  non-zero bytes from an offset.
* `regexec` is written out for the two patterns `REQEX` and `HEADEX`; both are
  deterministic (every bounded repetition is followed by a byte outside its
  class), so leftmost-longest matching has exactly one candidate per start.
* The operating system (working directory, socket, `errno`, failures of system
  calls) is an explicit `World` value threaded through the handlers; everything
  a handler does is appended to `World.trace`.
* The helpers declared in `helper_funcs.h` (`read_until`, `write_n_bytes`,
  `pass_n_bytes`), whose bodies are not part of the sources, follow their
  documented contracts.  The rwlock and the queue are not in the sources either:
  lock operations are recorded as events on registry nodes, and a worker is
  given the connections it pops as a list.
* `int` and `size_t` conversions are explicit (`toInt32`, `toSizeT`).
-/

namespace HttpServer

/-! ## Bytes, constants -/

/-- Bytes of a string literal (all literals used here are ASCII). -/
def str (s : String) : List Nat := s.toList.map Char.toNat

def BUFSIZE : Nat := 4096

def EXIT_SUCCESS : Int := 0
def EXIT_FAILURE : Int := 1

def OK : List Nat := str "HTTP/1.1 200 OK\r\nContent-Length: 3\r\n\r\nOK\n"
def CREATED : List Nat := str "HTTP/1.1 201 Created\r\nContent-Length: 8\r\n\r\nCreated\n"
def BAD_REQUEST : List Nat :=
  str "HTTP/1.1 400 Bad Request\r\nContent-Length: 12\r\n\r\nBad Request\n"
def FORBIDDEN : List Nat := str "HTTP/1.1 403 Forbidden\r\nContent-Length: 10\r\n\r\nForbidden\n"
def NOT_FOUND : List Nat := str "HTTP/1.1 404 Not Found\r\nContent-Length: 10\r\n\r\nNot Found\n"
def INTERNAL_SERVER_ERROR : List Nat :=
  str "HTTP/1.1 500 Internal Server Error\r\nContent-Length: 22\r\n\r\nInternal Server Error\n"
def NOT_IMPLEMENTED : List Nat :=
  str "HTTP/1.1 501 Not Implemented\r\nContent-Length: 16\r\n\r\nNot Implemented\n"
def VERSION_NOT_SUPPORTED : List Nat :=
  str "HTTP/1.1 505 Version Not Supported\r\nContent-Length: 22\r\n\r\nVersion Not Supported\n"

/-! ## errno values (Linux numbering) -/

def ENOENT : Nat := 2
def EINTR : Nat := 4
def EIO : Nat := 5
def EAGAIN : Nat := 11
def ENOMEM : Nat := 12
def EACCES : Nat := 13
def EEXIST : Nat := 17
def ENOTDIR : Nat := 20
def EISDIR : Nat := 21
def EINVAL : Nat := 22
def ENFILE : Nat := 23
def EMFILE : Nat := 24
def ENOSPC : Nat := 28
def EPIPE : Nat := 32
def ERANGE : Nat := 34

/-! ## C integer conversions -/

/-- Conversion of a wider integer to `int` (32-bit two's complement). -/
def toInt32 (x : Int) : Int := (x + 2147483648) % 4294967296 - 2147483648

/-- Conversion of a signed integer to `size_t` (64-bit). -/
def toSizeT (x : Int) : Nat := (x % 18446744073709551616).toNat

/-- Decimal rendering of `%d` / `%ld`. -/
def fmt_d (x : Int) : List Nat :=
  if x < 0 then 45 :: (Nat.toDigits 10 x.natAbs).map Char.toNat
  else (Nat.toDigits 10 x.natAbs).map Char.toNat

/-! ## Character classes of the two regular expressions -/

/-- Class `[a-zA-Z]`. -/
def isAlpha (c : Nat) : Bool := (65 ≤ c && c ≤ 90) || (97 ≤ c && c ≤ 122)

/-- Class `[0-9]`. -/
def isDigit (c : Nat) : Bool := 48 ≤ c && c ≤ 57

/-- Class `[a-zA-Z0-9.-]`. -/
def isNameChar (c : Nat) : Bool := isAlpha c || isDigit c || c == 46 || c == 45

/-- Class `[ -~]`. -/
def isValueChar (c : Nat) : Bool := 32 ≤ c && c ≤ 126

/-- Length of the longest prefix whose bytes all satisfy `p`. -/
def span (p : Nat → Bool) (s : List Nat) : Nat := (s.takeWhile p).length

/-- One `regmatch_t`: start and end offset of a (sub)match. -/
structure regmatch_t where
  rm_so : Nat
  rm_eo : Nat
deriving DecidableEq, Repr

/-- `regexec` for
`REQEX = "^([a-zA-Z]{1,8}) /([a-zA-Z0-9.-]{1,63}) (HTTP/[0-9]\\.[0-9])\r\n"`.
The pattern is anchored, and each bounded repetition is followed by a byte that
is outside its class, so the only candidate is the maximal run.  Returns
`matches[1]`, `matches[2]`, `matches[3]`. -/
def regexec_REQEX (s : List Nat) : Option (regmatch_t × regmatch_t × regmatch_t) :=
  let n := span isAlpha s
  if 1 ≤ n ∧ n ≤ 8 ∧ s.getD n 0 = 32 ∧ s.getD (n + 1) 0 = 47 then
    let t := span isNameChar (s.drop (n + 2))
    if 1 ≤ t ∧ t ≤ 63 ∧ s.getD (n + 2 + t) 0 = 32 then
      let v := n + 2 + t + 1
      if s.getD v 0 = 72 ∧ s.getD (v + 1) 0 = 84 ∧ s.getD (v + 2) 0 = 84 ∧
          s.getD (v + 3) 0 = 80 ∧ s.getD (v + 4) 0 = 47 ∧ isDigit (s.getD (v + 5) 0) = true ∧
          s.getD (v + 6) 0 = 46 ∧ isDigit (s.getD (v + 7) 0) = true ∧
          s.getD (v + 8) 0 = 13 ∧ s.getD (v + 9) 0 = 10 then
        some (⟨0, n⟩, ⟨n + 2, n + 2 + t⟩, ⟨v, v + 8⟩)
      else none
    else none
  else none

/-- Match of `HEADEX` starting exactly at the head of `s`: lengths of the name
and of the value.  As for `REQEX` the runs are forced to be maximal (`:` is not a
name byte, `\r` is not a value byte). -/
def headex_at (s : List Nat) : Option (Nat × Nat) :=
  let n := span isNameChar s
  if 1 ≤ n ∧ n ≤ 128 ∧ s.getD n 0 = 58 ∧ s.getD (n + 1) 0 = 32 then
    let m := span isValueChar (s.drop (n + 2))
    if 1 ≤ m ∧ m ≤ 128 ∧ s.getD (n + 2 + m) 0 = 13 ∧ s.getD (n + 2 + m + 1) 0 = 10 then
      some (n, m)
    else none
  else none

/-- `regexec` for `HEADEX = "([a-zA-Z0-9.-]{1,128}): ([ -~]{1,128})\r\n"`, which
has no `^`: the leftmost position of the C string (it ends at the first NUL) at
which the pattern matches.  `pos` is the offset of `s` in the string searched.
Returns `matches[1]`, `matches[2]`. -/
def regexec_HEADEX : List Nat → Nat → Option (regmatch_t × regmatch_t)
  | [], _ => none
  | c :: cs, pos =>
    if c = 0 then none
    else match headex_at (c :: cs) with
      | some (n, m) => some (⟨pos, pos + n⟩, ⟨pos + n + 2, pos + n + 2 + m⟩)
      | none => regexec_HEADEX cs (pos + 1)

/-- `strncmp(a, b, n) == 0` on two byte sequences in memory. -/
def strncmp_eq : Nat → List Nat → List Nat → Bool
  | 0, _, _ => true
  | n + 1, a, b =>
    if a.headD 0 ≠ b.headD 0 then false
    else if a.headD 0 = 0 then true
    else strncmp_eq n a.tail b.tail

/-- The C string that starts at offset `off` of `buf`. -/
def cstr (buf : List Nat) (off : Nat) : List Nat := (buf.drop off).takeWhile (fun c => c != 0)

/-- Class of `isspace` in the C locale. -/
def isspace (c : Nat) : Bool := c == 32 || (9 ≤ c && c ≤ 13)

/-- Value of a run of decimal digits. -/
def digitsVal (ds : List Nat) : Nat := ds.foldl (fun a d => 10 * a + (d - 48)) 0

/-- Result of `strtol(s, NULL, 10)`. -/
structure StrtolResult where
  value : Int
  noconv : Bool
  range : Bool
deriving DecidableEq, Repr

/-- `strtol(s, NULL, 10)`: skips white space, reads an optional sign and the
longest run of digits, clamps to `[LONG_MIN, LONG_MAX]`.  `noconv` says no digit
was found (the value is then 0), `range` says the value was clamped. -/
def strtol (s : List Nat) : StrtolResult :=
  let s1 := s.dropWhile isspace
  let neg := s1.headD 0 == 45
  let s2 := if s1.headD 0 == 45 || s1.headD 0 == 43 then s1.tail else s1
  let ds := s2.takeWhile isDigit
  if ds.isEmpty then ⟨0, true, false⟩
  else
    let v : Int := if neg then - (digitsVal ds : Int) else (digitsVal ds : Int)
    if v > 9223372036854775807 then ⟨9223372036854775807, false, true⟩
    else if v < -9223372036854775808 then ⟨-9223372036854775808, false, true⟩
    else ⟨v, false, false⟩

/-! ## The operating system as seen by one worker -/

/-- An entry of the working directory. -/
inductive Node where
  /-- A directory: may the server read it, and the size `fstat` reports. -/
  | dir (readable : Bool) (size : Nat)
  /-- A regular file: access the server has, and its content. -/
  | file (readable writable : Bool) (content : List Nat)
deriving DecidableEq, Repr

/-- Failures of a system call that come from outside the modelled state
(interrupted call, I/O error, no memory, no descriptors, no space, broken
pipe).  None of them is an `errno` value the handlers test for. -/
inductive Fault where
  | eintr | eio | enomem | enfile | emfile | enospc | epipe
deriving DecidableEq, Repr

def Fault.errno : Fault → Nat
  | .eintr => EINTR
  | .eio => EIO
  | .enomem => ENOMEM
  | .enfile => ENFILE
  | .emfile => EMFILE
  | .enospc => ENOSPC
  | .epipe => EPIPE

/-- Flags of `open`: `wr` is `O_WRONLY` (otherwise `O_RDONLY`). -/
structure OFlags where
  wr : Bool
  creat : Bool
  excl : Bool
  trunc : Bool
  directory : Bool
deriving DecidableEq, Repr

def O_RDONLY_DIRECTORY : OFlags := ⟨false, false, false, false, true⟩
def O_RDONLY : OFlags := ⟨false, false, false, false, false⟩
def O_WRONLY_DIRECTORY : OFlags := ⟨true, false, false, false, true⟩
def O_WRONLY_CREAT_EXCL : OFlags := ⟨true, true, true, false, false⟩
def O_WRONLY_CREAT_TRUNC : OFlags := ⟨true, true, false, true, false⟩

/-- Mode of a per-path lock operation. -/
inductive LockMode where
  | reader | writer
deriving DecidableEq, Repr

/-- What a worker does, in order. -/
inductive Event where
  /-- Bytes handed to the socket `fd` (`dprintf`, or the splice of a GET). -/
  | send (fd : Nat) (bytes : List Nat)
  /-- A line printed on standard error. -/
  | log (line : List Nat)
  /-- A call of `open` and whether it returned a descriptor. -/
  | open_ (name : List Nat) (flags : OFlags) (ok : Bool)
  | fstat (name : List Nat)
  /-- Bytes `write_n_bytes` put into the file. -/
  | write (name : List Nat) (bytes : List Nat)
  /-- Bytes `pass_n_bytes` moved from the socket into the file. -/
  | splice_in (name : List Nat) (bytes : List Nat)
  /-- A `pass_n_bytes` from the file to the socket that returned `-1`. -/
  | splice_out_failed (name : List Nat)
  | close_file (name : List Nat)
  | close_sock (fd : Nat)
  /-- Acquisition of the rwlock of registry entry `node`. -/
  | lock (mode : LockMode) (node : Nat)
  | unlock (mode : LockMode) (node : Nat)
deriving DecidableEq, Repr

/-- State of the process and its environment while one worker runs.
* `fs`: the working directory; `cwd_writable`: may the server create entries;
* `registry`: file names of the lock registry, in list order (a node is
  identified by its position);
* `errno`; `noconv_einval`: whether this C library's `strtol` sets `EINVAL`
  when it finds no digit (POSIX allows both);
* `faults`: one entry per call of `open`, `write_n_bytes`, `pass_n_bytes`,
  `read_until`, in call order: `some f` makes that call fail with `f`;
* `sock_in`: what successive reads of the connection deliver; `sock_eof`: what
  follows them, an orderly end of stream (`true`) or a read error such as the
  5 second timeout (`false`);
* `trace`: everything done so far. -/
structure World where
  fs : List Nat → Option Node
  cwd_writable : Bool
  registry : List (List Nat)
  errno : Nat
  noconv_einval : Bool
  faults : List (Option Fault)
  sock_in : List (List Nat)
  sock_eof : Bool
  trace : List Event

/-- Append an event to the trace. -/
def World.emit (w : World) (e : Event) : World := { w with trace := w.trace ++ [e] }

/-- The file system with entry `name` replaced. -/
def fs_set (fs : List Nat → Option Node) (name : List Nat) (n : Node) : List Nat → Option Node :=
  fun x => if x = name then some n else fs x

/-- A descriptor of an open file: the entry it refers to.  Every handler reads
a file from its start and writes a file it has just created or truncated from
its start, so no offset is kept. -/
structure Fd where
  name : List Nat
deriving DecidableEq, Repr

/-- `dprintf(fd, bytes)`. -/
def dprintf (w : World) (fd : Nat) (bytes : List Nat) : World := w.emit (.send fd bytes)

/-- `fprintf(stderr, "<method>,/%s,<status>,%d\n", file_name, request_ID)`. -/
def audit (w : World) (method : String) (file_name : List Nat) (status : String)
    (request_ID : Int) : World :=
  w.emit (.log (str method ++ str ",/" ++ file_name ++ str "," ++ str status ++ str "," ++
    fmt_d request_ID ++ [10]))

/-- The next entry of the fault schedule and the world with it consumed. -/
def next_fault (w : World) : Option Fault × World :=
  match w.faults with
  | [] => (none, w)
  | f :: rest => (f, { w with faults := rest })

/-- What `open(name, flags, 0666)` does on the modelled working directory
(POSIX): `ENOENT` for a missing entry without `O_CREAT`; `EEXIST` for an
existing entry with `O_CREAT | O_EXCL`; `EISDIR` for a directory opened for
writing or with `O_CREAT`; `ENOTDIR` for a regular file with `O_DIRECTORY`; `EACCES` when the
access is not permitted; a created file is empty, readable and writable;
`O_TRUNC` empties the file.  Returns the outcome and the new file system. -/
def open_outcome (fs : List Nat → Option Node) (cwd_writable : Bool) (name : List Nat)
    (fl : OFlags) : Except Nat Fd × (List Nat → Option Node) :=
  match fs name with
  | none =>
    if fl.creat then
      if cwd_writable then (.ok ⟨name⟩, fs_set fs name (.file true true []))
      else (.error EACCES, fs)
    else (.error ENOENT, fs)
  | some (.dir r _) =>
    if fl.creat && fl.excl then (.error EEXIST, fs)
    else if fl.wr || fl.creat then (.error EISDIR, fs)
    else if r then (.ok ⟨name⟩, fs)
    else (.error EACCES, fs)
  | some (.file r wr _) =>
    if fl.creat && fl.excl then (.error EEXIST, fs)
    else if fl.directory then (.error ENOTDIR, fs)
    else if fl.wr then
      if wr then (.ok ⟨name⟩, if fl.trunc then fs_set fs name (.file r wr []) else fs)
      else (.error EACCES, fs)
    else if r then (.ok ⟨name⟩, fs)
    else (.error EACCES, fs)

/-- The system call `open`: fails with the scheduled fault if there is one,
otherwise behaves as `open_outcome`; a failure sets `errno`. -/
def posix_open (w : World) (name : List Nat) (fl : OFlags) : Option Fd × World :=
  match next_fault w with
  | (some f, w1) => (none, { w1 with errno := f.errno }.emit (.open_ name fl false))
  | (none, w1) =>
    match open_outcome w1.fs w1.cwd_writable name fl with
    | (.ok fd, fs1) => (some fd, { w1 with fs := fs1 }.emit (.open_ name fl true))
    | (.error e, fs1) => (none, { w1 with fs := fs1, errno := e }.emit (.open_ name fl false))

/-- `fstat(fd, &st); st.st_size`. -/
def fstat_size (w : World) (fd : Fd) : Nat × World :=
  match w.fs fd.name with
  | some (.file _ _ c) => (c.length, w.emit (.fstat fd.name))
  | some (.dir _ size) => (size, w.emit (.fstat fd.name))
  | none => (0, w.emit (.fstat fd.name))

/-- Append bytes to the regular file a descriptor refers to. -/
def fs_append (fs : List Nat → Option Node) (name : List Nat) (bytes : List Nat) :
    List Nat → Option Node :=
  match fs name with
  | some (.file r wr c) => fs_set fs name (.file r wr (c ++ bytes))
  | _ => fs

/-- Modelled from the spec: `write_n_bytes` (declared in `helper_funcs.h`, body
not in the sources) "writes exactly `n` bytes or returns failure"; returns the
number of bytes written or `-1`.  `bytes` are the `n` bytes at the caller's
pointer. -/
def write_n_bytes (w : World) (fd : Fd) (bytes : List Nat) : Int × World :=
  match next_fault w with
  | (some f, w1) => (-1, { w1 with errno := f.errno })
  | (none, w1) =>
    (bytes.length, { w1 with fs := fs_append w1.fs fd.name bytes }.emit (.write fd.name bytes))

/-- Modelled from the spec: `pass_n_bytes(src, dst, n)` (declared in
`helper_funcs.h`, body not in the sources) with the socket as source and a file
as destination: "reads up to `n` bytes from one descriptor and writes them to
another; returns bytes transferred or failure; EOF before `n` is not a
failure".  A read error (timeout) before `n` bytes is a failure; what was read
before it has been written. -/
def pass_n_bytes_in (w : World) (fd : Fd) (n : Nat) : Int × World :=
  match next_fault w with
  | (some f, w1) => (-1, { w1 with errno := f.errno })
  | (none, w1) =>
    let avail := w1.sock_in.flatten
    if n ≤ avail.length then
      (n, { w1 with fs := fs_append w1.fs fd.name (avail.take n),
                    sock_in := [avail.drop n] }.emit (.splice_in fd.name (avail.take n)))
    else
      let w2 := { w1 with fs := fs_append w1.fs fd.name avail,
                          sock_in := [] }.emit (.splice_in fd.name avail)
      if w1.sock_eof then (avail.length, w2) else (-1, { w2 with errno := EAGAIN })

/-- Modelled from the spec: `pass_n_bytes(src, dst, n)` with a file as source
and the socket `sock` as destination.  Reading a directory fails with `EISDIR`;
end of file before `n` is not a failure. -/
def pass_n_bytes_out (w : World) (fd : Fd) (sock : Nat) (n : Nat) : Int × World :=
  match next_fault w with
  | (some f, w1) => (-1, { w1 with errno := f.errno }.emit (.splice_out_failed fd.name))
  | (none, w1) =>
    match w1.fs fd.name with
    | some (.file _ _ c) => ((c.take n).length, w1.emit (.send sock (c.take n)))
    | _ => (-1, { w1 with errno := EISDIR }.emit (.splice_out_failed fd.name))

/-- `close(fd)` of a file descriptor. -/
def close_file (w : World) (fd : Fd) : World := w.emit (.close_file fd.name)

/-! ## Lock registry -/

/-- The loop of `get_node`: position of the first node whose file name equals
`filename` (`strcmp == 0`), scanning from the head; `i` is the position of the
head of the list scanned. -/
def get_node_scan : List (List Nat) → List Nat → Nat → Option Nat
  | [], _, _ => none
  | f :: rest, filename, i => if filename = f then some i else get_node_scan rest filename (i + 1)

/-- `add_node`: append a new node (with a new rwlock) at the tail and return it. -/
def add_node (reg : List (List Nat)) (filename : List Nat) : Nat × List (List Nat) :=
  (reg.length, reg ++ [filename])

/-- `get_node`: the first node with this file name, or a node added for it. -/
def get_node (reg : List (List Nat)) (filename : List Nat) : Nat × List (List Nat) :=
  match get_node_scan reg filename 0 with
  | some i => (i, reg)
  | none => add_node reg filename

def file_read_lock (w : World) (filename : List Nat) : World :=
  let (node, reg) := get_node w.registry filename
  { w with registry := reg }.emit (.lock .reader node)

def file_read_unlock (w : World) (filename : List Nat) : World :=
  let (node, reg) := get_node w.registry filename
  { w with registry := reg }.emit (.unlock .reader node)

def file_write_lock (w : World) (filename : List Nat) : World :=
  let (node, reg) := get_node w.registry filename
  { w with registry := reg }.emit (.lock .writer node)

def file_write_unlock (w : World) (filename : List Nat) : World :=
  let (node, reg) := get_node w.registry filename
  { w with registry := reg }.emit (.unlock .writer node)

/-! ## Requests and the parser -/

/-- The C `struct Request`.  The three strings and the body are pointers into
the read buffer, kept here as offsets into `buf`, the buffer as the parser left
it. -/
structure Request where
  sock_fd : Nat
  buf : List Nat
  version : Nat
  command : Nat
  file_name : Nat
  message_body : Nat
  content_length : Int
  remaining_bytes : Int
  request_ID : Int

/-- The string `request->command`. -/
def Request.commandStr (r : Request) : List Nat := cstr r.buf r.command

/-- The string `request->file_name`. -/
def Request.fileNameStr (r : Request) : List Nat := cstr r.buf r.file_name

/-- The string `request->version`. -/
def Request.versionStr (r : Request) : List Nat := cstr r.buf r.version

/-- The `remaining_bytes` bytes at `request->message_body`. -/
def Request.body (r : Request) : List Nat :=
  (r.buf.drop r.message_body).take (toSizeT r.remaining_bytes)

/-- Effect of one `strtol` call on `errno`. -/
def strtol_errno (w : World) (res : StrtolResult) : World :=
  if res.range then { w with errno := ERANGE }
  else if res.noconv && w.noconv_einval then { w with errno := EINVAL }
  else w

/-- The variables of `parse_request` that its header loop changes: the buffer,
`offset` (which is also how far the pointer `buf` has advanced), the two header
fields, and the world. -/
structure HeaderState where
  buf : List Nat
  offset : Nat
  content_length : Int
  request_ID : Int
  w : World

/-- Body of the `while (rc == 0)` loop of `parse_request` for one match;
`m1`, `m2` are `matches[1]`, `matches[2]`, relative to the current `buf`. -/
def header_step (sock_fd : Nat) (st : HeaderState) (m1 m2 : regmatch_t) : HeaderState :=
  let b1 := st.buf.set (st.offset + m1.rm_eo) 0
  let b2 := b1.set (st.offset + m2.rm_eo) 0
  let next := st.offset + (m2.rm_eo + 2)
  if strncmp_eq 14 (b2.drop st.offset) (str "Content-Length") then
    let res := strtol (b2.drop (st.offset + m2.rm_so))
    let w1 := strtol_errno st.w res
    let w2 := if w1.errno = EINVAL then dprintf w1 sock_fd BAD_REQUEST else w1
    { buf := b2, offset := next, content_length := toInt32 res.value,
      request_ID := st.request_ID, w := w2 }
  else if strncmp_eq 11 (b2.drop st.offset) (str "Request-Id") then
    let res := strtol (b2.drop (st.offset + m2.rm_so))
    let w1 := strtol_errno st.w res
    let w2 := if w1.errno = EINVAL then dprintf w1 sock_fd BAD_REQUEST else w1
    { buf := b2, offset := next, content_length := st.content_length,
      request_ID := toInt32 res.value, w := w2 }
  else
    { buf := b2, offset := next, content_length := st.content_length,
      request_ID := st.request_ID, w := st.w }

/-- The `while (rc == 0)` loop of `parse_request`, run for at most `fuel`
matches.  It stops at the first state in which `regexec` finds no header. -/
def header_loop (sock_fd : Nat) : Nat → HeaderState → HeaderState
  | 0, st => st
  | fuel + 1, st =>
    match regexec_HEADEX (st.buf.drop st.offset) 0 with
    | some (m1, m2) => header_loop sock_fd fuel (header_step sock_fd st m1 m2)
    | none => st

/-- `parse_request`.  `none` is `EXIT_FAILURE`, `some request` is
`EXIT_SUCCESS` with the request as filled in.  Every match consumes at least one
byte of the buffer, so `buf.length + 1` iterations always reach the end of the
loop (`header_loop_exits`). -/
def parse_request (w : World) (sock_fd : Nat) (buf : List Nat) (bytes_read : Int) :
    Option Request × World :=
  match regexec_REQEX buf with
  | none => (none, dprintf w sock_fd BAD_REQUEST)
  | some (m1, m2, m3) =>
    let b1 := buf.set m1.rm_eo 0
    let b2 := b1.set (m2.rm_so + (m2.rm_eo - m2.rm_so)) 0
    let b3 := b2.set (m3.rm_so + (m3.rm_eo - m3.rm_so)) 0
    let st := header_loop sock_fd (buf.length + 1)
      { buf := b3, offset := m3.rm_eo + 2, content_length := -1, request_ID := 0, w := w }
    let rc_nomatch := (regexec_HEADEX (st.buf.drop st.offset) 0).isNone
    if rc_nomatch && (st.buf.getD st.offset 0 == 13 && st.buf.getD (st.offset + 1) 0 == 10) then
      (some { sock_fd := sock_fd, buf := st.buf, version := m3.rm_so, command := 0,
              file_name := m2.rm_so, message_body := st.offset + 2,
              content_length := st.content_length,
              remaining_bytes := toInt32 (bytes_read - ((st.offset + 2 : Nat) : Int)),
              request_ID := st.request_ID }, st.w)
    else if rc_nomatch then (none, dprintf st.w sock_fd BAD_REQUEST)
    else
      (some { sock_fd := sock_fd, buf := st.buf, version := m3.rm_so, command := 0,
              file_name := m2.rm_so, message_body := 0,
              content_length := st.content_length, remaining_bytes := 0,
              request_ID := st.request_ID }, st.w)

/-! ## Method handlers -/

/-- `process_get`. -/
def process_get (w : World) (r : Request) : Int × World :=
  if r.content_length ≠ -1 then (EXIT_FAILURE, dprintf w r.sock_fd BAD_REQUEST)
  else if r.remaining_bytes > 0 then (EXIT_FAILURE, dprintf w r.sock_fd BAD_REQUEST)
  else
    match posix_open w r.fileNameStr O_RDONLY_DIRECTORY with
    | (some _, w1) =>
      (EXIT_FAILURE, audit (dprintf w1 r.sock_fd FORBIDDEN) "GET" r.fileNameStr "403" r.request_ID)
    | (none, w1) =>
      let w2 := file_read_lock w1 r.fileNameStr
      match posix_open w2 r.fileNameStr O_RDONLY with
      | (none, w3) =>
        let w4 :=
          if w3.errno = ENOENT then
            audit (dprintf w3 r.sock_fd NOT_FOUND) "GET" r.fileNameStr "404" r.request_ID
          else if w3.errno = EACCES then
            dprintf (audit w3 "GET" r.fileNameStr "403" r.request_ID) r.sock_fd FORBIDDEN
          else
            audit (dprintf w3 r.sock_fd INTERNAL_SERVER_ERROR) "GET" r.fileNameStr "500"
              r.request_ID
        (EXIT_FAILURE, file_read_unlock w4 r.fileNameStr)
      | (some fd, w3) =>
        let (size, w4) := fstat_size w3 fd
        let w5 := dprintf w4 r.sock_fd
          (str "HTTP/1.1 200 OK\r\nContent-Length: " ++ fmt_d size ++ str "\r\n\r\n")
        let w6 := audit w5 "GET" r.fileNameStr "200" r.request_ID
        let (bytes_written, w7) := pass_n_bytes_out w6 fd r.sock_fd size
        if toInt32 bytes_written = -1 then
          (EXIT_FAILURE,
            file_read_unlock (dprintf w7 r.sock_fd INTERNAL_SERVER_ERROR) r.fileNameStr)
        else (EXIT_SUCCESS, file_read_unlock (close_file w7 fd) r.fileNameStr)

/-- Lines 432-464 of `process_put`: the file is open as `fd` and `status_code`
is 200 or 201. -/
def process_put_body (w : World) (r : Request) (fd : Fd) (status_code : Nat) : Int × World :=
  let (bytes, w1) := write_n_bytes w fd r.body
  if toInt32 bytes = -1 then
    (EXIT_FAILURE,
      file_write_unlock
        (close_file
          (audit (dprintf w1 r.sock_fd INTERNAL_SERVER_ERROR) "PUT" r.fileNameStr "500"
            r.request_ID) fd) r.fileNameStr)
  else
    let remaining := toInt32 (r.content_length - r.remaining_bytes)
    let (bytes2, w2) := pass_n_bytes_in w1 fd (toSizeT remaining)
    if toInt32 bytes2 = -1 then
      (EXIT_FAILURE,
        file_write_unlock (close_file (dprintf w2 r.sock_fd INTERNAL_SERVER_ERROR) fd)
          r.fileNameStr)
    else
      let w3 :=
        if status_code = 201 then
          audit (dprintf w2 r.sock_fd CREATED) "PUT" r.fileNameStr "201" r.request_ID
        else audit (dprintf w2 r.sock_fd OK) "PUT" r.fileNameStr "200" r.request_ID
      (EXIT_SUCCESS, file_write_unlock (close_file w3 fd) r.fileNameStr)

/-- Lines 381-431 of `process_put`: the directory probe, the writer lock, the
exclusive create and, when the file exists, the truncating open.  `.error` is a
`return` of the handler with that result; `.ok` means line 432 is reached with
this descriptor and `status_code`. -/
def process_put_open (w : World) (r : Request) : Except (Int × World) (Fd × Nat × World) :=
  match posix_open w r.fileNameStr O_WRONLY_DIRECTORY with
  | (some _, w1) =>
    .error (EXIT_FAILURE,
      audit (dprintf w1 r.sock_fd FORBIDDEN) "PUT" r.fileNameStr "403" r.request_ID)
  | (none, w1) =>
    let w2 := file_write_lock w1 r.fileNameStr
    match posix_open w2 r.fileNameStr O_WRONLY_CREAT_EXCL with
    | (some fd, w3) => .ok (fd, 201, w3)
    | (none, w3) =>
      if w3.errno = EEXIST then
        match posix_open w3 r.fileNameStr O_WRONLY_CREAT_TRUNC with
        | (some fd, w4) => .ok (fd, 200, w4)
        | (none, w4) =>
          if w4.errno = EACCES then
            .error (EXIT_FAILURE,
              file_write_unlock
                (audit (dprintf w4 r.sock_fd FORBIDDEN) "PUT" r.fileNameStr "403" r.request_ID)
                r.fileNameStr)
          else
            .error (EXIT_FAILURE,
              file_write_unlock
                (audit (dprintf w4 r.sock_fd INTERNAL_SERVER_ERROR) "PUT" r.fileNameStr "500"
                  r.request_ID) r.fileNameStr)
      else if w3.errno = EACCES then
        .error (EXIT_FAILURE,
          file_write_unlock
            (audit (dprintf w3 r.sock_fd FORBIDDEN) "PUT" r.fileNameStr "403" r.request_ID)
            r.fileNameStr)
      else
        .error (EXIT_FAILURE,
          file_write_unlock
            (audit (dprintf w3 r.sock_fd INTERNAL_SERVER_ERROR) "PUT" r.fileNameStr "500"
              r.request_ID) r.fileNameStr)

/-- `process_put`: the `Content-Length` test of lines 376-380, then
`process_put_open`, then `process_put_body`. -/
def process_put (w : World) (r : Request) : Int × World :=
  if r.content_length = -1 then (EXIT_FAILURE, dprintf w r.sock_fd BAD_REQUEST)
  else
    match process_put_open w r with
    | .error res => res
    | .ok (fd, status_code, w1) => process_put_body w1 r fd status_code

/-- `process_request`. -/
def process_request (w : World) (r : Request) : Int × World :=
  if !strncmp_eq 8 (r.buf.drop r.version) (str "HTTP/1.1") then
    (EXIT_FAILURE, dprintf w r.sock_fd VERSION_NOT_SUPPORTED)
  else if strncmp_eq 3 (r.buf.drop r.command) (str "GET") then process_get w r
  else if strncmp_eq 3 (r.buf.drop r.command) (str "PUT") then process_put w r
  else (EXIT_FAILURE, dprintf w r.sock_fd NOT_IMPLEMENTED)

/-! ## The worker -/

/-- Does the byte sequence contain `"\r\n\r\n"`? -/
def has_terminator : List Nat → Bool
  | [] => false
  | c :: cs => (c == 13 && cs.take 3 == [10, 13, 10]) || has_terminator cs

/-- The read loop of `read_until`: `acc` is what the buffer holds so far.
Returns the buffer, the reads not consumed, and whether the loop ran out of
reads while it still wanted more. -/
def read_until_loop (n : Nat) : List (List Nat) → List Nat → List Nat × List (List Nat) × Bool
  | [], acc => (acc, [], !(decide (n ≤ acc.length) || has_terminator acc))
  | c :: cs, acc =>
    if n ≤ acc.length || has_terminator acc then (acc, c :: cs, false)
    else if c.length ≤ n - acc.length then read_until_loop n cs (acc ++ c)
    else (acc ++ c.take (n - acc.length), c.drop (n - acc.length) :: cs, false)

/-- Modelled from the spec: `read_until(fd, buf, n, "\r\n\r\n")` (declared in
`helper_funcs.h`, body not in the sources): "reads up to `n` bytes or until the
buffer contains the given terminator string or the peer closes or a 5-second
timeout expires; returns bytes-read or failure".  Returns the count (or `-1`)
and the buffer. -/
def read_until (w : World) (n : Nat) : Int × List Nat × World :=
  match next_fault w with
  | (some f, w1) => (-1, [], { w1 with errno := f.errno })
  | (none, w1) =>
    match read_until_loop n w1.sock_in [] with
    | (acc, rest, starved) =>
      if starved && !w1.sock_eof then (-1, acc, { w1 with sock_in := rest, errno := EAGAIN })
      else (acc.length, acc, { w1 with sock_in := rest })

/-- One iteration of the `while (true)` loop of `process_in_thread`, for the
connection `sock_fd` popped from the queue.  The Boolean is `false` when the
iteration leaves the loop through `return NULL`. -/
def process_in_thread_body (w : World) (sock_fd : Nat) : Bool × World :=
  match read_until w BUFSIZE with
  | (bytes_read, buf, w1) =>
    if bytes_read = -1 then (false, dprintf w1 sock_fd BAD_REQUEST)
    else
      match parse_request w1 sock_fd buf bytes_read with
      | (some request, w2) => (true, (process_request w2 request).2.emit (.close_sock sock_fd))
      | (none, w2) => (true, w2.emit (.close_sock sock_fd))

/-- A connection accepted by the listener, as the client drives it: what its
successive reads deliver, and how the stream ends. -/
structure Conn where
  reads : List (List Nat)
  eof : Bool

/-- The world when a worker starts on a new connection. -/
def World.accept (w : World) (c : Conn) : World :=
  { w with sock_in := c.reads, sock_eof := c.eof }

/-- `process_in_thread` for a worker to which `queue_pop` hands the connections
of `queue` in order.  The Boolean is `true` when the worker is still in its
loop once they are all handled (blocked in `queue_pop`), `false` when it has
returned. -/
def process_in_thread : World → List (Conn × Nat) → Bool × World
  | w, [] => (true, w)
  | w, (c, sock_fd) :: queue =>
    match process_in_thread_body (w.accept c) sock_fd with
    | (true, w1) => process_in_thread w1 queue
    | (false, w1) => (false, w1)

/-- A working directory without any entry, no locks, no faults, nothing done
yet.  The entries `.` and `..` that every real directory has are not in it
(see `World.withDots`), so it stands for a real directory only with respect to
targets other than `.` and `..`. -/
def World.init : World :=
  { fs := fun _ => none, cwd_writable := true, registry := [], errno := 0,
    noconv_einval := false, faults := [], sock_in := [], sock_eof := true, trace := [] }

/-! ## Observations on a trace -/

/-- The writes to sockets in a trace, in order: descriptor and bytes. -/
def sends (t : List Event) : List (Nat × List Nat) :=
  t.filterMap (fun e => match e with
    | .send fd bytes => some (fd, bytes)
    | _ => none)

/-- The bytes written into file `name` along a trace, in order. -/
def file_writes (t : List Event) (name : List Nat) : List Nat :=
  (t.filterMap (fun e => match e with
    | .write n bytes => if n = name then some bytes else none
    | .splice_in n bytes => if n = name then some bytes else none
    | _ => none)).flatten

/-- The lines printed on standard error along a trace. -/
def audit_lines (t : List Event) : List (List Nat) :=
  t.filterMap (fun e => match e with
    | .log line => some line
    | _ => none)

/-- The lock operations of a trace. -/
def lock_events (t : List Event) : List Event :=
  t.filter (fun e => match e with
    | .lock _ _ => true
    | .unlock _ _ => true
    | _ => false)

/-- Between `w` and `w'` exactly one thing was written to a socket: `resp`, to `fd`. -/
def answers (w w' : World) (fd : Nat) (resp : List Nat) : Prop :=
  sends w'.trace = sends w.trace ++ [(fd, resp)]

/-- What was done between world `w` and a later world `w'`. -/
def events_since (w w' : World) : List Event := w'.trace.drop w.trace.length

/-! ## Definitions used in the statements and proofs -/

/-- Shape of a match of `REQEX`: method of `n` letters at 0, target of `t` name
bytes at `n + 2`, version `HTTP/d.d` at `n + t + 3`, then CR LF. -/
structure ReqLine (s : List Nat) (n t : Nat) : Prop where
  n_pos : 1 ≤ n
  n_le : n ≤ 8
  t_pos : 1 ≤ t
  t_le : t ≤ 63
  n_eq : n = span isAlpha s
  t_eq : t = span isNameChar (s.drop (n + 2))
  sp1 : s.getD n 0 = 32
  slash : s.getD (n + 1) 0 = 47
  sp2 : s.getD (n + 2 + t) 0 = 32
  v0 : s.getD (n + 2 + t + 1) 0 = 72
  v1 : s.getD (n + 2 + t + 1 + 1) 0 = 84
  v2 : s.getD (n + 2 + t + 1 + 2) 0 = 84
  v3 : s.getD (n + 2 + t + 1 + 3) 0 = 80
  v4 : s.getD (n + 2 + t + 1 + 4) 0 = 47
  v5 : isDigit (s.getD (n + 2 + t + 1 + 5) 0) = true
  v6 : s.getD (n + 2 + t + 1 + 6) 0 = 46
  v7 : isDigit (s.getD (n + 2 + t + 1 + 7) 0) = true
  cr : s.getD (n + 2 + t + 1 + 8) 0 = 13
  lf : s.getD (n + 2 + t + 1 + 9) 0 = 10

/-- The buffer after `parse_request` has put the three NULs of the request line. -/
def reqline_buf (buf : List Nat) (n t : Nat) : List Nat :=
  ((buf.set n 0).set (n + 2 + t) 0).set (n + 2 + t + 1 + 8) 0

/-- State in which `parse_request` enters its header loop. -/
def header_init (w : World) (buf : List Nat) (n t : Nat) : HeaderState :=
  { buf := reqline_buf buf n t, offset := n + 2 + t + 1 + 8 + 2, content_length := -1,
    request_ID := 0, w := w }

/-- State in which `parse_request` leaves its header loop. -/
def header_final (w : World) (sock_fd : Nat) (buf : List Nat) (n t : Nat) : HeaderState :=
  header_loop sock_fd (buf.length + 1) (header_init w buf n t)

/-- The bytes `pass_n_bytes` moves from the socket when asked for `n`: the
first `n` of what the connection still delivers (all of it when that is less). -/
def spliced (w : World) (n : Nat) : List Nat := w.sock_in.flatten.take n

/-- Number of bytes `process_put` asks `pass_n_bytes` for: the `int`
`content_length - remaining_bytes` converted to `size_t`. -/
def put_remaining (r : Request) : Nat := toSizeT (toInt32 (r.content_length - r.remaining_bytes))

/-- The request `PUT /a HTTP/2.0` with a body, as parsed. -/
def C5_request : Request :=
  { sock_fd := 5, buf := str "PUT\x00/a\x00HTTP/2.0\x00\nContent-Length\x00 2\x00\n\r\nhi",
    version := 7, command := 0, file_name := 5, message_body := 38, content_length := 2,
    remaining_bytes := 2, request_ID := 0 }

/-- The request `PUT /a HTTP/1.1` with `Content-Length: -5` and no body, as
`parse_request` leaves it. -/
def put_a_minus5 : Request :=
  { sock_fd := 4, buf := str "PUT\x00/a\x00HTTP/1.1\x00\nContent-Length\x00 -5\x00\n\r\n",
    version := 7, command := 0, file_name := 5, message_body := 39, content_length := -5,
    remaining_bytes := 0, request_ID := 0 }

/-- The request `PUT /a HTTP/1.1` without headers, as `parse_request` leaves it. -/
def put_a_no_length : Request :=
  { sock_fd := 4, buf := str "PUT\x00/a\x00HTTP/1.1\x00\n\r\n",
    version := 7, command := 0, file_name := 5, message_body := 19, content_length := -1,
    remaining_bytes := 0, request_ID := 0 }

/-- The request `PUT /b HTTP/1.1` with `Content-Length: 10` whose first three
body bytes `abc` came with the headers, as `parse_request` leaves it. -/
def put_b_10 : Request :=
  { sock_fd := 4, buf := str "PUT\x00/b\x00HTTP/1.1\x00\nContent-Length\x00 10\x00\n\r\nabc",
    version := 7, command := 0, file_name := 5, message_body := 39, content_length := 10,
    remaining_bytes := 3, request_ID := 0 }

/-! ## Concrete requests used as examples -/

/-- The request `PUT /a HTTP/1.1` with `Content-Length: 5` as `parse_request`
leaves it when the header read also brought the first `k` bytes of the body
`hello` (so `remaining_bytes = k`). -/
def put_a_5 (k : Nat) : Request :=
  { sock_fd := 4,
    buf := str "PUT\x00/a\x00HTTP/1.1\x00\nContent-Length\x00 5\x00\n\r\n" ++ (str "hello").take k,
    version := 7, command := 0, file_name := 5, message_body := 38, content_length := 5,
    remaining_bytes := k, request_ID := 0 }

/-- A connection that delivers `reads` and then closes. -/
def World.withInput (w : World) (reads : List (List Nat)) : World :=
  { w with sock_in := reads, sock_eof := true }

/-- A worker handles connection `c` (descriptor `fd`) in world `w`: the world
after the iteration of `process_in_thread`. -/
def serve (w : World) (c : Conn) (fd : Nat) : World := (process_in_thread_body (w.accept c) fd).2

/-- A working directory whose only entry is the readable directory `d`. -/
def World.withDirectory : World :=
  { World.init with fs := fun n => if n = str "d" then some (.dir true 4096) else none }

/-- A process whose C library sets `EINVAL` when `strtol` finds no digit. -/
def World.initEinval : World := { World.init with noconv_einval := true }

/-- A working directory whose only entry is the regular file `a`, which the
server may read but not write, with content `old`. -/
def World.withReadOnlyFile : World :=
  { World.init with
    fs := fun n => if n = str "a" then some (.file true false (str "old")) else none }

/-- The request `GET /a HTTP/1.1` without headers, as `parse_request` leaves it. -/
def get_a : Request :=
  { sock_fd := 5, buf := str "GET\x00/a\x00HTTP/1.1\x00\n\r\n",
    version := 7, command := 0, file_name := 5, message_body := 19, content_length := -1,
    remaining_bytes := 0, request_ID := 0 }

/-! ## Request texts -/

/-- The bytes `<method> /<target> HTTP/<d1>.<d2>\r\n` followed by `rest`. -/
def request_text (method target : List Nat) (d1 d2 : Nat) (rest : List Nat) : List Nat :=
  method ++ 32 :: 47 ::
    (target ++ 32 :: 72 :: 84 :: 84 :: 80 :: 47 :: d1 :: 46 :: d2 :: 13 :: 10 :: rest)

/-- The header block `PUT /<target> HTTP/1.1\r\nContent-Length: <digits>\r\n\r\n`
followed by `body`. -/
def put_text (target digits body : List Nat) : List Nat :=
  request_text (str "PUT") target 49 49
    (str "Content-Length" ++ 58 :: 32 :: (digits ++ 13 :: 10 :: 13 :: 10 :: body))

/-- The request `GET /<target> HTTP/1.1\r\n\r\n`. -/
def get_text (target : List Nat) : List Nat :=
  request_text (str "GET") target 49 49 [13, 10]

/-! ## Header lines -/

/-- The header line `<name>: <value>\r\n` followed by `rest`. -/
def header_text (name value rest : List Nat) : List Nat :=
  name ++ 58 :: 32 :: (value ++ 13 :: 10 :: rest)

/-- The header lines of `hs` (name and value of each), in order, followed by
`rest`. -/
def headers_text : List (List Nat × List Nat) → List Nat → List Nat
  | [], rest => rest
  | h :: hs, rest => header_text h.1 h.2 (headers_text hs rest)

/-- A header as the grammar of `HEADEX` describes it: a name of 1 to 128 bytes
of `[a-zA-Z0-9.-]` and a value of 1 to 128 bytes of `[ -~]`. -/
def conforming_header (h : List Nat × List Nat) : Prop :=
  1 ≤ h.1.length ∧ h.1.length ≤ 128 ∧ (∀ c ∈ h.1, isNameChar c = true) ∧
  1 ≤ h.2.length ∧ h.2.length ≤ 128 ∧ (∀ c ∈ h.2, isValueChar c = true)

/-! ## Concurrent callers of `get_node` -/

/-- Where a thread stands in a call `get_node(filename)`: before the scan of
the list, after a scan that found nothing (about to call `add_node`), or
returned with a node. -/
inductive Caller where
  | scanning (filename : List Nat)
  | adding (filename : List Nat)
  | returned (node : Nat)
deriving DecidableEq, Repr

/-- One step of a caller on the registry: the scan loop of `get_node`, for
which no lock is taken, or the call of `add_node`, whose body runs between
`pthread_mutex_lock` and `pthread_mutex_unlock`. -/
def Caller.step (reg : List (List Nat)) : Caller → Caller × List (List Nat)
  | .scanning f =>
    match get_node_scan reg f 0 with
    | some i => (.returned i, reg)
    | none => (.adding f, reg)
  | .adding f => (.returned (add_node reg f).1, (add_node reg f).2)
  | .returned n => (.returned n, reg)

/-- Run a schedule on a registry and its callers: each entry of the schedule
names the caller that takes the next step. -/
def run_callers : List Nat → List (List Nat) × List Caller → List (List Nat) × List Caller
  | [], s => s
  | i :: sched, (reg, cs) =>
    match cs.get? i with
    | some c => run_callers sched ((c.step reg).2, cs.set i (c.step reg).1)
    | none => run_callers sched (reg, cs)

/-! ## Further worlds used as examples -/

/-- A working directory whose only entry is the regular file `name`, readable
and writable, with content `content`. -/
def World.withFile (name content : List Nat) : World :=
  { World.init with
    fs := fun n => if n = name then some (.file true true content) else none }

/-- A working directory with the two entries every directory has, `.` and
`..`, both readable directories, and nothing else. -/
def World.withDots : World :=
  { World.init with
    fs := fun n => if n = str "." ∨ n = str ".." then some (.dir true 4096) else none }

/-! ## Lock discipline on a trace -/

/-- The line `<method>,/<file_name>,<status>,<request_ID>\n` that `audit`
prints. -/
def audit_line (method : String) (file_name : List Nat) (status : String) (request_ID : Int) :
    List Nat :=
  str method ++ str ",/" ++ file_name ++ str "," ++ str status ++ str "," ++ fmt_d request_ID ++
    [10]

/-- World `w'` follows `w` by events none of which is a lock operation, and
with the registry as it was. -/
def World.quiet (w w' : World) : Prop :=
  ∃ evs, w'.trace = w.trace ++ evs ∧ lock_events evs = [] ∧ w'.registry = w.registry

/-- The events of one run of a handler respect the lock discipline, for the
lock of node `n` in mode `m`, the target `name`, the flags `probe` of the
directory probe and the socket `sock_fd`.  Either the run ends before any lock
is taken, and then all it did is write 400, or find by the probe that the
target is a directory and write and log 403.  Or the probe failed, the lock was
acquired, and the run ends with its release, in the same mode on the same node,
with no other lock operation in between: everything the run does apart from
the probe lies between the acquire and the release. -/
def lock_paired (m : LockMode) (n : Nat) (name : List Nat) (probe : OFlags) (sock_fd : Nat)
    (evs : List Event) : Prop :=
  evs = [Event.send sock_fd BAD_REQUEST] ∨
  (∃ line, evs = [Event.open_ name probe true, Event.send sock_fd FORBIDDEN, Event.log line]) ∨
  ∃ mid, evs = Event.open_ name probe false :: Event.lock m n :: (mid ++ [Event.unlock m n]) ∧
    lock_events mid = []

/-! ## What the header loop sees -/

/-- The state of the header loop as the loop sees it: the text from the scan
position on, taken as a buffer scanned from its start, with the fields
unchanged. -/
def HeaderState.norm (st : HeaderState) : HeaderState :=
  { st with buf := st.buf.drop st.offset, offset := 0 }

/-! ## Lemmas on buffers and C strings -/

theorem getD_drop (b : List Nat) (o i : Nat) : (b.drop o).getD i 0 = b.getD (o + i) 0 := by
  simp [List.getD_eq_getElem?_getD]

theorem getD_set_ne (b : List Nat) (i j : Nat) (x : Nat) (h : i ≠ j) :
    (b.set i x).getD j 0 = b.getD j 0 := by
  simp [List.getD_eq_getElem?_getD, List.getElem?_set, h]

theorem getD_set_self (b : List Nat) (i : Nat) : (b.set i 0).getD i 0 = 0 := by
  simp only [List.getD_eq_getElem?_getD, List.getElem?_set, if_true]
  split <;> rfl

theorem lt_length_of_getD_ne (b : List Nat) (i : Nat) (h : b.getD i 0 ≠ 0) : i < b.length := by
  by_contra hc
  exact h (by simp [List.getD_eq_getElem?_getD, List.getElem?_eq_none (Nat.le_of_not_lt hc)])

theorem drop_eq_cons (b : List Nat) (o : Nat) (h : b.getD o 0 ≠ 0) :
    b.drop o = b.getD o 0 :: b.drop (o + 1) := by
  have hlt := lt_length_of_getD_ne b o h
  rw [List.drop_eq_getElem_cons hlt]
  simp [List.getD_eq_getElem?_getD, List.getElem?_eq_getElem hlt]

theorem cstr_cons (b : List Nat) (o : Nat) (h : b.getD o 0 ≠ 0) :
    cstr b o = b.getD o 0 :: cstr b (o + 1) := by
  unfold cstr
  rw [drop_eq_cons b o h]
  have h2 : (fun c : Nat => c != 0) (b.getD o 0) = true := by simpa using h
  exact List.takeWhile_cons_of_pos h2

theorem cstr_nil (b : List Nat) (o : Nat) (h : b.getD o 0 = 0) : cstr b o = [] := by
  unfold cstr
  by_cases hlt : o < b.length
  · rw [List.drop_eq_getElem_cons hlt]
    have : b[o] = 0 := by
      simpa [List.getD_eq_getElem?_getD, List.getElem?_eq_getElem hlt] using h
    simp [List.takeWhile_cons, this]
  · simp [List.drop_eq_nil_of_le (Nat.le_of_not_lt hlt)]

/-- The C string at `o` of a buffer that agrees with `orig` on `L` non-zero
bytes from `o` and holds a NUL after them is that slice of `orig`. -/
theorem cstr_eq_slice (b orig : List Nat) (L : Nat) : ∀ o : Nat,
    (∀ i, i < L → b.getD (o + i) 0 = orig.getD (o + i) 0) →
    (∀ i, i < L → orig.getD (o + i) 0 ≠ 0) →
    b.getD (o + L) 0 = 0 →
    cstr b o = (orig.drop o).take L := by
  induction L with
  | zero =>
    intro o _ _ hz
    simpa using cstr_nil b o (by simpa using hz)
  | succ L ih =>
    intro o hag hnz hz
    have h0 : b.getD o 0 = orig.getD o 0 := by simpa using hag 0 (Nat.succ_pos L)
    have h0' : orig.getD o 0 ≠ 0 := by simpa using hnz 0 (Nat.succ_pos L)
    rw [cstr_cons b o (by rw [h0]; exact h0'), drop_eq_cons orig o h0', List.take_succ_cons, h0]
    congr 1
    apply ih (o + 1)
    · intro i hi
      have := hag (i + 1) (Nat.succ_lt_succ hi)
      simpa [Nat.add_assoc, Nat.add_comm 1 i] using this
    · intro i hi
      have := hnz (i + 1) (Nat.succ_lt_succ hi)
      simpa [Nat.add_assoc, Nat.add_comm 1 i] using this
    · simpa [Nat.add_assoc, Nat.add_comm 1 L] using hz

theorem span_getD (p : Nat → Bool) : ∀ (s : List Nat) (i : Nat), i < span p s →
    p (s.getD i 0) = true := by
  intro s
  induction s with
  | nil => intro i hi; simp [span] at hi
  | cons c cs ih =>
    intro i hi
    unfold span at hi
    by_cases hc : p c = true
    · rw [List.takeWhile_cons_of_pos hc] at hi
      cases i with
      | zero => simpa using hc
      | succ i =>
        have : i < span p cs := by simpa [span] using hi
        simpa using ih i this
    · rw [List.takeWhile_cons_of_neg hc] at hi
      simp at hi

/-! ## The header loop -/

theorem header_step_buf (sock_fd : Nat) (st : HeaderState) (m1 m2 : regmatch_t) :
    (header_step sock_fd st m1 m2).buf =
      (st.buf.set (st.offset + m1.rm_eo) 0).set (st.offset + m2.rm_eo) 0 := by
  unfold header_step
  dsimp only
  split_ifs <;> rfl

theorem header_step_offset (sock_fd : Nat) (st : HeaderState) (m1 m2 : regmatch_t) :
    (header_step sock_fd st m1 m2).offset = st.offset + (m2.rm_eo + 2) := by
  unfold header_step
  dsimp only
  split_ifs <;> rfl

theorem header_step_getD (sock_fd : Nat) (st : HeaderState) (m1 m2 : regmatch_t) (i : Nat)
    (hi : i < st.offset) : (header_step sock_fd st m1 m2).buf.getD i 0 = st.buf.getD i 0 := by
  rw [header_step_buf, getD_set_ne _ _ _ _ (by omega), getD_set_ne _ _ _ _ (by omega)]

theorem header_step_length (sock_fd : Nat) (st : HeaderState) (m1 m2 : regmatch_t) :
    (header_step sock_fd st m1 m2).buf.length = st.buf.length := by
  rw [header_step_buf]; simp

/-- The loop never touches a byte before the position it started from. -/
theorem header_loop_getD (sock_fd : Nat) : ∀ (fuel : Nat) (st : HeaderState) (i : Nat),
    i < st.offset → (header_loop sock_fd fuel st).buf.getD i 0 = st.buf.getD i 0 := by
  intro fuel
  induction fuel with
  | zero => intro st i _; rfl
  | succ fuel ih =>
    intro st i hi
    unfold header_loop
    split
    · rename_i m1 m2 _
      rw [ih _ i (by rw [header_step_offset]; omega), header_step_getD _ _ _ _ _ hi]
    · rfl

theorem header_loop_offset (sock_fd : Nat) : ∀ (fuel : Nat) (st : HeaderState),
    st.offset ≤ (header_loop sock_fd fuel st).offset := by
  intro fuel
  induction fuel with
  | zero => intro st; exact Nat.le_refl _
  | succ fuel ih =>
    intro st
    unfold header_loop
    split
    · rename_i m1 m2 _
      have := ih (header_step sock_fd st m1 m2)
      rw [header_step_offset] at this
      omega
    · exact Nat.le_refl _

theorem header_loop_length (sock_fd : Nat) : ∀ (fuel : Nat) (st : HeaderState),
    (header_loop sock_fd fuel st).buf.length = st.buf.length := by
  intro fuel
  induction fuel with
  | zero => intro st; rfl
  | succ fuel ih =>
    intro st
    unfold header_loop
    split
    · rw [ih, header_step_length]
    · rfl

/-- With `fuel` at least the number of bytes left (plus one) the loop ends
because `regexec` finds no further header, never because the fuel ran out. -/
theorem header_loop_exits (sock_fd : Nat) : ∀ (fuel : Nat) (st : HeaderState),
    st.buf.length + 1 ≤ fuel + st.offset →
    regexec_HEADEX ((header_loop sock_fd fuel st).buf.drop (header_loop sock_fd fuel st).offset) 0
      = none := by
  intro fuel
  induction fuel with
  | zero =>
    intro st h
    have : st.buf.drop st.offset = [] := List.drop_eq_nil_of_le (by omega)
    simp [header_loop, this, regexec_HEADEX]
  | succ fuel ih =>
    intro st h
    unfold header_loop
    split
    · rename_i m1 m2 _
      apply ih
      rw [header_step_offset, header_step_length]
      omega
    · assumption

/-! ## What a successful parse yields -/

theorem isAlpha_ne_zero (c : Nat) (h : isAlpha c = true) : c ≠ 0 := by
  intro hc; subst hc; simp [isAlpha] at h

theorem isDigit_ne_zero (c : Nat) (h : isDigit c = true) : c ≠ 0 := by
  intro hc; subst hc; simp [isDigit] at h

theorem isNameChar_ne_zero (c : Nat) (h : isNameChar c = true) : c ≠ 0 := by
  intro hc; subst hc; simp [isNameChar, isAlpha, isDigit] at h

theorem regexec_REQEX_some (s : List Nat) (m1 m2 m3 : regmatch_t)
    (h : regexec_REQEX s = some (m1, m2, m3)) :
    ∃ n t, ReqLine s n t ∧ m1 = ⟨0, n⟩ ∧ m2 = ⟨n + 2, n + 2 + t⟩ ∧
      m3 = ⟨n + 2 + t + 1, n + 2 + t + 1 + 8⟩ := by
  unfold regexec_REQEX at h
  dsimp only at h
  split_ifs at h with h1 h2 h3
  simp only [Option.some.injEq, Prod.mk.injEq] at h
  obtain ⟨e1, e2, e3⟩ := h
  refine ⟨span isAlpha s, span isNameChar (s.drop (span isAlpha s + 2)), ?_, e1.symm, e2.symm,
    e3.symm⟩
  obtain ⟨a1, a2, a3, a4⟩ := h1
  obtain ⟨b1, b2, b3⟩ := h2
  obtain ⟨c0, c1, c2, c3, c4, c5, c6, c7, c8, c9⟩ := h3
  exact ⟨a1, a2, b1, b2, rfl, rfl, a3, a4, b3, c0, c1, c2, c3, c4, c5, c6, c7, c8, c9⟩

theorem regexec_REQEX_of_ReqLine (s : List Nat) (n t : Nat) (h : ReqLine s n t) :
    regexec_REQEX s = some (⟨0, n⟩, ⟨n + 2, n + 2 + t⟩, ⟨n + 2 + t + 1, n + 2 + t + 1 + 8⟩) := by
  have hn := h.n_eq
  subst hn
  have ht := h.t_eq
  subst ht
  unfold regexec_REQEX
  dsimp only
  rw [if_pos ⟨h.n_pos, h.n_le, h.sp1, h.slash⟩, if_pos ⟨h.t_pos, h.t_le, h.sp2⟩,
    if_pos ⟨h.v0, h.v1, h.v2, h.v3, h.v4, h.v5, h.v6, h.v7, h.cr, h.lf⟩]

theorem header_final_nomatch (w : World) (sock_fd : Nat) (buf : List Nat) (n t : Nat) :
    regexec_HEADEX ((header_final w sock_fd buf n t).buf.drop
      (header_final w sock_fd buf n t).offset) 0 = none := by
  apply header_loop_exits
  simp only [header_init, reqline_buf, List.length_set]
  omega

/-- Unfolding of `parse_request` along a request line of shape `n`, `t`. -/
theorem parse_request_of_ReqLine (w : World) (sock_fd : Nat) (buf : List Nat) (bytes_read : Int)
    (n t : Nat) (h : ReqLine buf n t) :
    parse_request w sock_fd buf bytes_read =
      if (header_final w sock_fd buf n t).buf.getD (header_final w sock_fd buf n t).offset 0 = 13 ∧
          (header_final w sock_fd buf n t).buf.getD
            ((header_final w sock_fd buf n t).offset + 1) 0 = 10 then
        (some { sock_fd := sock_fd, buf := (header_final w sock_fd buf n t).buf,
                version := n + 2 + t + 1, command := 0, file_name := n + 2,
                message_body := (header_final w sock_fd buf n t).offset + 2,
                content_length := (header_final w sock_fd buf n t).content_length,
                remaining_bytes :=
                  toInt32 (bytes_read - (((header_final w sock_fd buf n t).offset + 2 : Nat) : Int)),
                request_ID := (header_final w sock_fd buf n t).request_ID },
          (header_final w sock_fd buf n t).w)
      else (none, dprintf (header_final w sock_fd buf n t).w sock_fd BAD_REQUEST) := by
  have hnm := header_final_nomatch w sock_fd buf n t
  unfold header_final header_init reqline_buf at hnm
  unfold parse_request
  rw [regexec_REQEX_of_ReqLine buf n t h]
  simp only [header_final, header_init, reqline_buf, Nat.add_sub_cancel_left, hnm,
    Option.isNone_none, Bool.true_and, Bool.and_eq_true, beq_iff_eq, if_true]

theorem parse_request_none_of_no_reqline (w : World) (sock_fd : Nat) (buf : List Nat)
    (bytes_read : Int) (h : regexec_REQEX buf = none) :
    parse_request w sock_fd buf bytes_read = (none, dprintf w sock_fd BAD_REQUEST) := by
  unfold parse_request
  rw [h]

/-- A successful parse: the request line has the shape of `REQEX`, the loop
stopped in front of CR LF, and the request holds what the loop computed. -/
theorem parse_request_some (w : World) (sock_fd : Nat) (buf : List Nat) (bytes_read : Int)
    (req : Request) (w1 : World) (h : parse_request w sock_fd buf bytes_read = (some req, w1)) :
    ∃ n t, ReqLine buf n t ∧
      (header_final w sock_fd buf n t).buf.getD (header_final w sock_fd buf n t).offset 0 = 13 ∧
      (header_final w sock_fd buf n t).buf.getD
        ((header_final w sock_fd buf n t).offset + 1) 0 = 10 ∧
      req = { sock_fd := sock_fd, buf := (header_final w sock_fd buf n t).buf,
              version := n + 2 + t + 1, command := 0, file_name := n + 2,
              message_body := (header_final w sock_fd buf n t).offset + 2,
              content_length := (header_final w sock_fd buf n t).content_length,
              remaining_bytes :=
                toInt32 (bytes_read - (((header_final w sock_fd buf n t).offset + 2 : Nat) : Int)),
              request_ID := (header_final w sock_fd buf n t).request_ID } ∧
      w1 = (header_final w sock_fd buf n t).w := by
  cases hr : regexec_REQEX buf with
  | none =>
    rw [parse_request_none_of_no_reqline w sock_fd buf bytes_read hr] at h
    simp at h
  | some m =>
    obtain ⟨m1, m2, m3⟩ := m
    obtain ⟨n, t, hl, -, -, -⟩ := regexec_REQEX_some buf m1 m2 m3 hr
    refine ⟨n, t, hl, ?_⟩
    rw [parse_request_of_ReqLine w sock_fd buf bytes_read n t hl] at h
    split_ifs at h with hc
    · simp only [Prod.mk.injEq, Option.some.injEq] at h
      exact ⟨hc.1, hc.2, h.1.symm, h.2.symm⟩
    · simp at h

/-- The three strings of a parsed request are the method, target and version of
the request line as received. -/
theorem parse_request_strings (w : World) (sock_fd : Nat) (buf : List Nat) (bytes_read : Int)
    (req : Request) (w1 : World) (h : parse_request w sock_fd buf bytes_read = (some req, w1)) :
    ∃ n t, ReqLine buf n t ∧ req.sock_fd = sock_fd ∧
      req.commandStr = buf.take n ∧
      req.fileNameStr = (buf.drop (n + 2)).take t ∧
      req.versionStr = (buf.drop (n + 2 + t + 1)).take 8 := by
  obtain ⟨n, t, hl, -, -, hreq, -⟩ := parse_request_some w sock_fd buf bytes_read req w1 h
  refine ⟨n, t, hl, by rw [hreq], ?_, ?_, ?_⟩
  all_goals
    subst hreq
    simp only [Request.commandStr, Request.fileNameStr, Request.versionStr]
  · have := cstr_eq_slice (header_final w sock_fd buf n t).buf buf n 0 ?_ ?_ ?_
    · simpa using this
    · intro i hi
      rw [header_final, header_loop_getD _ _ _ _ (by simp only [header_init]; omega)]
      simp only [header_init, reqline_buf]
      rw [getD_set_ne _ _ _ _ (by omega), getD_set_ne _ _ _ _ (by omega),
        getD_set_ne _ _ _ _ (by omega)]
    · intro i hi
      apply isAlpha_ne_zero
      rw [Nat.zero_add]
      exact span_getD isAlpha buf i (by rw [← hl.n_eq]; exact hi)
    · rw [header_final, header_loop_getD _ _ _ _ (by simp only [header_init]; omega)]
      simp only [header_init, reqline_buf]
      rw [getD_set_ne _ _ _ _ (by omega), getD_set_ne _ _ _ _ (by omega), Nat.zero_add,
        getD_set_self]
  · apply cstr_eq_slice
    · intro i hi
      rw [header_final, header_loop_getD _ _ _ _ (by simp only [header_init]; omega)]
      simp only [header_init, reqline_buf]
      rw [getD_set_ne _ _ _ _ (by omega), getD_set_ne _ _ _ _ (by omega),
        getD_set_ne _ _ _ _ (by omega)]
    · intro i hi
      apply isNameChar_ne_zero
      rw [← getD_drop]
      exact span_getD isNameChar _ i (by rw [← hl.t_eq]; exact hi)
    · rw [header_final, header_loop_getD _ _ _ _ (by simp only [header_init]; omega)]
      simp only [header_init, reqline_buf]
      rw [getD_set_ne _ _ _ _ (by omega), getD_set_self]
  · apply cstr_eq_slice
    · intro i hi
      rw [header_final, header_loop_getD _ _ _ _ (by simp only [header_init]; omega)]
      simp only [header_init, reqline_buf]
      rw [getD_set_ne _ _ _ _ (by omega), getD_set_ne _ _ _ _ (by omega),
        getD_set_ne _ _ _ _ (by omega)]
    · intro i hi
      have h5 := isDigit_ne_zero _ hl.v5
      have h7 := isDigit_ne_zero _ hl.v7
      have h0 := hl.v0
      have h1 := hl.v1
      have h2 := hl.v2
      have h3 := hl.v3
      have h4 := hl.v4
      have h6 := hl.v6
      interval_cases i <;> simp_all
    · rw [header_final, header_loop_getD _ _ _ _ (by simp only [header_init]; omega)]
      simp only [header_init, reqline_buf]
      rw [getD_set_self]

theorem strncmp_eq_take (n : Nat) : ∀ (a lit : List Nat), lit.length = n → (∀ x ∈ lit, x ≠ 0) →
    strncmp_eq n a lit = true → a.take n = lit := by
  induction n with
  | zero =>
    intro a lit hl _ _
    simp [List.length_eq_zero.mp hl]
  | succ n ih =>
    intro a lit hl hnz h
    cases lit with
    | nil => simp at hl
    | cons y ys =>
      have hy : y ≠ 0 := hnz y (List.mem_cons_self _ _)
      cases a with
      | nil =>
        unfold strncmp_eq at h
        simp [Ne.symm hy] at h
      | cons x xs =>
        unfold strncmp_eq at h
        simp only [List.headD_cons, List.tail_cons] at h
        split_ifs at h with h1 h2
        · simp only [ne_eq, not_not] at h1
          subst h1
          exact absurd h2 hy
        · simp only [ne_eq, not_not] at h1
          subst h1
          rw [List.take_succ_cons, ih xs ys (by simpa using hl)
            (fun z hz => hnz z (List.mem_cons_of_mem _ hz)) h]

theorem takeWhile_take (p : Nat → Bool) : ∀ (n : Nat) (l : List Nat),
    (∀ x ∈ l.take n, p x = true) → (l.takeWhile p).take n = l.take n := by
  intro n
  induction n with
  | zero => intro l _; simp
  | succ n ih =>
    intro l h
    cases l with
    | nil => simp
    | cons x xs =>
      have hx : p x = true := h x (by simp)
      rw [List.takeWhile_cons_of_pos hx, List.take_succ_cons, List.take_succ_cons,
        ih xs (fun z hz => h z (by simp [hz]))]

theorem str_http11 : str "HTTP/1.1" = [72, 84, 84, 80, 47, 49, 46, 49] := by decide

/-- On a parsed request the version test of `process_request` is an exact
comparison with `HTTP/1.1`. -/
theorem version_test_exact (w : World) (sock_fd : Nat) (buf : List Nat) (bytes_read : Int)
    (req : Request) (w1 : World) (h : parse_request w sock_fd buf bytes_read = (some req, w1))
    (ht : strncmp_eq 8 (req.buf.drop req.version) (str "HTTP/1.1") = true) :
    req.versionStr = str "HTTP/1.1" := by
  obtain ⟨n, t, hl, -, -, -, hv⟩ := parse_request_strings w sock_fd buf bytes_read req w1 h
  have hlen : req.versionStr.length = 8 := by
    rw [hv, List.length_take, List.length_drop]
    have := lt_length_of_getD_ne buf (n + 2 + t + 1 + 9) (by rw [hl.lf]; decide)
    omega
  have htake := strncmp_eq_take 8 (req.buf.drop req.version) (str "HTTP/1.1") (by decide)
    (by decide) ht
  have h2 : req.versionStr.take 8 = str "HTTP/1.1" := by
    unfold Request.versionStr cstr
    rw [takeWhile_take _ 8 _ (by rw [htake]; decide), htake]
  rw [← h2, List.take_of_length_le (by omega)]

/-! ## Effects of the primitives -/

@[simp] theorem sends_append (a b : List Event) : sends (a ++ b) = sends a ++ sends b := by
  simp [sends, List.filterMap_append]

@[simp] theorem file_writes_append (a b : List Event) (name : List Nat) :
    file_writes (a ++ b) name = file_writes a name ++ file_writes b name := by
  simp [file_writes, List.filterMap_append]

@[simp] theorem audit_lines_append (a b : List Event) :
    audit_lines (a ++ b) = audit_lines a ++ audit_lines b := by
  simp [audit_lines, List.filterMap_append]

@[simp] theorem sends_nil : sends [] = [] := rfl
@[simp] theorem sends_cons_send {fd} {b} {t : List Event} :
    sends (Event.send fd b :: t) = (fd, b) :: sends t := rfl
@[simp] theorem sends_cons_log {l} {t : List Event} :
    sends (Event.log l :: t) = sends t := rfl
@[simp] theorem sends_cons_open {n} {f} {ok} {t : List Event} :
    sends (Event.open_ n f ok :: t) = sends t := rfl
@[simp] theorem sends_cons_fstat {n} {t : List Event} :
    sends (Event.fstat n :: t) = sends t := rfl
@[simp] theorem sends_cons_write {n} {b} {t : List Event} :
    sends (Event.write n b :: t) = sends t := rfl
@[simp] theorem sends_cons_splice_in {n} {b} {t : List Event} :
    sends (Event.splice_in n b :: t) = sends t := rfl
@[simp] theorem sends_cons_splice_out_failed {n} {t : List Event} :
    sends (Event.splice_out_failed n :: t) = sends t := rfl
@[simp] theorem sends_cons_close_file {n} {t : List Event} :
    sends (Event.close_file n :: t) = sends t := rfl
@[simp] theorem sends_cons_close_sock {fd} {t : List Event} :
    sends (Event.close_sock fd :: t) = sends t := rfl
@[simp] theorem sends_cons_lock {m} {i} {t : List Event} :
    sends (Event.lock m i :: t) = sends t := rfl
@[simp] theorem sends_cons_unlock {m} {i} {t : List Event} :
    sends (Event.unlock m i :: t) = sends t := rfl
@[simp] theorem audit_lines_nil : audit_lines [] = [] := rfl
@[simp] theorem audit_lines_cons_send {fd} {b} {t : List Event} :
    audit_lines (Event.send fd b :: t) = audit_lines t := rfl
@[simp] theorem audit_lines_cons_log {l} {t : List Event} :
    audit_lines (Event.log l :: t) = l :: audit_lines t := rfl
@[simp] theorem audit_lines_cons_open {n} {f} {ok} {t : List Event} :
    audit_lines (Event.open_ n f ok :: t) = audit_lines t := rfl
@[simp] theorem audit_lines_cons_fstat {n} {t : List Event} :
    audit_lines (Event.fstat n :: t) = audit_lines t := rfl
@[simp] theorem audit_lines_cons_write {n} {b} {t : List Event} :
    audit_lines (Event.write n b :: t) = audit_lines t := rfl
@[simp] theorem audit_lines_cons_splice_in {n} {b} {t : List Event} :
    audit_lines (Event.splice_in n b :: t) = audit_lines t := rfl
@[simp] theorem audit_lines_cons_splice_out_failed {n} {t : List Event} :
    audit_lines (Event.splice_out_failed n :: t) = audit_lines t := rfl
@[simp] theorem audit_lines_cons_close_file {n} {t : List Event} :
    audit_lines (Event.close_file n :: t) = audit_lines t := rfl
@[simp] theorem audit_lines_cons_close_sock {fd} {t : List Event} :
    audit_lines (Event.close_sock fd :: t) = audit_lines t := rfl
@[simp] theorem audit_lines_cons_lock {m} {i} {t : List Event} :
    audit_lines (Event.lock m i :: t) = audit_lines t := rfl
@[simp] theorem audit_lines_cons_unlock {m} {i} {t : List Event} :
    audit_lines (Event.unlock m i :: t) = audit_lines t := rfl
@[simp] theorem file_writes_nil {name : List Nat} : file_writes [] name = [] := rfl
@[simp] theorem file_writes_cons_send {fd} {b} {t : List Event} {name : List Nat} :
    file_writes (Event.send fd b :: t) name = file_writes t name := rfl
@[simp] theorem file_writes_cons_log {l} {t : List Event} {name : List Nat} :
    file_writes (Event.log l :: t) name = file_writes t name := rfl
@[simp] theorem file_writes_cons_open {n} {f} {ok} {t : List Event} {name : List Nat} :
    file_writes (Event.open_ n f ok :: t) name = file_writes t name := rfl
@[simp] theorem file_writes_cons_fstat {n} {t : List Event} {name : List Nat} :
    file_writes (Event.fstat n :: t) name = file_writes t name := rfl
@[simp] theorem file_writes_cons_splice_out_failed {n} {t : List Event} {name : List Nat} :
    file_writes (Event.splice_out_failed n :: t) name = file_writes t name := rfl
@[simp] theorem file_writes_cons_close_file {n} {t : List Event} {name : List Nat} :
    file_writes (Event.close_file n :: t) name = file_writes t name := rfl
@[simp] theorem file_writes_cons_close_sock {fd} {t : List Event} {name : List Nat} :
    file_writes (Event.close_sock fd :: t) name = file_writes t name := rfl
@[simp] theorem file_writes_cons_lock {m} {i} {t : List Event} {name : List Nat} :
    file_writes (Event.lock m i :: t) name = file_writes t name := rfl
@[simp] theorem file_writes_cons_unlock {m} {i} {t : List Event} {name : List Nat} :
    file_writes (Event.unlock m i :: t) name = file_writes t name := rfl
@[simp] theorem file_writes_cons_write {n b : List Nat} {t : List Event} :
    file_writes (Event.write n b :: t) n = b ++ file_writes t n := by
  simp [file_writes]
@[simp] theorem file_writes_cons_splice_in {n b : List Nat} {t : List Event} :
    file_writes (Event.splice_in n b :: t) n = b ++ file_writes t n := by
  simp [file_writes]

@[simp] theorem emit_trace (w : World) (e : Event) : (w.emit e).trace = w.trace ++ [e] := rfl
@[simp] theorem emit_fs (w : World) (e : Event) : (w.emit e).fs = w.fs := rfl
@[simp] theorem emit_errno (w : World) (e : Event) : (w.emit e).errno = w.errno := rfl
@[simp] theorem emit_faults (w : World) (e : Event) : (w.emit e).faults = w.faults := rfl
@[simp] theorem emit_sock_in (w : World) (e : Event) : (w.emit e).sock_in = w.sock_in := rfl
@[simp] theorem emit_sock_eof (w : World) (e : Event) : (w.emit e).sock_eof = w.sock_eof := rfl
@[simp] theorem emit_registry (w : World) (e : Event) : (w.emit e).registry = w.registry := rfl
@[simp] theorem emit_cwd (w : World) (e : Event) : (w.emit e).cwd_writable = w.cwd_writable := rfl

@[simp] theorem dprintf_trace (w : World) (fd : Nat) (b : List Nat) :
    (dprintf w fd b).trace = w.trace ++ [Event.send fd b] := rfl
@[simp] theorem dprintf_fs (w : World) (fd : Nat) (b : List Nat) : (dprintf w fd b).fs = w.fs := rfl
@[simp] theorem dprintf_registry (w : World) (fd : Nat) (b : List Nat) :
    (dprintf w fd b).registry = w.registry := rfl

@[simp] theorem audit_fs (w : World) (m : String) (n : List Nat) (s : String) (i : Int) :
    (audit w m n s i).fs = w.fs := rfl
@[simp] theorem audit_sends (w : World) (m : String) (n : List Nat) (s : String) (i : Int) :
    sends (audit w m n s i).trace = sends w.trace := by
  simp [audit, sends]
@[simp] theorem audit_file_writes (w : World) (m : String) (n : List Nat) (s : String) (i : Int)
    (name : List Nat) : file_writes (audit w m n s i).trace name = file_writes w.trace name := by
  simp [audit, file_writes]

@[simp] theorem close_file_fs (w : World) (fd : Fd) : (close_file w fd).fs = w.fs := rfl
@[simp] theorem close_file_sends (w : World) (fd : Fd) :
    sends (close_file w fd).trace = sends w.trace := by
  simp [close_file, sends]
@[simp] theorem close_file_file_writes (w : World) (fd : Fd) (name : List Nat) :
    file_writes (close_file w fd).trace name = file_writes w.trace name := by
  simp [close_file, file_writes]

@[simp] theorem file_write_lock_fs (w : World) (n : List Nat) : (file_write_lock w n).fs = w.fs := rfl
@[simp] theorem file_write_lock_errno (w : World) (n : List Nat) :
    (file_write_lock w n).errno = w.errno := rfl
@[simp] theorem file_write_lock_faults (w : World) (n : List Nat) :
    (file_write_lock w n).faults = w.faults := rfl
@[simp] theorem file_write_lock_cwd (w : World) (n : List Nat) :
    (file_write_lock w n).cwd_writable = w.cwd_writable := rfl
@[simp] theorem file_write_lock_sock_in (w : World) (n : List Nat) :
    (file_write_lock w n).sock_in = w.sock_in := rfl
@[simp] theorem file_write_lock_sock_eof (w : World) (n : List Nat) :
    (file_write_lock w n).sock_eof = w.sock_eof := rfl
@[simp] theorem file_write_lock_sends (w : World) (n : List Nat) :
    sends (file_write_lock w n).trace = sends w.trace := by
  simp [file_write_lock, sends]
@[simp] theorem file_write_lock_file_writes (w : World) (n name : List Nat) :
    file_writes (file_write_lock w n).trace name = file_writes w.trace name := by
  simp [file_write_lock, file_writes]

@[simp] theorem file_write_unlock_fs (w : World) (n : List Nat) :
    (file_write_unlock w n).fs = w.fs := rfl
@[simp] theorem file_write_unlock_sends (w : World) (n : List Nat) :
    sends (file_write_unlock w n).trace = sends w.trace := by
  simp [file_write_unlock, sends]
@[simp] theorem file_write_unlock_file_writes (w : World) (n name : List Nat) :
    file_writes (file_write_unlock w n).trace name = file_writes w.trace name := by
  simp [file_write_unlock, file_writes]

/-! ## `open` -/

theorem next_fault_nil (w : World) (h : w.faults = []) : next_fault w = (none, w) := by
  unfold next_fault; rw [h]

theorem Fault.errno_ne_EEXIST (f : Fault) : f.errno ≠ EEXIST := by cases f <;> decide

theorem Fault.errno_ne_EACCES (f : Fault) : f.errno ≠ EACCES := by cases f <;> decide

theorem Fault.errno_ne_ENOENT (f : Fault) : f.errno ≠ ENOENT := by cases f <;> decide

/-- The world after `next_fault` differs from the one before in `faults` only. -/
theorem next_fault_snd (w : World) :
    (next_fault w).2 = { w with faults := w.faults.tail } := by
  unfold next_fault
  cases h : w.faults with
  | nil => simp [h]; cases w; simp_all
  | cons f rest => simp [h]

theorem posix_open_sends (w : World) (name : List Nat) (fl : OFlags) :
    sends (posix_open w name fl).2.trace = sends w.trace := by
  unfold posix_open
  rw [show next_fault w = ((next_fault w).1, (next_fault w).2) from rfl, next_fault_snd]
  cases (next_fault w).1 with
  | some f => simp [sends]
  | none =>
    dsimp only
    cases open_outcome w.fs w.cwd_writable name fl with
    | mk res fs1 => cases res <;> simp [sends]

theorem posix_open_file_writes (w : World) (name : List Nat) (fl : OFlags) (n : List Nat) :
    file_writes (posix_open w name fl).2.trace n = file_writes w.trace n := by
  unfold posix_open
  rw [show next_fault w = ((next_fault w).1, (next_fault w).2) from rfl, next_fault_snd]
  cases (next_fault w).1 with
  | some f => simp [file_writes]
  | none =>
    dsimp only
    cases open_outcome w.fs w.cwd_writable name fl with
    | mk res fs1 => cases res <;> simp [file_writes]

theorem posix_open_sock (w : World) (name : List Nat) (fl : OFlags) :
    (posix_open w name fl).2.sock_in = w.sock_in ∧
      (posix_open w name fl).2.sock_eof = w.sock_eof ∧
      (posix_open w name fl).2.cwd_writable = w.cwd_writable ∧
      (posix_open w name fl).2.faults = w.faults.tail := by
  unfold posix_open
  rw [show next_fault w = ((next_fault w).1, (next_fault w).2) from rfl, next_fault_snd]
  cases (next_fault w).1 with
  | some f => simp
  | none =>
    dsimp only
    cases open_outcome w.fs w.cwd_writable name fl with
    | mk res fs1 => cases res <;> simp

theorem open_outcome_fs_of_plain (fs : List Nat → Option Node) (c : Bool) (name : List Nat)
    (fl : OFlags) (h1 : fl.creat = false) (h2 : fl.trunc = false) :
    (open_outcome fs c name fl).2 = fs := by
  unfold open_outcome
  rw [h1, h2]
  cases fs name with
  | none => simp
  | some nd =>
    cases nd with
    | dir r sz => simp only [Bool.false_and]; split_ifs <;> rfl
    | file r wr ct => simp only [Bool.false_and]; split_ifs <;> rfl

/-- An `open` without `O_CREAT` and `O_TRUNC` leaves the file system as it is. -/
theorem posix_open_fs_of_plain (w : World) (name : List Nat) (fl : OFlags)
    (h1 : fl.creat = false) (h2 : fl.trunc = false) : (posix_open w name fl).2.fs = w.fs := by
  have ho := open_outcome_fs_of_plain w.fs w.cwd_writable name fl h1 h2
  unfold posix_open
  rw [show next_fault w = ((next_fault w).1, (next_fault w).2) from rfl, next_fault_snd]
  cases (next_fault w).1 with
  | some f => simp
  | none =>
    dsimp only
    revert ho
    cases open_outcome w.fs w.cwd_writable name fl with
    | mk res fs1 => intro ho; cases res <;> simpa using ho

/-- The exclusive create returns a descriptor only for a name absent before;
the new entry is an empty regular file. -/
theorem posix_open_excl_some (w : World) (name : List Nat) (fd : Fd) (w' : World)
    (h : posix_open w name O_WRONLY_CREAT_EXCL = (some fd, w')) :
    w.fs name = none ∧ fd.name = name ∧ w'.fs = fs_set w.fs name (.file true true []) := by
  unfold posix_open at h
  rw [show next_fault w = ((next_fault w).1, (next_fault w).2) from rfl, next_fault_snd] at h
  cases hf : (next_fault w).1 with
  | some f => rw [hf] at h; simp at h
  | none =>
    rw [hf] at h
    dsimp only at h
    unfold open_outcome at h
    cases hn : w.fs name with
    | none =>
      rw [hn] at h
      simp only [O_WRONLY_CREAT_EXCL, if_true] at h
      cases hc : w.cwd_writable with
      | false => rw [hc] at h; simp at h
      | true =>
        rw [hc] at h
        simp only [if_true, Prod.mk.injEq, Option.some.injEq] at h
        obtain ⟨h1, h2⟩ := h
        subst h1 h2
        exact ⟨rfl, rfl, rfl⟩
    | some nd =>
      rw [hn] at h
      cases nd <;> simp [O_WRONLY_CREAT_EXCL] at h

/-- The exclusive create fails with `EEXIST` only for a name present before. -/
theorem posix_open_excl_eexist (w : World) (name : List Nat) (w' : World)
    (h : posix_open w name O_WRONLY_CREAT_EXCL = (none, w')) (he : w'.errno = EEXIST) :
    w.fs name ≠ none ∧ w'.fs = w.fs := by
  unfold posix_open at h
  rw [show next_fault w = ((next_fault w).1, (next_fault w).2) from rfl, next_fault_snd] at h
  cases hf : (next_fault w).1 with
  | some f =>
    rw [hf] at h
    simp only [Prod.mk.injEq, true_and] at h
    subst h
    exact absurd he (Fault.errno_ne_EEXIST f)
  | none =>
    rw [hf] at h
    dsimp only at h
    unfold open_outcome at h
    cases hn : w.fs name with
    | none =>
      rw [hn] at h
      simp only [O_WRONLY_CREAT_EXCL, if_true] at h
      cases hc : w.cwd_writable with
      | false =>
        rw [hc] at h
        simp only [Bool.false_eq_true, if_false, Prod.mk.injEq, true_and] at h
        subst h
        have hne : EACCES ≠ EEXIST := by decide
        exact absurd he hne
      | true => rw [hc] at h; simp at h
    | some nd =>
      rw [hn] at h
      cases nd <;>
      · simp only [O_WRONLY_CREAT_EXCL, Bool.and_self, if_true, Prod.mk.injEq, true_and] at h
        subst h
        exact ⟨by simp, rfl⟩

/-- On a name that is present the exclusive create returns no descriptor. -/
theorem posix_open_excl_of_present (w : World) (name : List Nat) (h : w.fs name ≠ none) :
    (posix_open w name O_WRONLY_CREAT_EXCL).1 = none := by
  cases hp : posix_open w name O_WRONLY_CREAT_EXCL with
  | mk res w' =>
    cases res with
    | none => rfl
    | some fd => exact absurd (posix_open_excl_some w name fd w' hp).1 h

/-- A successful truncating open of a name that is present: the entry is a
regular file, now empty. -/
theorem posix_open_trunc_some (w : World) (name : List Nat) (fd : Fd) (w' : World)
    (h : posix_open w name O_WRONLY_CREAT_TRUNC = (some fd, w')) :
    fd.name = name ∧ ∃ rd wr, w'.fs = fs_set w.fs name (.file rd wr []) := by
  unfold posix_open at h
  rw [show next_fault w = ((next_fault w).1, (next_fault w).2) from rfl, next_fault_snd] at h
  cases hf : (next_fault w).1 with
  | some f => rw [hf] at h; simp at h
  | none =>
    rw [hf] at h
    dsimp only at h
    unfold open_outcome at h
    cases hn : w.fs name with
    | none =>
      rw [hn] at h
      simp only [O_WRONLY_CREAT_TRUNC, if_true] at h
      cases hc : w.cwd_writable with
      | false => rw [hc] at h; simp at h
      | true =>
        rw [hc] at h
        simp only [if_true, Prod.mk.injEq, Option.some.injEq] at h
        obtain ⟨h1, h2⟩ := h
        subst h1 h2
        exact ⟨rfl, true, true, rfl⟩
    | some nd =>
      rw [hn] at h
      cases nd with
      | dir r sz => simp [O_WRONLY_CREAT_TRUNC] at h
      | file rd wr ct =>
        simp only [O_WRONLY_CREAT_TRUNC, Bool.and_false, Bool.false_eq_true, if_false,
          if_true] at h
        cases hw : wr with
        | false => rw [hw] at h; simp at h
        | true =>
          rw [hw] at h
          simp only [if_true, Prod.mk.injEq, Option.some.injEq] at h
          obtain ⟨h1, h2⟩ := h
          subst h1 h2
          exact ⟨rfl, rd, true, rfl⟩

/-! ## `write_n_bytes`, `pass_n_bytes` -/

theorem toInt32_neg_one : toInt32 (-1) = -1 := by decide

/-- `write_n_bytes` either fails, returning `-1` and writing nothing, or writes
all the bytes. -/
theorem write_n_bytes_cases (w : World) (fd : Fd) (bytes : List Nat) :
    ((write_n_bytes w fd bytes).1 = -1 ∧
        sends (write_n_bytes w fd bytes).2.trace = sends w.trace ∧
        (write_n_bytes w fd bytes).2.fs = w.fs ∧
        ∀ n, file_writes (write_n_bytes w fd bytes).2.trace n = file_writes w.trace n) ∨
      ((write_n_bytes w fd bytes).1 = bytes.length ∧
        sends (write_n_bytes w fd bytes).2.trace = sends w.trace ∧
        (write_n_bytes w fd bytes).2.fs = fs_append w.fs fd.name bytes ∧
        (write_n_bytes w fd bytes).2.sock_in = w.sock_in ∧
        (write_n_bytes w fd bytes).2.sock_eof = w.sock_eof ∧
        file_writes (write_n_bytes w fd bytes).2.trace fd.name =
          file_writes w.trace fd.name ++ bytes) := by
  unfold write_n_bytes
  rw [show next_fault w = ((next_fault w).1, (next_fault w).2) from rfl, next_fault_snd]
  cases (next_fault w).1 with
  | some f => left; simp
  | none => right; simp [sends, file_writes]

/-- `pass_n_bytes` from the socket either fails with `-1`, or returns a count
and has appended to the file the first `n` bytes the socket delivers. -/
theorem pass_n_bytes_in_cases (w : World) (fd : Fd) (n : Nat) :
    ((pass_n_bytes_in w fd n).1 = -1 ∧
        sends (pass_n_bytes_in w fd n).2.trace = sends w.trace) ∨
      ((pass_n_bytes_in w fd n).1 = (spliced w n).length ∧
        (n ≤ w.sock_in.flatten.length ∨ w.sock_eof = true) ∧
        sends (pass_n_bytes_in w fd n).2.trace = sends w.trace ∧
        (pass_n_bytes_in w fd n).2.fs = fs_append w.fs fd.name (spliced w n) ∧
        file_writes (pass_n_bytes_in w fd n).2.trace fd.name =
          file_writes w.trace fd.name ++ spliced w n) := by
  unfold pass_n_bytes_in spliced
  rw [show next_fault w = ((next_fault w).1, (next_fault w).2) from rfl, next_fault_snd]
  cases (next_fault w).1 with
  | some f => left; simp
  | none =>
    dsimp only
    by_cases hn : n ≤ w.sock_in.flatten.length
    · right
      rw [if_pos hn]
      refine ⟨?_, Or.inl hn, ?_, rfl, ?_⟩
      · show (n : Int) = ((w.sock_in.flatten.take n).length : Int)
        rw [List.length_take, Nat.min_eq_left hn]
      · simp [sends]
      · simp [file_writes]
    · rw [if_neg hn]
      have ht : w.sock_in.flatten.take n = w.sock_in.flatten :=
        List.take_of_length_le (by omega)
      rw [ht]
      cases he : w.sock_eof with
      | true =>
        right
        refine ⟨rfl, Or.inr rfl, ?_, rfl, ?_⟩
        · simp [sends]
        · simp [file_writes]
      | false => left; simp [sends]

/-! ## `process_put` -/

theorem process_put_body_eq (w : World) (r : Request) (fd : Fd) (sc : Nat) :
    process_put_body w r fd sc =
      if toInt32 (write_n_bytes w fd r.body).1 = -1 then
        (EXIT_FAILURE,
          file_write_unlock
            (close_file
              (audit (dprintf (write_n_bytes w fd r.body).2 r.sock_fd INTERNAL_SERVER_ERROR) "PUT"
                r.fileNameStr "500" r.request_ID) fd) r.fileNameStr)
      else if toInt32 (pass_n_bytes_in (write_n_bytes w fd r.body).2 fd (put_remaining r)).1 = -1 then
        (EXIT_FAILURE,
          file_write_unlock
            (close_file
              (dprintf (pass_n_bytes_in (write_n_bytes w fd r.body).2 fd (put_remaining r)).2
                r.sock_fd INTERNAL_SERVER_ERROR) fd) r.fileNameStr)
      else
        (EXIT_SUCCESS,
          file_write_unlock
            (close_file
              (if sc = 201 then
                audit
                  (dprintf (pass_n_bytes_in (write_n_bytes w fd r.body).2 fd (put_remaining r)).2
                    r.sock_fd CREATED) "PUT" r.fileNameStr "201" r.request_ID
              else
                audit
                  (dprintf (pass_n_bytes_in (write_n_bytes w fd r.body).2 fd (put_remaining r)).2
                    r.sock_fd OK) "PUT" r.fileNameStr "200" r.request_ID) fd) r.fileNameStr) := by
  rfl

theorem sends_dprintf (w : World) (fd : Nat) (b : List Nat) :
    sends (dprintf w fd b).trace = sends w.trace ++ [(fd, b)] := by
  simp [sends]

theorem EXIT_FAILURE_ne_SUCCESS : EXIT_FAILURE ≠ EXIT_SUCCESS := by decide

/-- A failing `process_put_body` has answered 500 and nothing else. -/
theorem process_put_body_failure (w : World) (r : Request) (fd : Fd) (sc : Nat)
    (h : (process_put_body w r fd sc).1 ≠ EXIT_SUCCESS) :
    answers w (process_put_body w r fd sc).2 r.sock_fd INTERNAL_SERVER_ERROR := by
  rw [process_put_body_eq] at h ⊢
  unfold answers
  by_cases h1 : toInt32 (write_n_bytes w fd r.body).1 = -1
  · rw [if_pos h1]
    rcases write_n_bytes_cases w fd r.body with hc | hc
    · simp [hc.2.1]
    · simp [hc.2.1]
  · rw [if_neg h1] at h ⊢
    by_cases h2 : toInt32 (pass_n_bytes_in (write_n_bytes w fd r.body).2 fd (put_remaining r)).1 = -1
    · rw [if_pos h2]
      rcases write_n_bytes_cases w fd r.body with hc | hc <;>
      rcases pass_n_bytes_in_cases (write_n_bytes w fd r.body).2 fd (put_remaining r) with hp | hp
      · simp [hc.2.1, hp.2]
      · simp [hc.2.1, hp.2.2.1]
      · simp [hc.2.1, hp.2]
      · simp [hc.2.1, hp.2.2.1]
    · rw [if_neg h2] at h
      exact absurd rfl h

/-- A successful `process_put_body` has written the pre-buffered body and then
what the socket delivered of the remainder, and has answered 201 or 200 as
`status_code` says. -/
theorem process_put_body_success (w : World) (r : Request) (fd : Fd) (sc : Nat)
    (h : (process_put_body w r fd sc).1 = EXIT_SUCCESS) :
    answers w (process_put_body w r fd sc).2 r.sock_fd (if sc = 201 then CREATED else OK) ∧
      file_writes (process_put_body w r fd sc).2.trace fd.name =
        file_writes w.trace fd.name ++ (r.body ++ spliced w (put_remaining r)) ∧
      (process_put_body w r fd sc).2.fs =
        fs_append (fs_append w.fs fd.name r.body) fd.name (spliced w (put_remaining r)) ∧
      (put_remaining r ≤ w.sock_in.flatten.length ∨ w.sock_eof = true) := by
  rw [process_put_body_eq] at h ⊢
  unfold answers
  by_cases h1 : toInt32 (write_n_bytes w fd r.body).1 = -1
  · rw [if_pos h1] at h
    exact absurd h EXIT_FAILURE_ne_SUCCESS
  rw [if_neg h1] at h ⊢
  by_cases h2 : toInt32 (pass_n_bytes_in (write_n_bytes w fd r.body).2 fd (put_remaining r)).1 = -1
  · rw [if_pos h2] at h
    exact absurd h EXIT_FAILURE_ne_SUCCESS
  rw [if_neg h2]
  rcases write_n_bytes_cases w fd r.body with hc | hc
  · rw [hc.1] at h1; exact absurd toInt32_neg_one h1
  rcases pass_n_bytes_in_cases (write_n_bytes w fd r.body).2 fd (put_remaining r) with hp | hp
  · rw [hp.1] at h2; exact absurd toInt32_neg_one h2
  obtain ⟨-, hs, hfs, hin, heof, hfw⟩ := hc
  obtain ⟨-, hen, hs2, hfs2, hfw2⟩ := hp
  have hsp : spliced (write_n_bytes w fd r.body).2 (put_remaining r) =
      spliced w (put_remaining r) := by unfold spliced; rw [hin]
  rw [hin, heof] at hen
  rw [hsp] at hfs2 hfw2
  refine ⟨?_, ?_, ?_, hen⟩
  · by_cases hsc : sc = 201
    · simp [hsc, hs, hs2]
    · simp [hsc, hs, hs2]
  · by_cases hsc : sc = 201
    · simp [hsc, hfw, hfw2]
    · simp [hsc, hfw, hfw2]
  · by_cases hsc : sc = 201
    · simp [hsc, hfs, hfs2]
    · simp [hsc, hfs, hfs2]

theorem open_outcome_error_fs (fs : List Nat → Option Node) (c : Bool) (name : List Nat)
    (fl : OFlags) (e : Nat) (fs1 : List Nat → Option Node)
    (h : open_outcome fs c name fl = (.error e, fs1)) : fs1 = fs := by
  unfold open_outcome at h
  cases hn : fs name with
  | none =>
    rw [hn] at h
    dsimp only at h
    split_ifs at h <;> simp_all
  | some nd =>
    rw [hn] at h
    cases nd with
    | dir rd sz =>
      dsimp only at h
      split_ifs at h <;> simp_all
    | file rd wr ct =>
      dsimp only at h
      split_ifs at h <;> simp_all

/-- An `open` that returns no descriptor leaves the file system as it is. -/
theorem posix_open_none_fs (w : World) (name : List Nat) (fl : OFlags) (w' : World)
    (h : posix_open w name fl = (none, w')) : w'.fs = w.fs := by
  unfold posix_open at h
  rw [show next_fault w = ((next_fault w).1, (next_fault w).2) from rfl, next_fault_snd] at h
  cases hf : (next_fault w).1 with
  | some f =>
    rw [hf] at h
    simp only [Prod.mk.injEq, true_and] at h
    subst h
    rfl
  | none =>
    rw [hf] at h
    dsimp only at h
    cases ho : open_outcome w.fs w.cwd_writable name fl with
    | mk res fs1 =>
      rw [ho] at h
      cases res with
      | ok fd => simp at h
      | error e =>
        simp only [Prod.mk.injEq, true_and] at h
        subst h
        exact open_outcome_error_fs _ _ _ _ _ _ ho

theorem snd_of_eq {α β : Type} {p : α × β} {a : α} {b : β} (h : p = (a, b)) : b = p.2 := by
  rw [h]

/-- When `process_put_open` reaches the body: the descriptor is on the target,
nothing was sent or written yet, `status_code` is 201 exactly when the target
was absent and 200 exactly when it was present, and the target is now an empty
regular file. -/
theorem process_put_open_ok (w : World) (r : Request) (fd : Fd) (sc : Nat) (w3 : World)
    (h : process_put_open w r = .ok (fd, sc, w3)) :
    fd.name = r.fileNameStr ∧ sends w3.trace = sends w.trace ∧
      (∀ n, file_writes w3.trace n = file_writes w.trace n) ∧
      ((sc = 201 ∧ w.fs r.fileNameStr = none) ∨ (sc = 200 ∧ w.fs r.fileNameStr ≠ none)) ∧
      (∃ rd wr, w3.fs = fs_set w.fs r.fileNameStr (.file rd wr [])) ∧
      w3.sock_in = w.sock_in ∧ w3.sock_eof = w.sock_eof := by
  unfold process_put_open at h
  cases hp1 : posix_open w r.fileNameStr O_WRONLY_DIRECTORY with
  | mk o1 w1 =>
    rw [hp1] at h
    have hw1 := snd_of_eq hp1
    have hfs1 : w1.fs = w.fs := by rw [hw1]; exact posix_open_fs_of_plain _ _ _ rfl rfl
    have hs1 : sends w1.trace = sends w.trace := by rw [hw1]; exact posix_open_sends _ _ _
    have hf1 : ∀ n, file_writes w1.trace n = file_writes w.trace n := by
      intro n; rw [hw1]; exact posix_open_file_writes _ _ _ _
    have hk1 := posix_open_sock w r.fileNameStr O_WRONLY_DIRECTORY
    rw [← hw1] at hk1
    cases o1 with
    | some fd1 => simp at h
    | none =>
      dsimp only at h
      cases hp2 : posix_open (file_write_lock w1 r.fileNameStr) r.fileNameStr O_WRONLY_CREAT_EXCL with
      | mk o2 w2 =>
        rw [hp2] at h
        have hw2 := snd_of_eq hp2
        have hs2 : sends w2.trace = sends w.trace := by
          rw [hw2, posix_open_sends, file_write_lock_sends, hs1]
        have hf2 : ∀ n, file_writes w2.trace n = file_writes w.trace n := by
          intro n; rw [hw2, posix_open_file_writes, file_write_lock_file_writes, hf1]
        have hk2 := posix_open_sock (file_write_lock w1 r.fileNameStr) r.fileNameStr
          O_WRONLY_CREAT_EXCL
        rw [← hw2] at hk2
        simp only [file_write_lock_sock_in, file_write_lock_sock_eof] at hk2
        cases o2 with
        | some fd2 =>
          simp only [Except.ok.injEq, Prod.mk.injEq] at h
          obtain ⟨e1, e2, e3⟩ := h
          subst e1 e2 e3
          obtain ⟨a1, a2, a3⟩ := posix_open_excl_some _ _ _ _ hp2
          rw [file_write_lock_fs, hfs1] at a1 a3
          exact ⟨a2, hs2, hf2, Or.inl ⟨rfl, a1⟩, ⟨true, true, a3⟩, by rw [hk2.1, hk1.1],
            by rw [hk2.2.1, hk1.2.1]⟩
        | none =>
          dsimp only at h
          by_cases he : w2.errno = EEXIST
          · rw [if_pos he] at h
            obtain ⟨b1, b2⟩ := posix_open_excl_eexist _ _ _ hp2 he
            rw [file_write_lock_fs, hfs1] at b1 b2
            cases hp3 : posix_open w2 r.fileNameStr O_WRONLY_CREAT_TRUNC with
            | mk o3 w4 =>
              rw [hp3] at h
              have hw4 := snd_of_eq hp3
              have hk3 := posix_open_sock w2 r.fileNameStr O_WRONLY_CREAT_TRUNC
              rw [← hw4] at hk3
              cases o3 with
              | some fd3 =>
                simp only [Except.ok.injEq, Prod.mk.injEq] at h
                obtain ⟨e1, e2, e3⟩ := h
                subst e1 e2 e3
                obtain ⟨c1, rd, wr, c2⟩ := posix_open_trunc_some _ _ _ _ hp3
                rw [b2] at c2
                refine ⟨c1, ?_, ?_, Or.inr ⟨rfl, b1⟩, ⟨rd, wr, c2⟩, ?_, ?_⟩
                · rw [hw4, posix_open_sends, hs2]
                · intro n; rw [hw4, posix_open_file_writes, hf2]
                · rw [hk3.1, hk2.1, hk1.1]
                · rw [hk3.2.1, hk2.2.1, hk1.2.1]
              | none =>
                dsimp only at h
                split_ifs at h
          · rw [if_neg he] at h
            split_ifs at h

/-- When `process_put_open` returns instead: it has failed, answered 403 or
500, and left the file system as it was. -/
theorem process_put_open_error (w : World) (r : Request) (res : Int × World)
    (h : process_put_open w r = .error res) :
    res.1 = EXIT_FAILURE ∧
      (answers w res.2 r.sock_fd FORBIDDEN ∨ answers w res.2 r.sock_fd INTERNAL_SERVER_ERROR) ∧
      res.2.fs = w.fs ∧ (∀ n, file_writes res.2.trace n = file_writes w.trace n) := by
  unfold process_put_open at h
  unfold answers
  cases hp1 : posix_open w r.fileNameStr O_WRONLY_DIRECTORY with
  | mk o1 w1 =>
    rw [hp1] at h
    have hw1 := snd_of_eq hp1
    have hfs1 : w1.fs = w.fs := by rw [hw1]; exact posix_open_fs_of_plain _ _ _ rfl rfl
    have hs1 : sends w1.trace = sends w.trace := by rw [hw1]; exact posix_open_sends _ _ _
    have hf1 : ∀ n, file_writes w1.trace n = file_writes w.trace n := by
      intro n; rw [hw1]; exact posix_open_file_writes _ _ _ _
    cases o1 with
    | some fd1 =>
      simp only [Except.error.injEq] at h
      subst h
      refine ⟨rfl, Or.inl ?_, ?_, ?_⟩
      · simp [hs1]
      · simp [hfs1]
      · intro n; simp [hf1]
    | none =>
      dsimp only at h
      cases hp2 : posix_open (file_write_lock w1 r.fileNameStr) r.fileNameStr O_WRONLY_CREAT_EXCL with
      | mk o2 w2 =>
        rw [hp2] at h
        have hw2 := snd_of_eq hp2
        have hs2 : sends w2.trace = sends w.trace := by
          rw [hw2, posix_open_sends, file_write_lock_sends, hs1]
        have hf2 : ∀ n, file_writes w2.trace n = file_writes w.trace n := by
          intro n; rw [hw2, posix_open_file_writes, file_write_lock_file_writes, hf1]
        cases o2 with
        | some fd2 => simp at h
        | none =>
          have hfs2 : w2.fs = w.fs := by
            rw [posix_open_none_fs _ _ _ _ hp2, file_write_lock_fs, hfs1]
          dsimp only at h
          by_cases he : w2.errno = EEXIST
          · rw [if_pos he] at h
            cases hp3 : posix_open w2 r.fileNameStr O_WRONLY_CREAT_TRUNC with
            | mk o3 w4 =>
              rw [hp3] at h
              have hw4 := snd_of_eq hp3
              have hs4 : sends w4.trace = sends w.trace := by rw [hw4, posix_open_sends, hs2]
              have hf4 : ∀ n, file_writes w4.trace n = file_writes w.trace n := by
                intro n; rw [hw4, posix_open_file_writes, hf2]
              cases o3 with
              | some fd3 => simp at h
              | none =>
                have hfs4 : w4.fs = w.fs := by rw [posix_open_none_fs _ _ _ _ hp3, hfs2]
                dsimp only at h
                split_ifs at h
                · simp only [Except.error.injEq] at h
                  subst h
                  refine ⟨rfl, Or.inl ?_, ?_, ?_⟩
                  · simp [hs4]
                  · simp [hfs4]
                  · intro n; simp [hf4]
                · simp only [Except.error.injEq] at h
                  subst h
                  refine ⟨rfl, Or.inr ?_, ?_, ?_⟩
                  · simp [hs4]
                  · simp [hfs4]
                  · intro n; simp [hf4]
          · rw [if_neg he] at h
            split_ifs at h
            · simp only [Except.error.injEq] at h
              subst h
              refine ⟨rfl, Or.inl ?_, ?_, ?_⟩
              · simp [hs2]
              · simp [hfs2]
              · intro n; simp [hf2]
            · simp only [Except.error.injEq] at h
              subst h
              refine ⟨rfl, Or.inr ?_, ?_, ?_⟩
              · simp [hs2]
              · simp [hfs2]
              · intro n; simp [hf2]

theorem answers_unique (w w' : World) (fd : Nat) (a b : List Nat)
    (ha : answers w w' fd a) (hb : answers w w' fd b) : a = b := by
  unfold answers at ha hb
  rw [ha] at hb
  simpa using hb

theorem answers_trans_left (w w1 w' : World) (fd : Nat) (a : List Nat)
    (h1 : sends w1.trace = sends w.trace) (h : answers w1 w' fd a) : answers w w' fd a := by
  unfold answers at h ⊢
  rw [h, h1]

theorem process_put_eq_of_open_error (w : World) (r : Request) (res : Int × World)
    (hcl : r.content_length ≠ -1) (h : process_put_open w r = .error res) :
    process_put w r = res := by
  unfold process_put
  rw [if_neg hcl, h]

theorem process_put_eq_of_open_ok (w : World) (r : Request) (fd : Fd) (sc : Nat) (w1 : World)
    (hcl : r.content_length ≠ -1) (h : process_put_open w r = .ok (fd, sc, w1)) :
    process_put w r = process_put_body w1 r fd sc := by
  unfold process_put
  rw [if_neg hcl, h]

/-- The file system after appending `a` then `b` to a file that was just emptied. -/
theorem fs_append_fs_set (fs : List Nat → Option Node) (name : List Nat) (rd wr : Bool)
    (a b : List Nat) :
    fs_append (fs_append (fs_set fs name (.file rd wr [])) name a) name b =
      fs_set fs name (.file rd wr (a ++ b)) := by
  funext x
  simp only [fs_append, fs_set, if_true]
  split_ifs <;> simp_all

/-- Every run of `process_put` is of one of four kinds. -/
theorem process_put_cases (w : World) (r : Request) :
    (r.content_length = -1 ∧ process_put w r = (EXIT_FAILURE, dprintf w r.sock_fd BAD_REQUEST)) ∨
    ((process_put w r).1 = EXIT_FAILURE ∧
      (answers w (process_put w r).2 r.sock_fd FORBIDDEN ∨
        answers w (process_put w r).2 r.sock_fd INTERNAL_SERVER_ERROR)) ∨
    ((process_put w r).1 = EXIT_SUCCESS ∧ r.content_length ≠ -1 ∧
      answers w (process_put w r).2 r.sock_fd CREATED ∧ w.fs r.fileNameStr = none ∧
      (put_remaining r ≤ w.sock_in.flatten.length ∨ w.sock_eof = true) ∧
      file_writes (process_put w r).2.trace r.fileNameStr =
        file_writes w.trace r.fileNameStr ++ (r.body ++ spliced w (put_remaining r)) ∧
      ∃ rd wr, (process_put w r).2.fs =
        fs_set w.fs r.fileNameStr (.file rd wr (r.body ++ spliced w (put_remaining r)))) ∨
    ((process_put w r).1 = EXIT_SUCCESS ∧ r.content_length ≠ -1 ∧
      answers w (process_put w r).2 r.sock_fd OK ∧ w.fs r.fileNameStr ≠ none ∧
      (put_remaining r ≤ w.sock_in.flatten.length ∨ w.sock_eof = true) ∧
      file_writes (process_put w r).2.trace r.fileNameStr =
        file_writes w.trace r.fileNameStr ++ (r.body ++ spliced w (put_remaining r)) ∧
      ∃ rd wr, (process_put w r).2.fs =
        fs_set w.fs r.fileNameStr (.file rd wr (r.body ++ spliced w (put_remaining r)))) := by
  by_cases hcl : r.content_length = -1
  · left
    refine ⟨hcl, ?_⟩
    unfold process_put
    rw [if_pos hcl]
  cases ho : process_put_open w r with
  | error res =>
    right; left
    rw [process_put_eq_of_open_error w r res hcl ho]
    obtain ⟨h1, h2, -, -⟩ := process_put_open_error w r res ho
    exact ⟨h1, h2⟩
  | ok val =>
    obtain ⟨fd, sc, w1⟩ := val
    rw [process_put_eq_of_open_ok w r fd sc w1 hcl ho]
    obtain ⟨hfd, hs, hfw, hsc, ⟨rd, wr, hfs⟩, hin, heof⟩ := process_put_open_ok w r fd sc w1 ho
    by_cases hb : (process_put_body w1 r fd sc).1 = EXIT_SUCCESS
    · obtain ⟨b1, b2, b3, b4⟩ := process_put_body_success w1 r fd sc hb
      have hsp : spliced w1 (put_remaining r) = spliced w (put_remaining r) := by
        unfold spliced; rw [hin]
      rw [hfd, hfw, hsp] at b2
      rw [hfd, hsp, hfs, fs_append_fs_set] at b3
      rw [hin, heof] at b4
      rcases hsc with ⟨hsc, hex⟩ | ⟨hsc, hex⟩
      · right; right; left
        subst hsc
        exact ⟨hb, hcl, answers_trans_left w w1 _ _ _ hs (by simpa using b1), hex, b4, b2,
          rd, wr, b3⟩
      · right; right; right
        subst hsc
        exact ⟨hb, hcl, answers_trans_left w w1 _ _ _ hs (by simpa using b1), hex, b4, b2,
          rd, wr, b3⟩
    · right; left
      have hfail : (process_put_body w1 r fd sc).1 = EXIT_FAILURE := by
        rw [process_put_body_eq] at hb ⊢
        split_ifs at hb ⊢ <;> first | rfl | exact absurd rfl hb
      exact ⟨hfail, Or.inr (answers_trans_left w w1 _ _ _ hs
        (process_put_body_failure w1 r fd sc hb))⟩

theorem responses_distinct :
    BAD_REQUEST ≠ CREATED ∧ BAD_REQUEST ≠ OK ∧ FORBIDDEN ≠ CREATED ∧ FORBIDDEN ≠ OK ∧
      INTERNAL_SERVER_ERROR ≠ CREATED ∧ INTERNAL_SERVER_ERROR ≠ OK ∧ CREATED ≠ OK := by
  decide

theorem answers_dprintf (w : World) (fd : Nat) (b : List Nat) : answers w (dprintf w fd b) fd b := by
  simp [answers]

/-- A PUT answered 201 found the target absent and answered nothing else. -/
theorem process_put_created (w : World) (r : Request)
    (h : answers w (process_put w r).2 r.sock_fd CREATED) :
    (process_put w r).1 = EXIT_SUCCESS ∧ w.fs r.fileNameStr = none ∧
      (put_remaining r ≤ w.sock_in.flatten.length ∨ w.sock_eof = true) ∧
      file_writes (process_put w r).2.trace r.fileNameStr =
        file_writes w.trace r.fileNameStr ++ (r.body ++ spliced w (put_remaining r)) := by
  obtain ⟨d1, d2, d3, d4, d5, d6, d7⟩ := responses_distinct
  rcases process_put_cases w r with ⟨-, h1⟩ | ⟨-, h1 | h1⟩ | ⟨h0, -, -, h2, h3, h4, -⟩ |
    ⟨-, -, h1, -⟩
  · rw [h1] at h
    exact absurd (answers_unique _ _ _ _ _ (answers_dprintf w r.sock_fd BAD_REQUEST) h) d1
  · exact absurd (answers_unique _ _ _ _ _ h1 h) d3
  · exact absurd (answers_unique _ _ _ _ _ h1 h) d5
  · exact ⟨h0, h2, h3, h4⟩
  · exact absurd (answers_unique _ _ _ _ _ h h1) d7

/-- A PUT answered 200 found the target present and answered nothing else. -/
theorem process_put_ok (w : World) (r : Request)
    (h : answers w (process_put w r).2 r.sock_fd OK) :
    (process_put w r).1 = EXIT_SUCCESS ∧ w.fs r.fileNameStr ≠ none ∧
      (put_remaining r ≤ w.sock_in.flatten.length ∨ w.sock_eof = true) ∧
      file_writes (process_put w r).2.trace r.fileNameStr =
        file_writes w.trace r.fileNameStr ++ (r.body ++ spliced w (put_remaining r)) := by
  obtain ⟨d1, d2, d3, d4, d5, d6, d7⟩ := responses_distinct
  rcases process_put_cases w r with ⟨-, h1⟩ | ⟨-, h1 | h1⟩ | ⟨-, -, h1, -⟩ |
    ⟨h0, -, -, h2, h3, h4, -⟩
  · rw [h1] at h
    exact absurd (answers_unique _ _ _ _ _ (answers_dprintf w r.sock_fd BAD_REQUEST) h) d2
  · exact absurd (answers_unique _ _ _ _ _ h1 h) d4
  · exact absurd (answers_unique _ _ _ _ _ h1 h) d6
  · exact absurd (answers_unique _ _ _ _ _ h1 h) d7
  · exact ⟨h0, h2, h3, h4⟩

/-- After a successful PUT the target is a regular file. -/
theorem process_put_success_present (w : World) (r : Request)
    (h : (process_put w r).1 = EXIT_SUCCESS) : (process_put w r).2.fs r.fileNameStr ≠ none := by
  rcases process_put_cases w r with ⟨-, h1⟩ | ⟨h1, -⟩ | ⟨-, -, -, -, -, -, rd, wr, h2⟩ |
    ⟨-, -, -, -, -, -, rd, wr, h2⟩
  · rw [h1] at h; exact absurd h EXIT_FAILURE_ne_SUCCESS
  · rw [h1] at h; exact absurd h EXIT_FAILURE_ne_SUCCESS
  · rw [h2]; simp [fs_set]
  · rw [h2]; simp [fs_set]

theorem put_remaining_eq (r : Request) (h1 : r.remaining_bytes ≤ r.content_length)
    (h2 : r.content_length - r.remaining_bytes < 2147483648) :
    (put_remaining r : Int) = r.content_length - r.remaining_bytes := by
  unfold put_remaining toSizeT toInt32
  omega

theorem posix_open_of_no_fault (w : World) (name : List Nat) (fl : OFlags) (h : w.faults = []) :
    posix_open w name fl =
      match open_outcome w.fs w.cwd_writable name fl with
      | (.ok fd, fs1) => (some fd, { w with fs := fs1 }.emit (.open_ name fl true))
      | (.error e, fs1) => (none, { w with fs := fs1, errno := e }.emit (.open_ name fl false)) := by
  unfold posix_open
  rw [next_fault_nil w h]

/-- Without scheduled faults, on a target that is absent from a writable
directory, `process_put_open` creates the file and reaches the body with
`status_code = 201`. -/
theorem process_put_open_absent (w : World) (r : Request) (hf : w.faults = [])
    (hfs : w.fs r.fileNameStr = none) (hcwd : w.cwd_writable = true) :
    ∃ w1, process_put_open w r = .ok (⟨r.fileNameStr⟩, 201, w1) ∧ w1.faults = [] ∧
      w1.fs = fs_set w.fs r.fileNameStr (.file true true []) := by
  unfold process_put_open
  rw [posix_open_of_no_fault w _ _ hf]
  simp only [open_outcome, hfs, O_WRONLY_DIRECTORY, Bool.false_eq_true, if_false]
  rw [posix_open_of_no_fault _ _ _ (by simp [hf])]
  simp only [open_outcome, file_write_lock_fs, emit_fs, hfs, O_WRONLY_CREAT_EXCL, if_true,
    file_write_lock_cwd, emit_cwd, hcwd]
  exact ⟨_, rfl, by simp [hf], rfl⟩

/-- Without scheduled faults, on a target that is a writable regular file,
`process_put_open` truncates it and reaches the body with `status_code = 200`. -/
theorem process_put_open_present (w : World) (r : Request) (hf : w.faults = [])
    (rd : Bool) (c : List Nat) (hfs : w.fs r.fileNameStr = some (.file rd true c)) :
    ∃ w1, process_put_open w r = .ok (⟨r.fileNameStr⟩, 200, w1) ∧ w1.faults = [] ∧
      w1.fs = fs_set w.fs r.fileNameStr (.file rd true []) := by
  unfold process_put_open
  rw [posix_open_of_no_fault w _ _ hf]
  simp only [open_outcome, hfs, O_WRONLY_DIRECTORY, Bool.false_and, Bool.false_eq_true, if_false,
    if_true]
  rw [posix_open_of_no_fault _ _ _ (by simp [hf])]
  simp only [open_outcome, file_write_lock_fs, emit_fs, hfs, O_WRONLY_CREAT_EXCL, Bool.and_self,
    if_true, emit_errno]
  rw [posix_open_of_no_fault _ _ _ (by simp [hf])]
  simp only [open_outcome, file_write_lock_fs, emit_fs, hfs, O_WRONLY_CREAT_TRUNC, Bool.and_false,
    Bool.false_eq_true, if_false, if_true]
  exact ⟨_, rfl, by simp [hf], rfl⟩

/-- Without scheduled faults, when the stream ends in an orderly way before
the bytes asked for have come, `process_put_body` succeeds. -/
theorem process_put_body_short_eof (w : World) (r : Request) (fd : Fd) (sc : Nat)
    (hf : w.faults = []) (heof : w.sock_eof = true)
    (hbody : r.body.length < 2147483648)
    (hshort : w.sock_in.flatten.length < put_remaining r)
    (hsmall : w.sock_in.flatten.length < 2147483648) :
    (process_put_body w r fd sc).1 = EXIT_SUCCESS := by
  have hw : write_n_bytes w fd r.body =
      ((r.body.length : Int), { w with fs := fs_append w.fs fd.name r.body }.emit
        (.write fd.name r.body)) := by
    unfold write_n_bytes
    rw [next_fault_nil w hf]
  have hp : (pass_n_bytes_in (write_n_bytes w fd r.body).2 fd (put_remaining r)).1 =
      (w.sock_in.flatten.length : Int) := by
    rw [hw]
    unfold pass_n_bytes_in
    rw [next_fault_nil _ (by simp [hf])]
    simp only [emit_sock_in, emit_sock_eof]
    rw [if_neg (by omega), if_pos heof]
  rw [process_put_body_eq, hp, hw]
  have h1 : toInt32 (r.body.length : Int) ≠ -1 := by unfold toInt32; omega
  have h2 : toInt32 (w.sock_in.flatten.length : Int) ≠ -1 := by unfold toInt32; omega
  rw [if_neg h1, if_neg h2]

@[simp] theorem file_read_lock_fs (w : World) (n : List Nat) : (file_read_lock w n).fs = w.fs := rfl
@[simp] theorem file_read_lock_errno (w : World) (n : List Nat) :
    (file_read_lock w n).errno = w.errno := rfl
@[simp] theorem file_read_lock_faults (w : World) (n : List Nat) :
    (file_read_lock w n).faults = w.faults := rfl
@[simp] theorem file_read_lock_cwd (w : World) (n : List Nat) :
    (file_read_lock w n).cwd_writable = w.cwd_writable := rfl
@[simp] theorem file_read_lock_sends (w : World) (n : List Nat) :
    sends (file_read_lock w n).trace = sends w.trace := by
  simp [file_read_lock, sends]
@[simp] theorem file_read_unlock_fs (w : World) (n : List Nat) :
    (file_read_unlock w n).fs = w.fs := rfl
@[simp] theorem file_read_unlock_sends (w : World) (n : List Nat) :
    sends (file_read_unlock w n).trace = sends w.trace := by
  simp [file_read_unlock, sends]
@[simp] theorem audit_trace (w : World) (m : String) (n : List Nat) (s : String) (i : Int) :
    (audit w m n s i).trace =
      w.trace ++ [Event.log (str m ++ str ",/" ++ n ++ str "," ++ str s ++ str "," ++
        fmt_d i ++ [10])] := rfl

/-- Without scheduled faults, a GET without `Content-Length` and without body
bytes, for a target that is a readable regular file, succeeds: it sends the 200
head with the file size and then the content, and changes no file. -/
theorem process_get_regular_file (w : World) (g : Request) (hf : w.faults = [])
    (wr : Bool) (c : List Nat) (hfs : w.fs g.fileNameStr = some (.file true wr c))
    (hcl : g.content_length = -1) (hrb : g.remaining_bytes ≤ 0)
    (hsize : c.length < 2147483648) :
    (process_get w g).1 = EXIT_SUCCESS ∧
      sends (process_get w g).2.trace = sends w.trace ++
        [(g.sock_fd, str "HTTP/1.1 200 OK\r\nContent-Length: " ++ fmt_d c.length ++ str "\r\n\r\n"),
         (g.sock_fd, c)] ∧
      (process_get w g).2.fs = w.fs := by
  have h32 : toInt32 (c.length : Int) ≠ -1 := by unfold toInt32; omega
  unfold process_get
  rw [if_neg (by rw [hcl]; simp), if_neg (by omega)]
  rw [posix_open_of_no_fault w _ _ hf]
  simp only [open_outcome, hfs, O_RDONLY_DIRECTORY, Bool.false_and, Bool.false_eq_true, if_false,
    if_true]
  rw [posix_open_of_no_fault _ _ _ (by simp [hf])]
  simp only [open_outcome, file_read_lock_fs, emit_fs, hfs, O_RDONLY, Bool.false_and,
    Bool.false_eq_true, if_false, if_true]
  simp only [fstat_size, emit_fs, file_read_lock_fs, hfs]
  unfold pass_n_bytes_out
  rw [next_fault_nil _ (by simp [audit, dprintf, hf])]
  simp only [audit_fs, dprintf_fs, emit_fs, file_read_lock_fs, hfs, List.take_length]
  rw [if_neg h32]
  refine ⟨rfl, ?_, rfl⟩
  simp [close_file]

/-- Without scheduled faults, when the socket holds at least the bytes asked
for, `process_put_body` succeeds. -/
theorem process_put_body_delivered (w : World) (r : Request) (fd : Fd) (sc : Nat)
    (hf : w.faults = []) (hbody : r.body.length < 2147483648)
    (hrem : put_remaining r < 2147483648)
    (hfull : put_remaining r ≤ w.sock_in.flatten.length) :
    (process_put_body w r fd sc).1 = EXIT_SUCCESS := by
  have hw : write_n_bytes w fd r.body =
      ((r.body.length : Int), { w with fs := fs_append w.fs fd.name r.body }.emit
        (.write fd.name r.body)) := by
    unfold write_n_bytes
    rw [next_fault_nil w hf]
  have hp : (pass_n_bytes_in (write_n_bytes w fd r.body).2 fd (put_remaining r)).1 =
      (put_remaining r : Int) := by
    rw [hw]
    unfold pass_n_bytes_in
    rw [next_fault_nil _ (by simp [hf])]
    simp only [emit_sock_in, emit_sock_eof]
    rw [if_pos hfull]
  rw [process_put_body_eq, hp, hw]
  have h1 : toInt32 (r.body.length : Int) ≠ -1 := by unfold toInt32; omega
  have h2 : toInt32 (put_remaining r : Int) ≠ -1 := by unfold toInt32; omega
  rw [if_neg h1, if_neg h2]

/-! ## Parsing a request text -/

theorem set_at (pre post : List Nat) (x y i : Nat) (h : i = pre.length) :
    (pre ++ x :: post).set i y = pre ++ y :: post := by
  subst h
  rw [List.set_append_right _ _ (Nat.le_refl _)]
  simp

theorem drop_at (pre post : List Nat) (i : Nat) (h : i = pre.length) :
    (pre ++ post).drop i = post := by
  subst h
  exact List.drop_left _ _

theorem getD_at (pre post : List Nat) (i j : Nat) (h : i = pre.length + j) :
    (pre ++ post).getD i 0 = post.getD j 0 := by
  subst h
  rw [← getD_drop, List.drop_left]

theorem span_at (p : Nat → Bool) (a : List Nat) (x : Nat) (b : List Nat)
    (ha : ∀ c ∈ a, p c = true) (hx : p x = false) : span p (a ++ x :: b) = a.length := by
  unfold span
  rw [List.takeWhile_append_of_pos ha, List.takeWhile_cons_of_neg (by simp [hx])]
  simp

theorem takeWhile_at (p : Nat → Bool) (a : List Nat) (x : Nat) (b : List Nat)
    (ha : ∀ c ∈ a, p c = true) (hx : p x = false) : (a ++ x :: b).takeWhile p = a := by
  rw [List.takeWhile_append_of_pos ha, List.takeWhile_cons_of_neg (by simp [hx])]
  simp

/-- `strncmp` looks at its first argument up to the first NUL only. -/
theorem strncmp_eq_cstr (n : Nat) : ∀ (a b : List Nat),
    strncmp_eq n a b = strncmp_eq n (a.takeWhile (fun c => c != 0)) b := by
  induction n with
  | zero => intro a b; rfl
  | succ n ih =>
    intro a b
    cases a with
    | nil => rfl
    | cons x xs =>
      by_cases hx : x = 0
      · subst hx
        simp [strncmp_eq]
      · have hx' : (fun c : Nat => c != 0) x = true := by simpa using hx
        have ht : List.takeWhile (fun c => c != 0) (x :: xs) =
            x :: List.takeWhile (fun c => c != 0) xs := List.takeWhile_cons_of_pos hx'
        rw [ht]
        unfold strncmp_eq
        simp only [List.headD_cons, List.tail_cons]
        rw [ih xs b.tail]

/-- A request with version `HTTP/1.1` and method `PUT` is handled by `process_put`. -/
theorem process_request_put (w : World) (r : Request) (hv : r.versionStr = str "HTTP/1.1")
    (hc : r.commandStr = str "PUT") : process_request w r = process_put w r := by
  unfold Request.versionStr cstr at hv
  unfold Request.commandStr cstr at hc
  unfold process_request
  rw [strncmp_eq_cstr 8 _ (str "HTTP/1.1"), strncmp_eq_cstr 3 _ (str "GET"),
    strncmp_eq_cstr 3 _ (str "PUT"), hv, hc]
  have h1 : strncmp_eq 8 (str "HTTP/1.1") (str "HTTP/1.1") = true := by decide
  have h2 : strncmp_eq 3 (str "PUT") (str "GET") = false := by decide
  have h3 : strncmp_eq 3 (str "PUT") (str "PUT") = true := by decide
  simp [h1, h2, h3]

/-- A request with version `HTTP/1.1` and method `GET` is handled by `process_get`. -/
theorem process_request_get (w : World) (r : Request) (hv : r.versionStr = str "HTTP/1.1")
    (hc : r.commandStr = str "GET") : process_request w r = process_get w r := by
  unfold Request.versionStr cstr at hv
  unfold Request.commandStr cstr at hc
  unfold process_request
  rw [strncmp_eq_cstr 8 _ (str "HTTP/1.1"), strncmp_eq_cstr 3 _ (str "GET"), hv, hc]
  have h1 : strncmp_eq 8 (str "HTTP/1.1") (str "HTTP/1.1") = true := by decide
  have h2 : strncmp_eq 3 (str "GET") (str "GET") = true := by decide
  simp [h1, h2]

theorem isAlpha_32 : isAlpha 32 = false := by decide
theorem isNameChar_32 : isNameChar 32 = false := by decide
theorem isNameChar_58 : isNameChar 58 = false := by decide
theorem isValueChar_13 : isValueChar 13 = false := by decide
theorem isDigit_0 : isDigit 0 = false := by decide
theorem isDigit_13 : isDigit 13 = false := by decide

/-- A request text has the shape `REQEX` asks for. -/
theorem request_text_ReqLine (m X : List Nat) (d1 d2 : Nat) (rest : List Nat)
    (hm1 : 1 ≤ m.length) (hm2 : m.length ≤ 8) (hm : ∀ c ∈ m, isAlpha c = true)
    (hX1 : 1 ≤ X.length) (hX2 : X.length ≤ 63) (hX : ∀ c ∈ X, isNameChar c = true)
    (hd1 : isDigit d1 = true) (hd2 : isDigit d2 = true) :
    ReqLine (request_text m X d1 d2 rest) m.length X.length := by
  have hdrop : (request_text m X d1 d2 rest).drop (m.length + 2) =
      X ++ 32 :: 72 :: 84 :: 84 :: 80 :: 47 :: d1 :: 46 :: d2 :: 13 :: 10 :: rest := by
    unfold request_text
    rw [List.drop_append]
    rfl
  have hget : ∀ k, (request_text m X d1 d2 rest).getD (m.length + 2 + X.length + k) 0 =
      (32 :: 72 :: 84 :: 84 :: 80 :: 47 :: d1 :: 46 :: d2 :: 13 :: 10 :: rest).getD k 0 := by
    intro k
    rw [Nat.add_assoc (m.length + 2), ← getD_drop, hdrop, getD_at X _ _ k rfl]
  refine ⟨hm1, hm2, hX1, hX2, ?_, ?_, ?_, ?_, ?_, ?_, ?_, ?_, ?_, ?_, ?_, ?_, ?_, ?_, ?_⟩
  · unfold request_text; rw [span_at _ _ _ _ hm isAlpha_32]
  · rw [hdrop, span_at _ _ _ _ hX isNameChar_32]
  · unfold request_text; rw [getD_at m _ _ 0 (Nat.add_zero _).symm]; rfl
  · unfold request_text; rw [getD_at m _ _ 1 rfl]; rfl
  · have := hget 0; simpa using this
  · have := hget 1; simpa using this
  · have := hget 2; simpa [Nat.add_assoc] using this
  · have := hget 3; simpa [Nat.add_assoc] using this
  · have := hget 4; simpa [Nat.add_assoc] using this
  · have := hget 5; simpa [Nat.add_assoc] using this
  · have := hget 6; rw [show m.length + 2 + X.length + 1 + 5 = m.length + 2 + X.length + 6 from rfl,
      this]; simpa using hd1
  · have := hget 7; simpa [Nat.add_assoc] using this
  · have := hget 8; rw [show m.length + 2 + X.length + 1 + 7 = m.length + 2 + X.length + 8 from rfl,
      this]; simpa using hd2
  · have := hget 9; simpa [Nat.add_assoc] using this
  · have := hget 10; simpa [Nat.add_assoc] using this

theorem header_loop_of_nomatch (sock_fd fuel : Nat) (st : HeaderState)
    (h : regexec_HEADEX (st.buf.drop st.offset) 0 = none) : header_loop sock_fd fuel st = st := by
  cases fuel with
  | zero => rfl
  | succ fuel => unfold header_loop; rw [h]

theorem header_loop_of_one_match (sock_fd fuel : Nat) (st : HeaderState) (m1 m2 : regmatch_t)
    (hfuel : 1 ≤ fuel) (h1 : regexec_HEADEX (st.buf.drop st.offset) 0 = some (m1, m2))
    (h2 : regexec_HEADEX ((header_step sock_fd st m1 m2).buf.drop
      (header_step sock_fd st m1 m2).offset) 0 = none) :
    header_loop sock_fd fuel st = header_step sock_fd st m1 m2 := by
  cases fuel with
  | zero => omega
  | succ fuel =>
    unfold header_loop
    rw [h1]
    exact header_loop_of_nomatch sock_fd fuel _ h2

/-- Whether `regexec` finds a header does not depend on the offset it reports
matches from. -/
theorem regexec_HEADEX_none_pos : ∀ (s : List Nat) (p q : Nat),
    regexec_HEADEX s p = none → regexec_HEADEX s q = none := by
  intro s
  induction s with
  | nil => intro p q _; rfl
  | cons c cs ih =>
    intro p q h
    unfold regexec_HEADEX at h ⊢
    by_cases hc : c = 0
    · rw [if_pos hc]
    · rw [if_neg hc] at h ⊢
      cases hh : headex_at (c :: cs) with
      | some nm => rw [hh] at h; simp at h
      | none =>
        rw [hh] at h
        exact ih (p + 1) (q + 1) h

theorem headex_at_of_not_name (c : Nat) (cs : List Nat) (h : isNameChar c = false) :
    headex_at (c :: cs) = none := by
  unfold headex_at span
  rw [List.takeWhile_cons_of_neg (by simp [h])]
  simp

/-- In front of CR LF and a continuation without header-shaped text `regexec`
finds no header. -/
theorem regexec_HEADEX_crlf (P : List Nat) (h : regexec_HEADEX P 0 = none) :
    regexec_HEADEX (13 :: 10 :: P) 0 = none := by
  unfold regexec_HEADEX
  rw [if_neg (by decide), headex_at_of_not_name 13 _ (by decide)]
  unfold regexec_HEADEX
  rw [if_neg (by decide), headex_at_of_not_name 10 _ (by decide)]
  exact regexec_HEADEX_none_pos P 0 _ h

theorem str_content_length :
    str "Content-Length" = [67, 111, 110, 116, 101, 110, 116, 45, 76, 101, 110, 103, 116, 104] := by
  decide

theorem isValueChar_of_isDigit (c : Nat) (h : isDigit c = true) : isValueChar c = true := by
  simp only [isDigit, isValueChar, Bool.and_eq_true, decide_eq_true_eq] at h ⊢
  omega

theorem not_isspace_of_isDigit (c : Nat) (h : isDigit c = true) : isspace c = false := by
  simp only [isDigit, Bool.and_eq_true, decide_eq_true_eq] at h
  simp only [isspace, Bool.or_eq_false_iff, beq_eq_false_iff_ne, ne_eq, Bool.and_eq_false_imp,
    decide_eq_true_eq, decide_eq_false_iff_not, not_le]
  omega

/-- `regexec` on a `Content-Length` header with a decimal value: the match
starts at 0, the name ends at 14, the value is the run of digits. -/
theorem regexec_HEADEX_content_length (ds tail : List Nat) (h1 : 1 ≤ ds.length)
    (h2 : ds.length ≤ 128) (hds : ∀ c ∈ ds, isDigit c = true) :
    regexec_HEADEX (str "Content-Length" ++ 58 :: 32 :: (ds ++ 13 :: 10 :: tail)) 0 =
      some (⟨0, 14⟩, ⟨16, 16 + ds.length⟩) := by
  have hname : ∀ c ∈ str "Content-Length", isNameChar c = true := by decide
  have hlen : (str "Content-Length").length = 14 := by decide
  have hat : headex_at (str "Content-Length" ++ 58 :: 32 :: (ds ++ 13 :: 10 :: tail)) =
      some (14, ds.length) := by
    unfold headex_at
    rw [span_at _ _ _ _ hname isNameChar_58, hlen]
    have hd : (str "Content-Length" ++ 58 :: 32 :: (ds ++ 13 :: 10 :: tail)).drop (14 + 2) =
        ds ++ 13 :: 10 :: tail := by
      rw [← hlen, List.drop_append]; rfl
    have g0 : (str "Content-Length" ++ 58 :: 32 :: (ds ++ 13 :: 10 :: tail)).getD 14 0 = 58 := by
      rw [getD_at (str "Content-Length") _ 14 0 (by rw [hlen])]; rfl
    have g1 : (str "Content-Length" ++ 58 :: 32 :: (ds ++ 13 :: 10 :: tail)).getD (14 + 1) 0
        = 32 := by
      rw [getD_at (str "Content-Length") _ (14 + 1) 1 (by rw [hlen])]; rfl
    have g2 : ∀ k, (str "Content-Length" ++ 58 :: 32 :: (ds ++ 13 :: 10 :: tail)).getD
        (14 + 2 + ds.length + k) 0 = (13 :: 10 :: tail).getD k 0 := by
      intro k
      rw [Nat.add_assoc (14 + 2), ← getD_drop, hd, getD_at ds _ _ k rfl]
    have hspan : span isValueChar (ds ++ 13 :: 10 :: tail) = ds.length :=
      span_at _ _ _ _ (fun c hc => isValueChar_of_isDigit c (hds c hc)) isValueChar_13
    dsimp only
    rw [if_pos ⟨by omega, by omega, g0, g1⟩, hd, hspan,
      if_pos ⟨h1, h2, by simpa using g2 0, by simpa [Nat.add_assoc] using g2 1⟩]
  rw [str_content_length] at hat ⊢
  simp only [List.cons_append] at hat ⊢
  unfold regexec_HEADEX
  rw [if_neg (by decide), hat]

/-- `strtol` on a run of decimal digits followed by a NUL. -/
theorem strtol_digits (ds tail : List Nat) (h1 : 1 ≤ ds.length)
    (hds : ∀ c ∈ ds, isDigit c = true) (hmax : digitsVal ds ≤ 9223372036854775807) :
    strtol (ds ++ 0 :: tail) = ⟨(digitsVal ds : Int), false, false⟩ := by
  cases ds with
  | nil => simp at h1
  | cons d ds' =>
    have hd : isDigit d = true := hds d (List.mem_cons_self _ _)
    have hsp : isspace d = false := not_isspace_of_isDigit d hd
    have h45 : (d == 45) = false := by
      simp only [isDigit, Bool.and_eq_true, decide_eq_true_eq] at hd
      simp only [beq_eq_false_iff_ne, ne_eq]; omega
    have h43 : (d == 43) = false := by
      simp only [isDigit, Bool.and_eq_true, decide_eq_true_eq] at hd
      simp only [beq_eq_false_iff_ne, ne_eq]; omega
    have htw : ((d :: ds') ++ 0 :: tail).takeWhile isDigit = d :: ds' :=
      takeWhile_at _ _ _ _ hds isDigit_0
    unfold strtol
    simp only [List.cons_append, List.dropWhile_cons_of_neg (by simp [hsp] : ¬ isspace d = true),
      List.headD_cons, h45, h43, Bool.or_self, Bool.false_eq_true, if_false]
    rw [← List.cons_append, htw]
    simp only [List.isEmpty_cons, Bool.false_eq_true, if_false]
    rw [if_neg (by omega), if_neg (by omega)]

theorem request_text_drop (m X : List Nat) (d1 d2 : Nat) (rest : List Nat) :
    (request_text m X d1 d2 rest).drop (m.length + 2 + X.length + 1 + 8 + 2) = rest := by
  unfold request_text
  rw [show m.length + 2 + X.length + 1 + 8 + 2 = m.length + (2 + (X.length + 11)) by omega,
    List.drop_append]
  rw [show 2 + (X.length + 11) = (X.length + 11) + 1 + 1 by omega]
  simp only [List.drop_succ_cons]
  rw [List.drop_append]
  rfl

theorem reqline_buf_drop (buf : List Nat) (n t : Nat) :
    (reqline_buf buf n t).drop (n + 2 + t + 1 + 8 + 2) = buf.drop (n + 2 + t + 1 + 8 + 2) := by
  unfold reqline_buf
  rw [List.drop_set_of_lt _ _ (by omega), List.drop_set_of_lt _ _ (by omega),
    List.drop_set_of_lt _ _ (by omega)]

/-- What `header_step` computes when the text at the scan position begins with
`Content-Length`. -/
theorem header_step_content_length (sock_fd : Nat) (st : HeaderState) (m1 m2 : regmatch_t)
    (h : strncmp_eq 14 (((st.buf.set (st.offset + m1.rm_eo) 0).set (st.offset + m2.rm_eo) 0).drop
      st.offset) (str "Content-Length") = true) :
    header_step sock_fd st m1 m2 =
      { buf := (st.buf.set (st.offset + m1.rm_eo) 0).set (st.offset + m2.rm_eo) 0,
        offset := st.offset + (m2.rm_eo + 2),
        content_length := toInt32 (strtol
          (((st.buf.set (st.offset + m1.rm_eo) 0).set (st.offset + m2.rm_eo) 0).drop
            (st.offset + m2.rm_so))).value,
        request_ID := st.request_ID,
        w := if (strtol_errno st.w (strtol
              (((st.buf.set (st.offset + m1.rm_eo) 0).set (st.offset + m2.rm_eo) 0).drop
                (st.offset + m2.rm_so)))).errno = EINVAL then
            dprintf (strtol_errno st.w (strtol
              (((st.buf.set (st.offset + m1.rm_eo) 0).set (st.offset + m2.rm_eo) 0).drop
                (st.offset + m2.rm_so)))) sock_fd BAD_REQUEST
          else strtol_errno st.w (strtol
              (((st.buf.set (st.offset + m1.rm_eo) 0).set (st.offset + m2.rm_eo) 0).drop
                (st.offset + m2.rm_so))) } := by
  unfold header_step
  simp only [h, if_true]

/-- The text after the request line of `put_text`, with the two NULs the header
loop puts into it. -/
theorem content_length_header_set (ds tail : List Nat) :
    ((str "Content-Length" ++ 58 :: 32 :: (ds ++ 13 :: 10 :: tail)).set 14 0).set
        (16 + ds.length) 0 =
      str "Content-Length" ++ 0 :: 32 :: (ds ++ 0 :: 10 :: tail) := by
  rw [set_at (str "Content-Length") _ 58 0 14 (by decide)]
  have : str "Content-Length" ++ 0 :: 32 :: (ds ++ 13 :: 10 :: tail) =
      (str "Content-Length" ++ 0 :: 32 :: ds) ++ 13 :: 10 :: tail := by simp
  rw [this, set_at _ _ 13 0 _ (by simp [str_content_length]; omega)]
  simp

/-- `parse_request` on a PUT header block with one `Content-Length` header whose
value is a decimal numeral, followed by pre-buffered body bytes `P` that contain
no header-shaped text: success, nothing written to the socket, and the request
holds the target, the length, and `P` as pre-buffered body. -/
theorem parse_request_put_text (w : World) (sock_fd : Nat) (X ds P : List Nat)
    (hX1 : 1 ≤ X.length) (hX2 : X.length ≤ 63) (hX : ∀ c ∈ X, isNameChar c = true)
    (hds1 : 1 ≤ ds.length) (hds2 : ds.length ≤ 128) (hds : ∀ c ∈ ds, isDigit c = true)
    (hval : digitsVal ds < 2147483648) (hPlen : P.length < 2147483648)
    (hP : regexec_HEADEX P 0 = none) (herrno : w.errno ≠ EINVAL) :
    ∃ req, parse_request w sock_fd (put_text X ds P) ((put_text X ds P).length : Int)
        = (some req, w) ∧
      req.sock_fd = sock_fd ∧ req.commandStr = str "PUT" ∧ req.fileNameStr = X ∧
      req.versionStr = str "HTTP/1.1" ∧ req.content_length = (digitsVal ds : Int) ∧
      req.remaining_bytes = (P.length : Int) ∧ req.body = P ∧ req.request_ID = 0 := by
  have hl : ReqLine (put_text X ds P) 3 X.length :=
    request_text_ReqLine (str "PUT") X 49 49 _ (by decide) (by decide) (by decide) hX1 hX2 hX
      (by decide) (by decide)
  -- the state at the start of the loop
  have hrest : (header_init w (put_text X ds P) 3 X.length).buf.drop
      (header_init w (put_text X ds P) 3 X.length).offset =
      str "Content-Length" ++ 58 :: 32 :: (ds ++ 13 :: 10 :: 13 :: 10 :: P) := by
    simp only [header_init]
    rw [reqline_buf_drop]
    exact request_text_drop (str "PUT") X 49 49 _
  have hm := regexec_HEADEX_content_length ds (13 :: 10 :: P) hds1 hds2 hds
  -- the buffer after the step, from the scan position on
  have hb2 : (((header_init w (put_text X ds P) 3 X.length).buf.set
      ((header_init w (put_text X ds P) 3 X.length).offset + 14) 0).set
      ((header_init w (put_text X ds P) 3 X.length).offset + (16 + ds.length)) 0).drop
      (header_init w (put_text X ds P) 3 X.length).offset =
      str "Content-Length" ++ 0 :: 32 :: (ds ++ 0 :: 10 :: 13 :: 10 :: P) := by
    rw [← List.set_drop, ← List.set_drop, hrest]
    exact content_length_header_set ds _
  have hb2' : ∀ k, (((header_init w (put_text X ds P) 3 X.length).buf.set
      ((header_init w (put_text X ds P) 3 X.length).offset + 14) 0).set
      ((header_init w (put_text X ds P) 3 X.length).offset + (16 + ds.length)) 0).drop
      ((header_init w (put_text X ds P) 3 X.length).offset + k) =
      (str "Content-Length" ++ 0 :: 32 :: (ds ++ 0 :: 10 :: 13 :: 10 :: P)).drop k := by
    intro k
    rw [← hb2, List.drop_drop]
  have hcmp : strncmp_eq 14 (str "Content-Length" ++ 0 :: 32 :: (ds ++ 0 :: 10 :: 13 :: 10 :: P))
      (str "Content-Length") = true := by
    rw [strncmp_eq_cstr, takeWhile_at _ _ _ _ (by decide) (by decide)]
    decide
  have hd16 : (str "Content-Length" ++ 0 :: 32 :: (ds ++ 0 :: 10 :: 13 :: 10 :: P)).drop 16 =
      ds ++ 0 :: 10 :: 13 :: 10 :: P := by
    rw [show (16 : Nat) = (str "Content-Length").length + 2 by decide, List.drop_append]
    rfl
  have hdend : (str "Content-Length" ++ 0 :: 32 :: (ds ++ 0 :: 10 :: 13 :: 10 :: P)).drop
      (16 + ds.length + 2) = 13 :: 10 :: P := by
    rw [show 16 + ds.length + 2 = 16 + (ds.length + 2) by omega, ← List.drop_drop, hd16,
      List.drop_append]
    rfl
  have hstep := header_step_content_length sock_fd (header_init w (put_text X ds P) 3 X.length)
    ⟨0, 14⟩ ⟨16, 16 + ds.length⟩ (by rw [hb2]; exact hcmp)
  simp only [] at hstep
  rw [hb2' 16, hd16, strtol_digits ds _ hds1 hds (by omega)] at hstep
  have hw0 : (header_init w (put_text X ds P) 3 X.length).w = w := rfl
  have herr : strtol_errno w ⟨(digitsVal ds : Int), false, false⟩ = w := by
    simp [strtol_errno]
  rw [hw0, herr, if_neg herrno] at hstep
  -- the loop stops after this one step
  have hfinal : header_final w sock_fd (put_text X ds P) 3 X.length =
      header_step sock_fd (header_init w (put_text X ds P) 3 X.length) ⟨0, 14⟩
        ⟨16, 16 + ds.length⟩ := by
    unfold header_final
    apply header_loop_of_one_match _ _ _ _ _ (by omega)
    · rw [hrest]; exact hm
    · rw [hstep]
      simp only []
      rw [show (header_init w (put_text X ds P) 3 X.length).offset + (16 + ds.length + 2) =
        (header_init w (put_text X ds P) 3 X.length).offset + (16 + ds.length + 2) from rfl,
        hb2' (16 + ds.length + 2), hdend]
      exact regexec_HEADEX_crlf P hP
  have hparse := parse_request_of_ReqLine w sock_fd (put_text X ds P)
    ((put_text X ds P).length : Int) 3 X.length hl
  rw [hfinal, hstep] at hparse
  simp only [] at hparse
  have hg0 : (((header_init w (put_text X ds P) 3 X.length).buf.set
      ((header_init w (put_text X ds P) 3 X.length).offset + 14) 0).set
      ((header_init w (put_text X ds P) 3 X.length).offset + (16 + ds.length)) 0).getD
      ((header_init w (put_text X ds P) 3 X.length).offset + (16 + ds.length + 2)) 0 = 13 := by
    rw [← Nat.add_zero ((header_init w (put_text X ds P) 3 X.length).offset + (16 + ds.length + 2)),
      ← getD_drop, hb2', hdend]
    rfl
  have hg1 : (((header_init w (put_text X ds P) 3 X.length).buf.set
      ((header_init w (put_text X ds P) 3 X.length).offset + 14) 0).set
      ((header_init w (put_text X ds P) 3 X.length).offset + (16 + ds.length)) 0).getD
      ((header_init w (put_text X ds P) 3 X.length).offset + (16 + ds.length + 2) + 1) 0 = 10 := by
    rw [← getD_drop, hb2', hdend]
    rfl
  rw [if_pos ⟨hg0, hg1⟩] at hparse
  obtain ⟨n, t, hl', hfd, hcmd, hname, hver⟩ :=
    parse_request_strings w sock_fd _ _ _ _ hparse
  have hn : n = 3 := by rw [hl'.n_eq, ← hl.n_eq]
  subst hn
  have ht : t = X.length := by rw [hl'.t_eq, ← hl.t_eq]
  subst ht
  have hlen : (put_text X ds P).length =
      (header_init w (put_text X ds P) 3 X.length).offset + (16 + ds.length + 2) + 2 + P.length := by
    simp [put_text, request_text, header_init, str_content_length]
    have : (str "PUT").length = 3 := by decide
    omega
  refine ⟨_, hparse, hfd, ?_, ?_, ?_, ?_, ?_, ?_, rfl⟩
  · rw [hcmd]
    simp only [put_text, request_text]
    exact List.take_left' (by decide)
  · rw [hname]
    have := request_text_ReqLine
    simp only [put_text, request_text]
    rw [show (3 : Nat) + 2 = (str "PUT").length + 2 by decide, List.drop_append]
    simp
  · rw [hver]
    simp only [put_text, request_text]
    rw [show (3 : Nat) + 2 + X.length + 1 = (str "PUT").length + (2 + (X.length + 1)) by
      have : (str "PUT").length = 3 := by decide
      omega, List.drop_append]
    rw [show 2 + (X.length + 1) = (X.length + 1) + 1 + 1 by omega]
    simp only [List.drop_succ_cons]
    rw [List.drop_append, str_http11]
    rfl
  · simp only []
    unfold toInt32
    omega
  · simp only []
    rw [hlen]
    unfold toInt32
    push_cast
    omega
  · unfold Request.body
    simp only []
    have hrb : toInt32 (((put_text X ds P).length : Int) -
        (((header_init w (put_text X ds P) 3 X.length).offset + (16 + ds.length + 2) + 2 : Nat)
          : Int)) = (P.length : Int) := by
      rw [hlen]
      unfold toInt32
      push_cast
      omega
    rw [hrb]
    have hts : toSizeT (P.length : Int) = P.length := by
      unfold toSizeT
      omega
    rw [hts, show (header_init w (put_text X ds P) 3 X.length).offset + (16 + ds.length + 2) + 2 =
      (header_init w (put_text X ds P) 3 X.length).offset + ((16 + ds.length + 2) + 2) by omega,
      hb2', show 16 + ds.length + 2 + 2 = (16 + ds.length + 2) + 2 from rfl, ← List.drop_drop,
      hdend]
    simp

/-! ## From the request texts to the handlers -/

/-- `parse_request` on a GET without headers: success, nothing written to the
socket, no `Content-Length`, no body bytes. -/
theorem parse_request_get_text (w : World) (sock_fd : Nat) (X : List Nat)
    (hX1 : 1 ≤ X.length) (hX2 : X.length ≤ 63) (hX : ∀ c ∈ X, isNameChar c = true) :
    ∃ req, parse_request w sock_fd (get_text X) ((get_text X).length : Int) = (some req, w) ∧
      req.sock_fd = sock_fd ∧ req.commandStr = str "GET" ∧ req.fileNameStr = X ∧
      req.versionStr = str "HTTP/1.1" ∧ req.content_length = -1 ∧ req.remaining_bytes = 0 := by
  have hl : ReqLine (get_text X) 3 X.length :=
    request_text_ReqLine (str "GET") X 49 49 _ (by decide) (by decide) (by decide) hX1 hX2 hX
      (by decide) (by decide)
  have hrest : (header_init w (get_text X) 3 X.length).buf.drop
      (header_init w (get_text X) 3 X.length).offset = [13, 10] := by
    simp only [header_init]
    rw [reqline_buf_drop]
    exact request_text_drop (str "GET") X 49 49 _
  have hfinal : header_final w sock_fd (get_text X) 3 X.length =
      header_init w (get_text X) 3 X.length := by
    unfold header_final
    apply header_loop_of_nomatch
    rw [hrest]
    exact regexec_HEADEX_crlf [] rfl
  have hparse := parse_request_of_ReqLine w sock_fd (get_text X) ((get_text X).length : Int)
    3 X.length hl
  rw [hfinal] at hparse
  have hg0 : (header_init w (get_text X) 3 X.length).buf.getD
      (header_init w (get_text X) 3 X.length).offset 0 = 13 := by
    rw [← Nat.add_zero (header_init w (get_text X) 3 X.length).offset, ← getD_drop, hrest]
    rfl
  have hg1 : (header_init w (get_text X) 3 X.length).buf.getD
      ((header_init w (get_text X) 3 X.length).offset + 1) 0 = 10 := by
    rw [← getD_drop, hrest]
    rfl
  rw [if_pos ⟨hg0, hg1⟩] at hparse
  obtain ⟨n, t, hl', hfd, hcmd, hname, hver⟩ :=
    parse_request_strings w sock_fd _ _ _ _ hparse
  have hn : n = 3 := by rw [hl'.n_eq, ← hl.n_eq]
  subst hn
  have ht : t = X.length := by rw [hl'.t_eq, ← hl.t_eq]
  subst ht
  have hlen : (get_text X).length = (header_init w (get_text X) 3 X.length).offset + 2 := by
    simp [get_text, request_text, header_init]
    have : (str "GET").length = 3 := by decide
    omega
  refine ⟨_, hparse, hfd, ?_, ?_, ?_, rfl, ?_⟩
  · rw [hcmd]
    simp only [get_text, request_text]
    exact List.take_left' (by decide)
  · rw [hname]
    simp only [get_text, request_text]
    rw [show (3 : Nat) + 2 = (str "GET").length + 2 by decide, List.drop_append]
    simp
  · rw [hver]
    simp only [get_text, request_text]
    rw [show (3 : Nat) + 2 + X.length + 1 = (str "GET").length + (2 + (X.length + 1)) by
      have : (str "GET").length = 3 := by decide
      omega, List.drop_append]
    rw [show 2 + (X.length + 1) = (X.length + 1) + 1 + 1 by omega]
    simp only [List.drop_succ_cons]
    rw [List.drop_append, str_http11]
    rfl
  · simp only []
    rw [hlen]
    unfold toInt32
    push_cast
    omega

theorem has_terminator_append (a b : List Nat) :
    has_terminator (a ++ 13 :: 10 :: 13 :: 10 :: b) = true := by
  induction a with
  | nil => simp [has_terminator]
  | cons x xs ih =>
    rw [List.cons_append]
    unfold has_terminator
    rw [ih]
    simp

theorem has_terminator_put_text (X ds P : List Nat) : has_terminator (put_text X ds P) = true := by
  have : put_text X ds P =
      (str "PUT" ++ 32 :: 47 :: (X ++ 32 :: 72 :: 84 :: 84 :: 80 :: 47 :: 49 :: 46 :: 49 :: 13 ::
        10 :: (str "Content-Length" ++ 58 :: 32 :: ds))) ++ 13 :: 10 :: 13 :: 10 :: P := by
    simp [put_text, request_text]
  rw [this]
  exact has_terminator_append _ _

theorem has_terminator_get_text (X : List Nat) : has_terminator (get_text X) = true := by
  have : get_text X =
      (str "GET" ++ 32 :: 47 :: (X ++ 32 :: 72 :: 84 :: 84 :: 80 :: 47 :: 49 :: 46 :: [49])) ++
        13 :: 10 :: 13 :: 10 :: [] := by
    simp [get_text, request_text]
  rw [this]
  exact has_terminator_append _ _

/-- Without a scheduled fault, when the first read brings a text that holds the
terminator and fits the buffer, `read_until` returns exactly that text and
leaves the later reads on the socket. -/
theorem read_until_first_read (w : World) (c : List Nat) (rest : List (List Nat))
    (hf : w.faults = []) (hin : w.sock_in = c :: rest) (hterm : has_terminator c = true)
    (hfit : c.length ≤ BUFSIZE) :
    read_until w BUFSIZE = ((c.length : Int), c, { w with sock_in := rest }) := by
  have hloop : read_until_loop BUFSIZE (c :: rest) [] = (c, rest, false) := by
    unfold read_until_loop
    rw [if_neg (by simp [has_terminator, BUFSIZE])]
    rw [if_pos (by simpa using hfit)]
    simp only [List.nil_append]
    cases rest with
    | nil => unfold read_until_loop; simp [hterm]
    | cons r rs => unfold read_until_loop; simp [hterm]
  unfold read_until
  rw [next_fault_nil w hf]
  simp only [hin, hloop]
  simp

@[simp] theorem dprintf_faults (w : World) (fd : Nat) (b : List Nat) :
    (dprintf w fd b).faults = w.faults := rfl
@[simp] theorem audit_faults (w : World) (m : String) (n : List Nat) (s : String) (i : Int) :
    (audit w m n s i).faults = w.faults := rfl
@[simp] theorem close_file_faults (w : World) (fd : Fd) : (close_file w fd).faults = w.faults := rfl
@[simp] theorem file_write_unlock_faults (w : World) (n : List Nat) :
    (file_write_unlock w n).faults = w.faults := rfl

theorem write_n_bytes_faults (w : World) (fd : Fd) (b : List Nat) :
    (write_n_bytes w fd b).2.faults = w.faults.tail := by
  unfold write_n_bytes
  rw [show next_fault w = ((next_fault w).1, (next_fault w).2) from rfl, next_fault_snd]
  cases (next_fault w).1 <;> simp

theorem pass_n_bytes_in_faults (w : World) (fd : Fd) (n : Nat) :
    (pass_n_bytes_in w fd n).2.faults = w.faults.tail := by
  unfold pass_n_bytes_in
  rw [show next_fault w = ((next_fault w).1, (next_fault w).2) from rfl, next_fault_snd]
  cases (next_fault w).1 with
  | some f => simp
  | none =>
    dsimp only
    split_ifs <;> simp

/-- A fault schedule that is empty stays empty through `process_put_body`. -/
theorem process_put_body_faults (w : World) (r : Request) (fd : Fd) (sc : Nat)
    (hf : w.faults = []) : (process_put_body w r fd sc).2.faults = [] := by
  have h1 : (write_n_bytes w fd r.body).2.faults = [] := by
    rw [write_n_bytes_faults, hf]; rfl
  have h2 : (pass_n_bytes_in (write_n_bytes w fd r.body).2 fd (put_remaining r)).2.faults = [] := by
    rw [pass_n_bytes_in_faults, h1]; rfl
  rw [process_put_body_eq]
  split_ifs <;> simp [h1, h2]

/-- The PUT half of the round trip, at the level of `process_put`. -/
theorem process_put_delivered (w : World) (r : Request) (B : List Nat)
    (hfaults : w.faults = [])
    (htarget : (w.fs r.fileNameStr = none ∧ w.cwd_writable = true) ∨
      ∃ c, w.fs r.fileNameStr = some (.file true true c))
    (hcl : r.content_length = (B.length : Int))
    (hbody : (r.body.length : Int) = r.remaining_bytes)
    (hB : r.body ++ w.sock_in.flatten = B)
    (hsize : B.length < 2147483648) :
    (process_put w r).1 = EXIT_SUCCESS ∧
      answers w (process_put w r).2 r.sock_fd (if w.fs r.fileNameStr = none then CREATED else OK) ∧
      (process_put w r).2.fs r.fileNameStr = some (.file true true B) ∧
      (process_put w r).2.faults = [] := by
  have hlen : B.length = r.body.length + w.sock_in.flatten.length := by
    rw [← hB, List.length_append]
  have hne : r.content_length ≠ -1 := by omega
  have hrem := put_remaining_eq r (by omega) (by omega)
  have hmain : (process_put w r).1 = EXIT_SUCCESS ∧
      (process_put w r).2.fs r.fileNameStr = some (.file true true B) ∧
      (process_put w r).2.faults = [] := by
    rcases htarget with ⟨h1, h2⟩ | ⟨c, h1⟩
    · obtain ⟨w1, ho, hf1, hfs1⟩ := process_put_open_absent w r hfaults h1 h2
      obtain ⟨-, -, -, -, -, hin, -⟩ := process_put_open_ok w r _ _ _ ho
      rw [process_put_eq_of_open_ok w r _ _ _ hne ho]
      have hs := process_put_body_delivered w1 r ⟨r.fileNameStr⟩ 201 hf1 (by omega) (by omega)
        (by rw [hin]; omega)
      obtain ⟨-, -, b3, -⟩ := process_put_body_success w1 r _ _ hs
      have hsp1 : spliced w1 (put_remaining r) = w.sock_in.flatten := by
        unfold spliced; rw [hin]; exact List.take_of_length_le (by omega)
      refine ⟨hs, ?_, process_put_body_faults w1 r _ _ hf1⟩
      rw [b3, hsp1, hfs1, fs_append_fs_set, hB]
      simp [fs_set]
    · obtain ⟨w1, ho, hf1, hfs1⟩ := process_put_open_present w r hfaults true c h1
      obtain ⟨-, -, -, -, -, hin, -⟩ := process_put_open_ok w r _ _ _ ho
      rw [process_put_eq_of_open_ok w r _ _ _ hne ho]
      have hs := process_put_body_delivered w1 r ⟨r.fileNameStr⟩ 200 hf1 (by omega) (by omega)
        (by rw [hin]; omega)
      obtain ⟨-, -, b3, -⟩ := process_put_body_success w1 r _ _ hs
      have hsp1 : spliced w1 (put_remaining r) = w.sock_in.flatten := by
        unfold spliced; rw [hin]; exact List.take_of_length_le (by omega)
      refine ⟨hs, ?_, process_put_body_faults w1 r _ _ hf1⟩
      rw [b3, hsp1, hfs1, fs_append_fs_set, hB]
      simp [fs_set]
  obtain ⟨hs, hfs, hfl⟩ := hmain
  refine ⟨hs, ?_, hfs, hfl⟩
  rcases process_put_cases w r with ⟨-, h1⟩ | ⟨h1, -⟩ | ⟨-, -, h1, h2, -⟩ | ⟨-, -, h1, h2, -⟩
  · rw [h1] at hs; exact absurd hs EXIT_FAILURE_ne_SUCCESS
  · rw [h1] at hs; exact absurd hs EXIT_FAILURE_ne_SUCCESS
  · rw [if_pos h2]; exact h1
  · rw [if_neg h2]; exact h1

theorem get_text_length (X : List Nat) : (get_text X).length = X.length + 18 := by
  simp [get_text, request_text]
  have : (str "GET").length = 3 := by decide
  omega

/-- The worker on a connection whose first read is a PUT header block with the
pre-buffered body `P` and whose later reads are `later`: the PUT is answered 201
or 200, and the target ends as a regular file holding `P` and the later bytes. -/
theorem serve_put_text (w : World) (X ds P : List Nat) (later : List (List Nat)) (fd : Nat)
    (eof : Bool)
    (hX1 : 1 ≤ X.length) (hX2 : X.length ≤ 63) (hX : ∀ c ∈ X, isNameChar c = true)
    (hds1 : 1 ≤ ds.length) (hds2 : ds.length ≤ 128) (hds : ∀ c ∈ ds, isDigit c = true)
    (hval : digitsVal ds = (P ++ later.flatten).length)
    (hsize : (P ++ later.flatten).length < 2147483648)
    (hfit : (put_text X ds P).length ≤ BUFSIZE)
    (hP : regexec_HEADEX P 0 = none)
    (hfaults : w.faults = []) (herrno : w.errno ≠ EINVAL)
    (htarget : (w.fs X = none ∧ w.cwd_writable = true) ∨ ∃ c, w.fs X = some (.file true true c)) :
    sends (serve w ⟨put_text X ds P :: later, eof⟩ fd).trace =
        sends w.trace ++ [(fd, if w.fs X = none then CREATED else OK)] ∧
      (serve w ⟨put_text X ds P :: later, eof⟩ fd).fs X =
        some (.file true true (P ++ later.flatten)) ∧
      (serve w ⟨put_text X ds P :: later, eof⟩ fd).faults = [] := by
  have hPlen : P.length < 2147483648 := by
    have : P.length ≤ (put_text X ds P).length := by
      simp only [put_text, request_text, List.length_append, List.length_cons]
      omega
    unfold BUFSIZE at hfit
    omega
  have hread := read_until_first_read (w.accept ⟨put_text X ds P :: later, eof⟩)
    (put_text X ds P) later hfaults rfl (has_terminator_put_text X ds P) hfit
  obtain ⟨req, hparse, hfd, hcmd, hname, hver, hcl, hrb, hbody, -⟩ :=
    parse_request_put_text
      { w.accept ⟨put_text X ds P :: later, eof⟩ with sock_in := later } fd X ds P hX1 hX2 hX
      hds1 hds2 hds (by omega) hPlen hP herrno
  have hput := process_put_delivered
    { w.accept ⟨put_text X ds P :: later, eof⟩ with sock_in := later } req (P ++ later.flatten)
    hfaults (by rw [hname]; exact htarget) (by rw [hcl, hval]) (by rw [hbody, hrb])
    (by rw [hbody]) hsize
  obtain ⟨-, hans, hfs, hfl⟩ := hput
  have hserve : serve w ⟨put_text X ds P :: later, eof⟩ fd =
      (process_put { w.accept ⟨put_text X ds P :: later, eof⟩ with sock_in := later } req).2.emit
        (.close_sock fd) := by
    unfold serve process_in_thread_body
    rw [hread]
    simp only []
    rw [if_neg (by omega), hparse]
    simp only []
    rw [process_request_put _ _ hver hcmd]
  rw [hserve]
  refine ⟨?_, ?_, ?_⟩
  · unfold answers at hans
    rw [hfd, hname] at hans
    simp only [emit_trace, sends_append, sends_cons_close_sock, sends_nil, List.append_nil]
    exact hans
  · rw [emit_fs, ← hname]; exact hfs
  · rw [emit_faults]; exact hfl

/-- The worker on a connection that brings `GET /X HTTP/1.1` when `X` is a
readable regular file: 200 OK with the file size, then the content. -/
theorem serve_get_text (w : World) (X B : List Nat) (wr : Bool) (fd : Nat) (eof : Bool)
    (hX1 : 1 ≤ X.length) (hX2 : X.length ≤ 63) (hX : ∀ c ∈ X, isNameChar c = true)
    (hfaults : w.faults = []) (hfs : w.fs X = some (.file true wr B))
    (hsize : B.length < 2147483648) :
    sends (serve w ⟨[get_text X], eof⟩ fd).trace = sends w.trace ++
      [(fd, str "HTTP/1.1 200 OK\r\nContent-Length: " ++ fmt_d B.length ++ str "\r\n\r\n"),
       (fd, B)] := by
  have hread := read_until_first_read (w.accept ⟨[get_text X], eof⟩) (get_text X) [] hfaults rfl
    (has_terminator_get_text X) (by rw [get_text_length]; unfold BUFSIZE; omega)
  obtain ⟨req, hparse, hfd, hcmd, hname, hver, hcl, hrb⟩ :=
    parse_request_get_text { w.accept ⟨[get_text X], eof⟩ with sock_in := [] } fd X hX1 hX2 hX
  obtain ⟨-, hsends, -⟩ := process_get_regular_file
    { w.accept ⟨[get_text X], eof⟩ with sock_in := [] } req hfaults wr B
    (by rw [hname]; exact hfs) hcl (by omega) hsize
  have hserve : serve w ⟨[get_text X], eof⟩ fd =
      (process_get { w.accept ⟨[get_text X], eof⟩ with sock_in := [] } req).2.emit
        (.close_sock fd) := by
    unfold serve process_in_thread_body
    rw [hread]
    simp only []
    rw [if_neg (by omega), hparse]
    simp only []
    rw [process_request_get _ _ hver hcmd]
  rw [hserve]
  simp only [emit_trace, sends_append, sends_cons_close_sock, sends_nil, List.append_nil]
  rw [hsends, hfd]
  rfl

/-! ## Conforming header lines -/

theorem take_span (p : Nat → Bool) (l : List Nat) : l.take (span p l) = l.takeWhile p := by
  induction l with
  | nil => rfl
  | cons x xs ih =>
    unfold span at ih ⊢
    by_cases hx : p x = true
    · rw [List.takeWhile_cons_of_pos hx]
      simp [ih]
    · rw [List.takeWhile_cons_of_neg hx]
      simp

theorem span_append_ge (p : Nat → Bool) (a b : List Nat) (ha : ∀ c ∈ a, p c = true) :
    a.length ≤ span p (a ++ b) := by
  unfold span
  rw [List.takeWhile_append_of_pos ha]
  simp

theorem drop_add_eq (b : List Nat) (o k : Nat) : b.drop (o + k) = (b.drop o).drop k := by
  simp [List.drop_drop, Nat.add_comm]

theorem header_text_length (n v rest : List Nat) :
    (header_text n v rest).length = n.length + 2 + v.length + 2 + rest.length := by
  simp [header_text]
  omega

theorem header_text_drop (n v rest : List Nat) :
    (header_text n v rest).drop (n.length + 2 + v.length + 2) = rest := by
  unfold header_text
  rw [show n.length + 2 + v.length + 2 = n.length + (2 + (v.length + 2)) by omega,
    List.drop_append]
  rw [show 2 + (v.length + 2) = (v.length + 2) + 1 + 1 by omega]
  simp only [List.drop_succ_cons]
  rw [List.drop_append]
  rfl

theorem headers_text_length_ge : ∀ (hs : List (List Nat × List Nat)) (tail : List Nat),
    hs.length + tail.length ≤ (headers_text hs tail).length := by
  intro hs
  induction hs with
  | nil => intro tail; simp [headers_text]
  | cons h hs ih =>
    intro tail
    have := ih tail
    simp only [headers_text, header_text_length, List.length_cons]
    omega

theorem isValueChar_ne_zero (c : Nat) (h : isValueChar c = true) : c ≠ 0 := by
  intro hc; subst hc; simp [isValueChar] at h

/-- A conforming header at the scan position is matched there, name and value
in full. -/
theorem headex_at_header_text (n v tail : List Nat) (h : conforming_header (n, v)) :
    headex_at (header_text n v tail) = some (n.length, v.length) := by
  obtain ⟨hn1, hn2, hn, hv1, hv2, hv⟩ := h
  dsimp only at hn1 hn2 hn hv1 hv2 hv
  have hspan : span isNameChar (header_text n v tail) = n.length :=
    span_at _ _ _ _ hn isNameChar_58
  have hd : (header_text n v tail).drop (n.length + 2) = v ++ 13 :: 10 :: tail := by
    unfold header_text
    rw [List.drop_append]
    rfl
  have g0 : (header_text n v tail).getD n.length 0 = 58 := by
    unfold header_text
    rw [getD_at n _ _ 0 (Nat.add_zero _).symm]; rfl
  have g1 : (header_text n v tail).getD (n.length + 1) 0 = 32 := by
    unfold header_text
    rw [getD_at n _ _ 1 rfl]; rfl
  have g2 : ∀ k, (header_text n v tail).getD (n.length + 2 + v.length + k) 0 =
      (13 :: 10 :: tail).getD k 0 := by
    intro k
    rw [Nat.add_assoc (n.length + 2), ← getD_drop, hd, getD_at v _ _ k rfl]
  have hspanv : span isValueChar (v ++ 13 :: 10 :: tail) = v.length :=
    span_at _ _ _ _ hv isValueChar_13
  unfold headex_at
  dsimp only
  rw [hspan, if_pos ⟨hn1, hn2, g0, g1⟩, hd, hspanv,
    if_pos ⟨hv1, hv2, by simpa using g2 0, by simpa [Nat.add_assoc] using g2 1⟩]

theorem regexec_HEADEX_header_text (n v tail : List Nat) (h : conforming_header (n, v)) :
    regexec_HEADEX (header_text n v tail) 0 =
      some (⟨0, n.length⟩, ⟨n.length + 2, n.length + 2 + v.length⟩) := by
  have hat := headex_at_header_text n v tail h
  obtain ⟨hn1, -, hn, -⟩ := h
  dsimp only at hn1 hn
  cases n with
  | nil => simp at hn1
  | cons c cs =>
    have hc : c ≠ 0 := isNameChar_ne_zero c (hn c (List.mem_cons_self _ _))
    have hcons : header_text (c :: cs) v tail =
        c :: (cs ++ 58 :: 32 :: (v ++ 13 :: 10 :: tail)) := rfl
    rw [hcons] at hat ⊢
    unfold regexec_HEADEX
    rw [if_neg hc, hat]
    simp

/-- The header loop on a run of conforming headers followed by text in which
`regexec` finds no header: it stops in front of that text, having moved past
every header. -/
theorem header_loop_headers_text (sock_fd : Nat) : ∀ (hs : List (List Nat × List Nat))
    (fuel : Nat) (st : HeaderState) (tail : List Nat),
    (∀ h ∈ hs, conforming_header h) → hs.length ≤ fuel →
    st.buf.drop st.offset = headers_text hs tail → regexec_HEADEX tail 0 = none →
    (header_loop sock_fd fuel st).buf.drop (header_loop sock_fd fuel st).offset = tail ∧
    (header_loop sock_fd fuel st).offset + tail.length =
      st.offset + (headers_text hs tail).length := by
  intro hs
  induction hs with
  | nil =>
    intro fuel st tail _ _ hd hnone
    have hst : header_loop sock_fd fuel st = st :=
      header_loop_of_nomatch _ _ _ (by rw [hd]; exact hnone)
    rw [hst]
    exact ⟨hd, rfl⟩
  | cons h hs ih =>
    intro fuel st tail hc hfuel hd hnone
    cases fuel with
    | zero => simp at hfuel
    | succ fuel =>
      have hm := regexec_HEADEX_header_text h.1 h.2 (headers_text hs tail)
        (hc h (List.mem_cons_self _ _))
      have hd' : st.buf.drop st.offset = header_text h.1 h.2 (headers_text hs tail) := hd
      have hstep : header_loop sock_fd (fuel + 1) st =
          header_loop sock_fd fuel
            (header_step sock_fd st ⟨0, h.1.length⟩ ⟨h.1.length + 2, h.1.length + 2 + h.2.length⟩) := by
        rw [header_loop, hd', hm]
      have hst1 : (header_step sock_fd st ⟨0, h.1.length⟩
            ⟨h.1.length + 2, h.1.length + 2 + h.2.length⟩).buf.drop
          (header_step sock_fd st ⟨0, h.1.length⟩
            ⟨h.1.length + 2, h.1.length + 2 + h.2.length⟩).offset = headers_text hs tail := by
        rw [header_step_buf, header_step_offset]
        dsimp only
        rw [List.drop_set_of_lt _ _ (by omega), List.drop_set_of_lt _ _ (by omega),
          drop_add_eq, hd', header_text_drop]
      have := ih fuel _ tail (fun x hx => hc x (List.mem_cons_of_mem _ hx))
        (by simpa using hfuel) hst1 hnone
      rw [hstep]
      refine ⟨this.1, ?_⟩
      rw [this.2, header_step_offset]
      simp only [headers_text, header_text_length]
      omega

theorem request_text_length (m X : List Nat) (d1 d2 : Nat) (rest : List Nat) :
    (request_text m X d1 d2 rest).length = m.length + 2 + X.length + 1 + 8 + 2 + rest.length := by
  simp [request_text]
  omega

theorem request_text_drop_target (m X : List Nat) (d1 d2 : Nat) (rest : List Nat) :
    (request_text m X d1 d2 rest).drop (m.length + 2) =
      X ++ 32 :: 72 :: 84 :: 84 :: 80 :: 47 :: d1 :: 46 :: d2 :: 13 :: 10 :: rest := by
  unfold request_text
  rw [List.drop_append]
  rfl

/-- `parse_request` on a request made of a conforming request line, conforming
headers, the CR LF terminator and pre-buffered body bytes in which `regexec`
finds no header: success, with the method and the target of the request line,
and the body handed over as it is. -/
theorem parse_request_conforming (w : World) (sock_fd : Nat) (m X : List Nat) (d1 d2 : Nat)
    (hs : List (List Nat × List Nat)) (body : List Nat) (bytes_read : Int)
    (hm1 : 1 ≤ m.length) (hm2 : m.length ≤ 8) (hm : ∀ c ∈ m, isAlpha c = true)
    (hX1 : 1 ≤ X.length) (hX2 : X.length ≤ 63) (hX : ∀ c ∈ X, isNameChar c = true)
    (hd1 : isDigit d1 = true) (hd2 : isDigit d2 = true)
    (hhs : ∀ h ∈ hs, conforming_header h) (hbody : regexec_HEADEX body 0 = none) :
    ∃ req w1, parse_request w sock_fd
        (request_text m X d1 d2 (headers_text hs (13 :: 10 :: body))) bytes_read = (some req, w1) ∧
      req.commandStr = m ∧ req.fileNameStr = X ∧
      req.message_body + body.length =
        (request_text m X d1 d2 (headers_text hs (13 :: 10 :: body))).length ∧
      req.buf.drop req.message_body = body := by
  have hl : ReqLine (request_text m X d1 d2 (headers_text hs (13 :: 10 :: body))) m.length
      X.length := request_text_ReqLine m X d1 d2 _ hm1 hm2 hm hX1 hX2 hX hd1 hd2
  have hrest : (header_init w (request_text m X d1 d2 (headers_text hs (13 :: 10 :: body)))
        m.length X.length).buf.drop
      (header_init w (request_text m X d1 d2 (headers_text hs (13 :: 10 :: body)))
        m.length X.length).offset = headers_text hs (13 :: 10 :: body) := by
    simp only [header_init]
    rw [reqline_buf_drop]
    exact request_text_drop m X d1 d2 _
  have hfuel : hs.length ≤
      (request_text m X d1 d2 (headers_text hs (13 :: 10 :: body))).length + 1 := by
    have h1 := headers_text_length_ge hs (13 :: 10 :: body)
    rw [request_text_length]
    omega
  obtain ⟨hfin, hoff⟩ := header_loop_headers_text sock_fd hs _ _ (13 :: 10 :: body) hhs hfuel
    hrest (regexec_HEADEX_crlf body hbody)
  have hparse := parse_request_of_ReqLine w sock_fd
    (request_text m X d1 d2 (headers_text hs (13 :: 10 :: body))) bytes_read m.length X.length hl
  unfold header_final at hparse
  have hg0 := getD_drop (header_loop sock_fd
      ((request_text m X d1 d2 (headers_text hs (13 :: 10 :: body))).length + 1)
      (header_init w (request_text m X d1 d2 (headers_text hs (13 :: 10 :: body)))
        m.length X.length)).buf
    (header_loop sock_fd
      ((request_text m X d1 d2 (headers_text hs (13 :: 10 :: body))).length + 1)
      (header_init w (request_text m X d1 d2 (headers_text hs (13 :: 10 :: body)))
        m.length X.length)).offset 0
  have hg1 := getD_drop (header_loop sock_fd
      ((request_text m X d1 d2 (headers_text hs (13 :: 10 :: body))).length + 1)
      (header_init w (request_text m X d1 d2 (headers_text hs (13 :: 10 :: body)))
        m.length X.length)).buf
    (header_loop sock_fd
      ((request_text m X d1 d2 (headers_text hs (13 :: 10 :: body))).length + 1)
      (header_init w (request_text m X d1 d2 (headers_text hs (13 :: 10 :: body)))
        m.length X.length)).offset 1
  rw [hfin] at hg0 hg1
  rw [Nat.add_zero] at hg0
  rw [if_pos ⟨hg0.symm, hg1.symm⟩] at hparse
  obtain ⟨n, t, hl', -, hcmd, hname, -⟩ := parse_request_strings w sock_fd _ _ _ _ hparse
  have hn : n = m.length := by rw [hl'.n_eq, ← hl.n_eq]
  subst hn
  have ht : t = X.length := by rw [hl'.t_eq, ← hl.t_eq]
  subst ht
  refine ⟨_, _, hparse, ?_, ?_, ?_, ?_⟩
  · rw [hcmd]
    unfold request_text
    exact List.take_left' rfl
  · rw [hname, request_text_drop_target]
    exact List.take_left' rfl
  · dsimp only
    have hlen : (header_init w (request_text m X d1 d2 (headers_text hs (13 :: 10 :: body)))
        m.length X.length).offset + (headers_text hs (13 :: 10 :: body)).length =
        (request_text m X d1 d2 (headers_text hs (13 :: 10 :: body))).length := by
      rw [request_text_length]
      simp only [header_init]
    simp only [List.length_cons] at hoff
    omega
  · dsimp only
    rw [drop_add_eq, hfin]
    rfl

/-- A target of 64 or more name bytes makes `REQEX` fail. -/
theorem regexec_REQEX_long_target (m X rest : List Nat)
    (hm : ∀ c ∈ m, isAlpha c = true) (hX : ∀ c ∈ X, isNameChar c = true)
    (hX64 : 64 ≤ X.length) : regexec_REQEX (m ++ 32 :: 47 :: (X ++ rest)) = none := by
  have hspan : span isAlpha (m ++ 32 :: 47 :: (X ++ rest)) = m.length :=
    span_at _ _ _ _ hm isAlpha_32
  have hd : (m ++ 32 :: 47 :: (X ++ rest)).drop (m.length + 2) = X ++ rest := by
    rw [List.drop_append]
    rfl
  have ht := span_append_ge isNameChar X rest hX
  unfold regexec_REQEX
  dsimp only
  rw [hspan, hd]
  split_ifs with h1 h2 h3
  · omega
  · omega
  · rfl
  · rfl

/-! ## The header loop does not depend on what precedes the scan position -/

theorem set_set_drop (b : List Nat) (off i j : Nat) :
    ((b.set (off + i) 0).set (off + j) 0).drop off = ((b.drop off).set i 0).set j 0 := by
  rw [List.set_drop, List.set_drop]

theorem header_step_norm (sock_fd : Nat) (st : HeaderState) (m1 m2 : regmatch_t) :
    (header_step sock_fd st m1 m2).norm = (header_step sock_fd st.norm m1 m2).norm := by
  have hD := set_set_drop st.buf st.offset m1.rm_eo m2.rm_eo
  unfold header_step HeaderState.norm
  dsimp only
  simp only [Nat.zero_add, List.drop_zero, drop_add_eq, hD]
  split_ifs <;> simp only [Nat.zero_add, List.drop_zero, drop_add_eq, hD]

theorem header_step_norm_congr (sock_fd : Nat) (st1 st2 : HeaderState) (m1 m2 : regmatch_t)
    (h : st1.norm = st2.norm) :
    (header_step sock_fd st1 m1 m2).norm = (header_step sock_fd st2 m1 m2).norm := by
  rw [header_step_norm sock_fd st1, header_step_norm sock_fd st2, h]

theorem norm_view (st1 st2 : HeaderState) (h : st1.norm = st2.norm) :
    st1.buf.drop st1.offset = st2.buf.drop st2.offset :=
  congrArg HeaderState.buf h

/-- Two runs of the header loop that start from states with the same text at
the scan position and the same fields, each with enough fuel, end in states
with the same text at the scan position and the same fields. -/
theorem header_loop_norm (sock_fd : Nat) : ∀ (f1 f2 : Nat) (st1 st2 : HeaderState),
    st1.norm = st2.norm → st1.buf.length + 1 ≤ f1 + st1.offset →
    st2.buf.length + 1 ≤ f2 + st2.offset →
    (header_loop sock_fd f1 st1).norm = (header_loop sock_fd f2 st2).norm := by
  intro f1
  induction f1 with
  | zero =>
    intro f2 st1 st2 h hf1 _
    have hv := norm_view st1 st2 h
    have h1 : st1.buf.drop st1.offset = [] := List.drop_eq_nil_of_le (by omega)
    have hn : regexec_HEADEX (st2.buf.drop st2.offset) 0 = none := by
      rw [← hv, h1]
      rfl
    rw [header_loop_of_nomatch sock_fd f2 st2 hn]
    exact h
  | succ f1 ih =>
    intro f2 st1 st2 h hf1 hf2
    have hv := norm_view st1 st2 h
    cases hr : regexec_HEADEX (st1.buf.drop st1.offset) 0 with
    | none =>
      rw [header_loop_of_nomatch sock_fd _ st1 hr,
        header_loop_of_nomatch sock_fd f2 st2 (by rw [← hv]; exact hr)]
      exact h
    | some m =>
      obtain ⟨m1, m2⟩ := m
      cases f2 with
      | zero =>
        have h2 : st2.buf.drop st2.offset = [] := List.drop_eq_nil_of_le (by omega)
        rw [hv, h2] at hr
        simp [regexec_HEADEX] at hr
      | succ f2 =>
        have e1 : header_loop sock_fd (f1 + 1) st1 =
            header_loop sock_fd f1 (header_step sock_fd st1 m1 m2) := by
          rw [header_loop, hr]
        have e2 : header_loop sock_fd (f2 + 1) st2 =
            header_loop sock_fd f2 (header_step sock_fd st2 m1 m2) := by
          rw [header_loop, ← hv, hr]
        rw [e1, e2]
        apply ih
        · exact header_step_norm_congr sock_fd st1 st2 m1 m2 h
        · rw [header_step_length, header_step_offset]
          omega
        · rw [header_step_length, header_step_offset]
          omega

theorem header_init_norm (w : World) (m X : List Nat) (d1 d2 : Nat) (rest : List Nat) :
    (header_init w (request_text m X d1 d2 rest) m.length X.length).norm =
      { buf := rest, offset := 0, content_length := -1, request_ID := 0, w := w } := by
  simp only [HeaderState.norm, header_init]
  rw [reqline_buf_drop, request_text_drop]

/-- The header loop of `parse_request` ends the same way for two request lines
with the same text after them. -/
theorem header_final_norm (w : World) (sock_fd : Nat) (m X X0 : List Nat) (d1 d2 : Nat)
    (rest : List Nat) :
    (header_final w sock_fd (request_text m X d1 d2 rest) m.length X.length).norm =
      (header_final w sock_fd (request_text m X0 d1 d2 rest) m.length X0.length).norm := by
  unfold header_final
  apply header_loop_norm
  · rw [header_init_norm, header_init_norm]
  · simp only [header_init, reqline_buf, List.length_set]
    omega
  · simp only [header_init, reqline_buf, List.length_set]
    omega

/-- Whether `parse_request` accepts a request does not depend on its target,
as long as the target is 1 to 63 bytes of the alphabet; the file name of the
accepted request is the target. -/
theorem parse_request_target_frame (w : World) (sock_fd : Nat) (m X X0 : List Nat) (d1 d2 : Nat)
    (rest : List Nat) (bytes_read b0 : Int)
    (hm1 : 1 ≤ m.length) (hm2 : m.length ≤ 8) (hm : ∀ c ∈ m, isAlpha c = true)
    (hX1 : 1 ≤ X.length) (hX2 : X.length ≤ 63) (hX : ∀ c ∈ X, isNameChar c = true)
    (hX01 : 1 ≤ X0.length) (hX02 : X0.length ≤ 63) (hX0 : ∀ c ∈ X0, isNameChar c = true)
    (hd1 : isDigit d1 = true) (hd2 : isDigit d2 = true)
    (h0 : (parse_request w sock_fd (request_text m X0 d1 d2 rest) b0).1.isSome = true) :
    ∃ req w1, parse_request w sock_fd (request_text m X d1 d2 rest) bytes_read = (some req, w1) ∧
      req.fileNameStr = X := by
  have hl := request_text_ReqLine m X d1 d2 rest hm1 hm2 hm hX1 hX2 hX hd1 hd2
  have hl0 := request_text_ReqLine m X0 d1 d2 rest hm1 hm2 hm hX01 hX02 hX0 hd1 hd2
  have hn := header_final_norm w sock_fd m X X0 d1 d2 rest
  have hv := norm_view _ _ hn
  have hp0 := parse_request_of_ReqLine w sock_fd (request_text m X0 d1 d2 rest) b0 m.length
    X0.length hl0
  have hp := parse_request_of_ReqLine w sock_fd (request_text m X d1 d2 rest) bytes_read m.length
    X.length hl
  have hg0 := getD_drop (header_final w sock_fd (request_text m X d1 d2 rest) m.length
    X.length).buf (header_final w sock_fd (request_text m X d1 d2 rest) m.length X.length).offset 0
  have hg1 := getD_drop (header_final w sock_fd (request_text m X d1 d2 rest) m.length
    X.length).buf (header_final w sock_fd (request_text m X d1 d2 rest) m.length X.length).offset 1
  rw [hv, getD_drop] at hg0 hg1
  simp only [Nat.add_zero] at hg0
  by_cases hc : (header_final w sock_fd (request_text m X0 d1 d2 rest) m.length X0.length).buf.getD
      (header_final w sock_fd (request_text m X0 d1 d2 rest) m.length X0.length).offset 0 = 13 ∧
    (header_final w sock_fd (request_text m X0 d1 d2 rest) m.length X0.length).buf.getD
      ((header_final w sock_fd (request_text m X0 d1 d2 rest) m.length X0.length).offset + 1) 0
      = 10
  · rw [if_pos (by rw [← hg0, ← hg1]; exact hc)] at hp
    obtain ⟨n, t, hl', -, -, hname, -⟩ := parse_request_strings w sock_fd _ _ _ _ hp
    have hn' : n = m.length := by rw [hl'.n_eq, ← hl.n_eq]
    subst hn'
    have ht : t = X.length := by rw [hl'.t_eq, ← hl.t_eq]
    subst ht
    refine ⟨_, _, hp, ?_⟩
    rw [hname, request_text_drop_target]
    exact List.take_left' rfl
  · rw [if_neg hc] at hp0
    rw [hp0] at h0
    simp at h0

/-! ## The registry used sequentially -/

theorem get_node_scan_append_self : ∀ (reg : List (List Nat)) (f : List Nat) (i : Nat),
    get_node_scan reg f i = none → get_node_scan (reg ++ [f]) f i = some (i + reg.length) := by
  intro reg
  induction reg with
  | nil => intro f i _; simp [get_node_scan]
  | cons g rest ih =>
    intro f i h
    unfold get_node_scan at h
    by_cases hfg : f = g
    · rw [if_pos hfg] at h
      simp at h
    · rw [if_neg hfg] at h
      show get_node_scan (g :: (rest ++ [f])) f i = _
      unfold get_node_scan
      rw [if_neg hfg, ih f (i + 1) h]
      simp only [List.length_cons, Option.some.injEq]
      omega

theorem get_node_scan_get : ∀ (reg : List (List Nat)) (f : List Nat) (i k : Nat),
    get_node_scan reg f i = some k → i ≤ k ∧ reg.get? (k - i) = some f := by
  intro reg
  induction reg with
  | nil => intro f i k h; simp [get_node_scan] at h
  | cons g rest ih =>
    intro f i k h
    unfold get_node_scan at h
    by_cases hfg : f = g
    · rw [if_pos hfg] at h
      simp only [Option.some.injEq] at h
      subst h
      simp [hfg]
    · rw [if_neg hfg] at h
      obtain ⟨h1, h2⟩ := ih f (i + 1) k h
      refine ⟨by omega, ?_⟩
      rw [show k - i = (k - (i + 1)) + 1 by omega]
      simpa using h2

/-- A second `get_node` for the same file name finds the node of the first. -/
theorem get_node_idem (reg : List (List Nat)) (f : List Nat) :
    get_node (get_node reg f).2 f = get_node reg f := by
  unfold get_node
  cases h : get_node_scan reg f 0 with
  | some i => simp [h]
  | none =>
    have := get_node_scan_append_self reg f 0 h
    simp [add_node, this]

/-- The node `get_node` returns is an entry of the registry for that file name. -/
theorem get_node_entry (reg : List (List Nat)) (f : List Nat) :
    (get_node reg f).2.get? (get_node reg f).1 = some f := by
  unfold get_node
  cases h : get_node_scan reg f 0 with
  | some i =>
    have := (get_node_scan_get reg f 0 i h).2
    simpa using this
  | none => simp [add_node]

/-! ## Traces of the primitives -/

@[simp] theorem lock_events_nil : lock_events [] = [] := rfl

@[simp] theorem lock_events_append (a b : List Event) :
    lock_events (a ++ b) = lock_events a ++ lock_events b := by
  simp [lock_events]

@[simp] theorem file_read_lock_trace (w : World) (f : List Nat) :
    (file_read_lock w f).trace = w.trace ++ [Event.lock .reader (get_node w.registry f).1] := rfl
@[simp] theorem file_read_lock_registry (w : World) (f : List Nat) :
    (file_read_lock w f).registry = (get_node w.registry f).2 := rfl
@[simp] theorem file_read_unlock_trace (w : World) (f : List Nat) :
    (file_read_unlock w f).trace = w.trace ++ [Event.unlock .reader (get_node w.registry f).1] :=
  rfl
@[simp] theorem file_write_lock_trace (w : World) (f : List Nat) :
    (file_write_lock w f).trace = w.trace ++ [Event.lock .writer (get_node w.registry f).1] := rfl
@[simp] theorem file_write_lock_registry (w : World) (f : List Nat) :
    (file_write_lock w f).registry = (get_node w.registry f).2 := rfl
@[simp] theorem file_write_unlock_trace (w : World) (f : List Nat) :
    (file_write_unlock w f).trace = w.trace ++ [Event.unlock .writer (get_node w.registry f).1] :=
  rfl
@[simp] theorem audit_registry (w : World) (m : String) (n : List Nat) (s : String) (i : Int) :
    (audit w m n s i).registry = w.registry := rfl
@[simp] theorem close_file_trace (w : World) (fd : Fd) :
    (close_file w fd).trace = w.trace ++ [Event.close_file fd.name] := rfl
@[simp] theorem close_file_registry (w : World) (fd : Fd) :
    (close_file w fd).registry = w.registry := rfl

theorem posix_open_trace (w : World) (name : List Nat) (fl : OFlags) :
    (posix_open w name fl).2.trace =
        w.trace ++ [Event.open_ name fl (posix_open w name fl).1.isSome] ∧
      (posix_open w name fl).2.registry = w.registry := by
  unfold posix_open
  rw [show next_fault w = ((next_fault w).1, (next_fault w).2) from rfl, next_fault_snd]
  cases (next_fault w).1 with
  | some f => simp
  | none =>
    dsimp only
    cases open_outcome w.fs w.cwd_writable name fl with
    | mk res fs1 => cases res <;> simp

theorem open_outcome_ok_name (fs : List Nat → Option Node) (c : Bool) (name : List Nat)
    (fl : OFlags) (fd : Fd) (fs1 : List Nat → Option Node)
    (h : open_outcome fs c name fl = (.ok fd, fs1)) : fd.name = name := by
  unfold open_outcome at h
  split at h <;> split_ifs at h <;>
    simp only [Prod.mk.injEq, Except.ok.injEq, reduceCtorEq, false_and] at h <;>
    (obtain ⟨h1, -⟩ := h; rw [← h1])

theorem posix_open_fd_name (w : World) (name : List Nat) (fl : OFlags) (fd : Fd) (w1 : World)
    (h : posix_open w name fl = (some fd, w1)) : fd.name = name := by
  unfold posix_open at h
  rw [show next_fault w = ((next_fault w).1, (next_fault w).2) from rfl, next_fault_snd] at h
  cases hf : (next_fault w).1 with
  | some f => rw [hf] at h; simp at h
  | none =>
    rw [hf] at h
    dsimp only at h
    cases ho : open_outcome w.fs w.cwd_writable name fl with
    | mk res fs1 =>
      rw [ho] at h
      cases res with
      | error e => simp at h
      | ok fd1 =>
        simp only [Prod.mk.injEq, Option.some.injEq] at h
        rw [← h.1]
        exact open_outcome_ok_name _ _ _ _ _ _ ho

theorem fstat_size_trace (w : World) (fd : Fd) :
    (fstat_size w fd).2.trace = w.trace ++ [Event.fstat fd.name] ∧
      (fstat_size w fd).2.registry = w.registry := by
  unfold fstat_size
  split <;> exact ⟨rfl, rfl⟩

/-- `pass_n_bytes` from a file to the socket: either it fails, or it has sent
some bytes `c` and returns their number. -/
theorem pass_n_bytes_out_cases (w : World) (fd : Fd) (sock n : Nat) :
    (pass_n_bytes_out w fd sock n).2.registry = w.registry ∧
    (((pass_n_bytes_out w fd sock n).1 = -1 ∧
        (pass_n_bytes_out w fd sock n).2.trace = w.trace ++ [Event.splice_out_failed fd.name]) ∨
      ∃ c : List Nat, (pass_n_bytes_out w fd sock n).1 = (c.length : Int) ∧
        (pass_n_bytes_out w fd sock n).2.trace = w.trace ++ [Event.send sock c]) := by
  unfold pass_n_bytes_out
  rw [show next_fault w = ((next_fault w).1, (next_fault w).2) from rfl, next_fault_snd]
  cases (next_fault w).1 with
  | some f => exact ⟨rfl, Or.inl ⟨rfl, rfl⟩⟩
  | none =>
    dsimp only
    split
    · exact ⟨rfl, Or.inr ⟨_, rfl, rfl⟩⟩
    · exact ⟨rfl, Or.inl ⟨rfl, rfl⟩⟩

/-! ## The runs of `process_get` -/

theorem audit_trace_line (w : World) (m : String) (n : List Nat) (s : String) (i : Int) :
    (audit w m n s i).trace = w.trace ++ [Event.log (audit_line m n s i)] := rfl

/-- Every run of `process_get`, as the events it adds to the trace. -/
theorem process_get_trace (w : World) (r : Request) :
    ∃ evs, (process_get w r).2.trace = w.trace ++ evs ∧
      (evs = [Event.send r.sock_fd BAD_REQUEST] ∨
       evs = [Event.open_ r.fileNameStr O_RDONLY_DIRECTORY true, Event.send r.sock_fd FORBIDDEN,
              Event.log (audit_line "GET" r.fileNameStr "403" r.request_ID)] ∨
       ∃ mid, evs = Event.open_ r.fileNameStr O_RDONLY_DIRECTORY false ::
            Event.lock .reader (get_node w.registry r.fileNameStr).1 ::
            (mid ++ [Event.unlock .reader (get_node w.registry r.fileNameStr).1]) ∧
          (mid = [Event.open_ r.fileNameStr O_RDONLY false, Event.send r.sock_fd NOT_FOUND,
                  Event.log (audit_line "GET" r.fileNameStr "404" r.request_ID)] ∨
           mid = [Event.open_ r.fileNameStr O_RDONLY false,
                  Event.log (audit_line "GET" r.fileNameStr "403" r.request_ID),
                  Event.send r.sock_fd FORBIDDEN] ∨
           mid = [Event.open_ r.fileNameStr O_RDONLY false,
                  Event.send r.sock_fd INTERNAL_SERVER_ERROR,
                  Event.log (audit_line "GET" r.fileNameStr "500" r.request_ID)] ∨
           (∃ (size : Nat) (body : List Nat),
              mid = [Event.open_ r.fileNameStr O_RDONLY true, Event.fstat r.fileNameStr,
                  Event.send r.sock_fd
                    (str "HTTP/1.1 200 OK\r\nContent-Length: " ++ fmt_d size ++ str "\r\n\r\n"),
                  Event.log (audit_line "GET" r.fileNameStr "200" r.request_ID),
                  Event.send r.sock_fd body, Event.close_file r.fileNameStr] ∧
              (process_get w r).1 = EXIT_SUCCESS) ∨
           (∃ size : Nat,
              mid = [Event.open_ r.fileNameStr O_RDONLY true, Event.fstat r.fileNameStr,
                  Event.send r.sock_fd
                    (str "HTTP/1.1 200 OK\r\nContent-Length: " ++ fmt_d size ++ str "\r\n\r\n"),
                  Event.log (audit_line "GET" r.fileNameStr "200" r.request_ID),
                  Event.splice_out_failed r.fileNameStr,
                  Event.send r.sock_fd INTERNAL_SERVER_ERROR] ∧
              (process_get w r).1 = EXIT_FAILURE) ∨
           (∃ (size : Nat) (body : List Nat),
              mid = [Event.open_ r.fileNameStr O_RDONLY true, Event.fstat r.fileNameStr,
                  Event.send r.sock_fd
                    (str "HTTP/1.1 200 OK\r\nContent-Length: " ++ fmt_d size ++ str "\r\n\r\n"),
                  Event.log (audit_line "GET" r.fileNameStr "200" r.request_ID),
                  Event.send r.sock_fd body,
                  Event.send r.sock_fd INTERNAL_SERVER_ERROR] ∧
              (process_get w r).1 = EXIT_FAILURE))) := by
  by_cases h1 : r.content_length ≠ -1
  · unfold process_get
    rw [if_pos h1]
    exact ⟨_, rfl, Or.inl rfl⟩
  by_cases h2 : r.remaining_bytes > 0
  · unfold process_get
    rw [if_neg h1, if_pos h2]
    exact ⟨_, rfl, Or.inl rfl⟩
  obtain ⟨ht1, hr1⟩ := posix_open_trace w r.fileNameStr O_RDONLY_DIRECTORY
  have hidem := get_node_idem w.registry r.fileNameStr
  unfold process_get
  rw [if_neg h1, if_neg h2]
  cases hp1 : posix_open w r.fileNameStr O_RDONLY_DIRECTORY with
  | mk o1 w1 =>
    rw [hp1] at ht1 hr1
    dsimp only at ht1 hr1 ⊢
    cases o1 with
    | some fd0 =>
      dsimp only
      refine ⟨_, ?_, Or.inr (Or.inl rfl)⟩
      simp [ht1, audit_line]
    | none =>
      dsimp only
      obtain ⟨ht3, hr3⟩ :=
        posix_open_trace (file_read_lock w1 r.fileNameStr) r.fileNameStr O_RDONLY
      cases hp3 : posix_open (file_read_lock w1 r.fileNameStr) r.fileNameStr O_RDONLY with
      | mk o3 w3 =>
        rw [hp3] at ht3 hr3
        dsimp only at ht3 hr3 ⊢
        simp only [file_read_lock_trace, file_read_lock_registry, hr1, ht1] at ht3 hr3
        cases o3 with
        | none =>
          dsimp only
          by_cases he1 : w3.errno = ENOENT
          · rw [if_pos he1]
            refine ⟨_, ?_, Or.inr (Or.inr ⟨_, rfl, Or.inl rfl⟩)⟩
            simp [ht3, hr3, hidem, audit_line]
          · rw [if_neg he1]
            by_cases he2 : w3.errno = EACCES
            · rw [if_pos he2]
              refine ⟨_, ?_, Or.inr (Or.inr ⟨_, rfl, Or.inr (Or.inl rfl)⟩)⟩
              simp [ht3, hr3, hidem, audit_line]
            · rw [if_neg he2]
              refine ⟨_, ?_, Or.inr (Or.inr ⟨_, rfl, Or.inr (Or.inr (Or.inl rfl))⟩)⟩
              simp [ht3, hr3, hidem, audit_line]
        | some fd =>
          have hname := posix_open_fd_name _ _ _ _ _ hp3
          dsimp only
          obtain ⟨ht4, hr4⟩ := fstat_size_trace w3 fd
          cases hfs : fstat_size w3 fd with
          | mk size w4 =>
            rw [hfs] at ht4 hr4
            dsimp only at ht4 hr4 ⊢
            obtain ⟨hr7, hcase⟩ := pass_n_bytes_out_cases
              (audit (dprintf w4 r.sock_fd
                (str "HTTP/1.1 200 OK\r\nContent-Length: " ++ fmt_d size ++ str "\r\n\r\n"))
                "GET" r.fileNameStr "200" r.request_ID) fd r.sock_fd size
            cases hps : pass_n_bytes_out
              (audit (dprintf w4 r.sock_fd
                (str "HTTP/1.1 200 OK\r\nContent-Length: " ++ fmt_d size ++ str "\r\n\r\n"))
                "GET" r.fileNameStr "200" r.request_ID) fd r.sock_fd size with
            | mk bw w7 =>
              rw [hps] at hr7 hcase
              dsimp only at hr7 hcase ⊢
              simp only [audit_registry, dprintf_registry, hr4, hr3] at hr7
              by_cases hb : toInt32 bw = -1
              · rw [if_pos hb]
                rcases hcase with ⟨-, ht7⟩ | ⟨c, -, ht7⟩
                · refine ⟨_, ?_, Or.inr (Or.inr ⟨_, rfl,
                    Or.inr (Or.inr (Or.inr (Or.inr (Or.inl ⟨size, rfl, rfl⟩))))⟩)⟩
                  simp [ht7, ht4, ht3, hr7, hidem, hname, audit_line]
                · refine ⟨_, ?_, Or.inr (Or.inr ⟨_, rfl,
                    Or.inr (Or.inr (Or.inr (Or.inr (Or.inr ⟨size, c, rfl, rfl⟩))))⟩)⟩
                  simp [ht7, ht4, ht3, hr7, hidem, hname, audit_line]
              · rw [if_neg hb]
                rcases hcase with ⟨hbw, -⟩ | ⟨c, -, ht7⟩
                · rw [hbw] at hb
                  exact absurd toInt32_neg_one hb
                · refine ⟨_, ?_, Or.inr (Or.inr ⟨_, rfl,
                    Or.inr (Or.inr (Or.inr (Or.inl ⟨size, c, rfl, rfl⟩)))⟩)⟩
                  simp [ht7, ht4, ht3, hr7, hidem, hname, audit_line]

/-! ## The runs of `process_put` and the lock -/

theorem World.quiet_refl (w : World) : w.quiet w := ⟨[], by simp, rfl, rfl⟩

theorem World.quiet_trans {a b c : World} (h1 : a.quiet b) (h2 : b.quiet c) : a.quiet c := by
  obtain ⟨e1, ht1, hl1, hr1⟩ := h1
  obtain ⟨e2, ht2, hl2, hr2⟩ := h2
  exact ⟨e1 ++ e2, by rw [ht2, ht1, List.append_assoc], by simp [hl1, hl2], by rw [hr2, hr1]⟩

theorem World.quiet_dprintf {w w1 : World} (h : w.quiet w1) (fd : Nat) (b : List Nat) :
    w.quiet (dprintf w1 fd b) :=
  World.quiet_trans h ⟨[Event.send fd b], rfl, rfl, rfl⟩

theorem World.quiet_audit {w w1 : World} (h : w.quiet w1) (m : String) (n : List Nat) (s : String)
    (i : Int) : w.quiet (audit w1 m n s i) :=
  World.quiet_trans h ⟨[Event.log (audit_line m n s i)], rfl, rfl, rfl⟩

theorem World.quiet_close_file {w w1 : World} (h : w.quiet w1) (fd : Fd) :
    w.quiet (close_file w1 fd) :=
  World.quiet_trans h ⟨[Event.close_file fd.name], rfl, rfl, rfl⟩

theorem World.quiet_posix_open (w : World) (name : List Nat) (fl : OFlags) :
    w.quiet (posix_open w name fl).2 :=
  ⟨_, (posix_open_trace w name fl).1, rfl, (posix_open_trace w name fl).2⟩

theorem World.quiet_write_n_bytes (w : World) (fd : Fd) (bytes : List Nat) :
    w.quiet (write_n_bytes w fd bytes).2 := by
  unfold write_n_bytes
  rw [show next_fault w = ((next_fault w).1, (next_fault w).2) from rfl, next_fault_snd]
  cases (next_fault w).1 with
  | some f => exact ⟨[], by simp, rfl, rfl⟩
  | none => exact ⟨[Event.write fd.name bytes], rfl, rfl, rfl⟩

theorem World.quiet_pass_n_bytes_in (w : World) (fd : Fd) (n : Nat) :
    w.quiet (pass_n_bytes_in w fd n).2 := by
  unfold pass_n_bytes_in
  rw [show next_fault w = ((next_fault w).1, (next_fault w).2) from rfl, next_fault_snd]
  cases (next_fault w).1 with
  | some f => exact ⟨[], by simp, rfl, rfl⟩
  | none =>
    dsimp only
    split_ifs
    · exact ⟨[Event.splice_in fd.name (w.sock_in.flatten.take n)], rfl, rfl, rfl⟩
    · exact ⟨[Event.splice_in fd.name w.sock_in.flatten], rfl, rfl, rfl⟩
    · exact ⟨[Event.splice_in fd.name w.sock_in.flatten], rfl, rfl, rfl⟩

/-- Whatever `process_put_body` does, it ends by releasing the writer lock of
the target, and before that performs no lock operation. -/
theorem process_put_body_shape (w : World) (r : Request) (fd : Fd) (sc : Nat) :
    ∃ X, (process_put_body w r fd sc).2 = file_write_unlock X r.fileNameStr ∧ w.quiet X := by
  have hq1 := World.quiet_write_n_bytes w fd r.body
  have hq2 := World.quiet_trans hq1
    (World.quiet_pass_n_bytes_in (write_n_bytes w fd r.body).2 fd (put_remaining r))
  rw [process_put_body_eq]
  split_ifs
  · exact ⟨_, rfl, World.quiet_close_file (World.quiet_audit (World.quiet_dprintf hq1 _ _) _ _ _ _) _⟩
  · exact ⟨_, rfl, World.quiet_close_file (World.quiet_dprintf hq2 _ _) _⟩
  · exact ⟨_, rfl, World.quiet_close_file (World.quiet_audit (World.quiet_dprintf hq2 _ _) _ _ _ _) _⟩
  · exact ⟨_, rfl, World.quiet_close_file (World.quiet_audit (World.quiet_dprintf hq2 _ _) _ _ _ _) _⟩

/-- A `return` of `process_put_open`: either the probe found a directory and
403 was written and logged with no lock taken, or the probe failed, the writer
lock was taken, and the return is through its release. -/
theorem process_put_open_error_shape (w : World) (r : Request) (res : Int × World)
    (h : process_put_open w r = .error res) :
    res.2.trace = w.trace ++ [Event.open_ r.fileNameStr O_WRONLY_DIRECTORY true,
        Event.send r.sock_fd FORBIDDEN,
        Event.log (audit_line "PUT" r.fileNameStr "403" r.request_ID)] ∨
    ((posix_open w r.fileNameStr O_WRONLY_DIRECTORY).1 = none ∧
      ∃ X, res.2 = file_write_unlock X r.fileNameStr ∧
        (file_write_lock (posix_open w r.fileNameStr O_WRONLY_DIRECTORY).2 r.fileNameStr).quiet X)
    := by
  obtain ⟨ht1, -⟩ := posix_open_trace w r.fileNameStr O_WRONLY_DIRECTORY
  unfold process_put_open at h
  cases hp1 : posix_open w r.fileNameStr O_WRONLY_DIRECTORY with
  | mk o1 w1 =>
    rw [hp1] at h ht1
    dsimp only at h ht1 ⊢
    cases o1 with
    | some fd0 =>
      left
      simp only [Except.error.injEq] at h
      rw [← h]
      simp [ht1, audit_line]
    | none =>
      right
      refine ⟨rfl, ?_⟩
      dsimp only at h
      have hq3 := World.quiet_posix_open (file_write_lock w1 r.fileNameStr) r.fileNameStr
        O_WRONLY_CREAT_EXCL
      cases hp3 : posix_open (file_write_lock w1 r.fileNameStr) r.fileNameStr
          O_WRONLY_CREAT_EXCL with
      | mk o3 w3 =>
        rw [hp3] at h hq3
        dsimp only at h hq3
        cases o3 with
        | some fd => simp at h
        | none =>
          dsimp only at h
          have hq4 := World.quiet_trans hq3
            (World.quiet_posix_open w3 r.fileNameStr O_WRONLY_CREAT_TRUNC)
          cases hp4 : posix_open w3 r.fileNameStr O_WRONLY_CREAT_TRUNC with
          | mk o4 w4 =>
            rw [hp4] at h hq4
            dsimp only at h hq4
            split_ifs at h
            · cases o4 with
              | some fd => simp at h
              | none =>
                dsimp only at h
                split_ifs at h
                · simp only [Except.error.injEq] at h
                  rw [← h]
                  exact ⟨_, rfl, World.quiet_audit (World.quiet_dprintf hq4 _ _) _ _ _ _⟩
                · simp only [Except.error.injEq] at h
                  rw [← h]
                  exact ⟨_, rfl, World.quiet_audit (World.quiet_dprintf hq4 _ _) _ _ _ _⟩
            · simp only [Except.error.injEq] at h
              rw [← h]
              exact ⟨_, rfl, World.quiet_audit (World.quiet_dprintf hq3 _ _) _ _ _ _⟩
            · simp only [Except.error.injEq] at h
              rw [← h]
              exact ⟨_, rfl, World.quiet_audit (World.quiet_dprintf hq3 _ _) _ _ _ _⟩

/-- When `process_put_open` reaches the body, the probe has failed, the writer
lock is held, and no other lock operation was performed. -/
theorem process_put_open_ok_shape (w : World) (r : Request) (fd : Fd) (sc : Nat) (w3 : World)
    (h : process_put_open w r = .ok (fd, sc, w3)) :
    (posix_open w r.fileNameStr O_WRONLY_DIRECTORY).1 = none ∧
      (file_write_lock (posix_open w r.fileNameStr O_WRONLY_DIRECTORY).2 r.fileNameStr).quiet w3
    := by
  unfold process_put_open at h
  cases hp1 : posix_open w r.fileNameStr O_WRONLY_DIRECTORY with
  | mk o1 w1 =>
    rw [hp1] at h
    dsimp only at h ⊢
    cases o1 with
    | some fd0 => simp at h
    | none =>
      refine ⟨rfl, ?_⟩
      dsimp only at h
      have hq3 := World.quiet_posix_open (file_write_lock w1 r.fileNameStr) r.fileNameStr
        O_WRONLY_CREAT_EXCL
      cases hp3 : posix_open (file_write_lock w1 r.fileNameStr) r.fileNameStr
          O_WRONLY_CREAT_EXCL with
      | mk o3 w3' =>
        rw [hp3] at h hq3
        dsimp only at h hq3
        cases o3 with
        | some fd1 =>
          simp only [Except.ok.injEq, Prod.mk.injEq] at h
          rw [← h.2.2]
          exact hq3
        | none =>
          dsimp only at h
          have hq4 := World.quiet_trans hq3
            (World.quiet_posix_open w3' r.fileNameStr O_WRONLY_CREAT_TRUNC)
          cases hp4 : posix_open w3' r.fileNameStr O_WRONLY_CREAT_TRUNC with
          | mk o4 w4 =>
            rw [hp4] at h hq4
            dsimp only at h hq4
            split_ifs at h
            cases o4 with
            | some fd1 =>
              simp only [Except.ok.injEq, Prod.mk.injEq] at h
              rw [← h.2.2]
              exact hq4
            | none =>
              dsimp only at h
              split_ifs at h

/-- The release of the lock after a quiet run from its acquisition names the
node that was acquired. -/
theorem paired_of_quiet (w : World) (name : List Nat) (fl : OFlags) (X : World)
    (hprobe : (posix_open w name fl).1 = none)
    (hq : (file_write_lock (posix_open w name fl).2 name).quiet X) :
    ∃ mid, (file_write_unlock X name).trace =
        w.trace ++ Event.open_ name fl false :: Event.lock .writer (get_node w.registry name).1 ::
          (mid ++ [Event.unlock .writer (get_node w.registry name).1]) ∧
      lock_events mid = [] := by
  obtain ⟨ht1, hr1⟩ := posix_open_trace w name fl
  rw [hprobe] at ht1
  obtain ⟨mid, htX, hl, hrX⟩ := hq
  refine ⟨mid, ?_, hl⟩
  have hidem := get_node_idem w.registry name
  simp only [file_write_lock_trace, file_write_lock_registry, hr1, ht1] at htX hrX
  simp [htX, hrX, hidem]

/-- Every run of `process_put` respects the lock discipline. -/
theorem process_put_lock_paired (w : World) (r : Request) :
    ∃ evs, (process_put w r).2.trace = w.trace ++ evs ∧
      lock_paired .writer (get_node w.registry r.fileNameStr).1 r.fileNameStr O_WRONLY_DIRECTORY
        r.sock_fd evs := by
  by_cases hcl : r.content_length = -1
  · unfold process_put
    rw [if_pos hcl]
    exact ⟨_, rfl, Or.inl rfl⟩
  cases ho : process_put_open w r with
  | error res =>
    rw [process_put_eq_of_open_error w r res hcl ho]
    rcases process_put_open_error_shape w r res ho with h403 | ⟨hprobe, X, hX, hq⟩
    · exact ⟨_, h403, Or.inr (Or.inl ⟨_, rfl⟩)⟩
    · obtain ⟨mid, hmid, hl⟩ := paired_of_quiet w r.fileNameStr O_WRONLY_DIRECTORY X hprobe hq
      rw [hX]
      exact ⟨_, hmid, Or.inr (Or.inr ⟨mid, rfl, hl⟩)⟩
  | ok v =>
    obtain ⟨fd, sc, w3⟩ := v
    rw [process_put_eq_of_open_ok w r fd sc w3 hcl ho]
    obtain ⟨hprobe, hq⟩ := process_put_open_ok_shape w r fd sc w3 ho
    obtain ⟨X, hX, hqX⟩ := process_put_body_shape w3 r fd sc
    obtain ⟨mid, hmid, hl⟩ := paired_of_quiet w r.fileNameStr O_WRONLY_DIRECTORY X hprobe
      (World.quiet_trans hq hqX)
    rw [hX]
    exact ⟨_, hmid, Or.inr (Or.inr ⟨mid, rfl, hl⟩)⟩

/-- Every run of `process_get` respects the lock discipline. -/
theorem process_get_lock_paired (w : World) (r : Request) :
    ∃ evs, (process_get w r).2.trace = w.trace ++ evs ∧
      lock_paired .reader (get_node w.registry r.fileNameStr).1 r.fileNameStr O_RDONLY_DIRECTORY
        r.sock_fd evs := by
  obtain ⟨evs, ht, hcases⟩ := process_get_trace w r
  refine ⟨evs, ht, ?_⟩
  rcases hcases with rfl | rfl | ⟨mid, rfl, hmid⟩
  · exact Or.inl rfl
  · exact Or.inr (Or.inl ⟨_, rfl⟩)
  · refine Or.inr (Or.inr ⟨mid, rfl, ?_⟩)
    rcases hmid with rfl | rfl | rfl | ⟨size, body, rfl, -⟩ | ⟨size, rfl, -⟩ |
      ⟨size, body, rfl, -⟩ <;> rfl

/-! ## The parser stays inside the bytes received -/

theorem getD_zero_of_length_le (b : List Nat) (i : Nat) (h : b.length ≤ i) : b.getD i 0 = 0 := by
  by_contra hc
  have := lt_length_of_getD_ne b i hc
  omega

/-- Writing a NUL changes no byte into a non-zero one. -/
theorem getD_set_zero (b : List Nat) (j i : Nat) (h : (b.set j 0).getD i 0 ≠ 0) :
    (b.set j 0).getD i 0 = b.getD i 0 := by
  by_cases hij : j = i
  · subst hij
    exact absurd (getD_set_self b j) h
  · exact getD_set_ne b j i 0 hij

theorem header_step_nonzero (sock_fd : Nat) (st : HeaderState) (m1 m2 : regmatch_t) (i : Nat)
    (h : (header_step sock_fd st m1 m2).buf.getD i 0 ≠ 0) :
    (header_step sock_fd st m1 m2).buf.getD i 0 = st.buf.getD i 0 := by
  rw [header_step_buf] at h ⊢
  have h1 := getD_set_zero _ _ _ h
  rw [h1] at h ⊢
  exact getD_set_zero _ _ _ h

/-- A byte that is non-zero after the header loop is as it was before. -/
theorem header_loop_nonzero (sock_fd : Nat) : ∀ (fuel : Nat) (st : HeaderState) (i : Nat),
    (header_loop sock_fd fuel st).buf.getD i 0 ≠ 0 →
    (header_loop sock_fd fuel st).buf.getD i 0 = st.buf.getD i 0 := by
  intro fuel
  induction fuel with
  | zero => intro st i _; rfl
  | succ fuel ih =>
    intro st i h
    unfold header_loop at h ⊢
    split at h
    · rename_i m1 m2 hm
      have h1 := ih _ i h
      rw [h1] at h ⊢
      exact header_step_nonzero sock_fd st m1 m2 i h
    · rfl

/-- A byte that is non-zero when `parse_request` leaves its header loop is a
byte of the buffer as received. -/
theorem header_final_nonzero (w : World) (sock_fd : Nat) (buf : List Nat) (n t i : Nat)
    (h : (header_final w sock_fd buf n t).buf.getD i 0 ≠ 0) :
    (header_final w sock_fd buf n t).buf.getD i 0 = buf.getD i 0 := by
  unfold header_final at h ⊢
  have h1 := header_loop_nonzero sock_fd _ _ i h
  rw [h1] at h ⊢
  simp only [header_init, reqline_buf] at h ⊢
  have h2 := getD_set_zero _ _ _ h
  rw [h2] at h ⊢
  have h3 := getD_set_zero _ _ _ h
  rw [h3] at h ⊢
  exact getD_set_zero _ _ _ h

/-- In a match of `HEADEX` the name ends before the value does. -/
theorem regexec_HEADEX_some_lt : ∀ (s : List Nat) (pos : Nat) (m1 m2 : regmatch_t),
    regexec_HEADEX s pos = some (m1, m2) → m1.rm_eo < m2.rm_eo := by
  intro s
  induction s with
  | nil => intro pos m1 m2 h; simp [regexec_HEADEX] at h
  | cons c cs ih =>
    intro pos m1 m2 h
    unfold regexec_HEADEX at h
    by_cases hc : c = 0
    · rw [if_pos hc] at h
      simp at h
    · rw [if_neg hc] at h
      cases hh : headex_at (c :: cs) with
      | some nm =>
        obtain ⟨n, m⟩ := nm
        rw [hh] at h
        simp only [Option.some.injEq, Prod.mk.injEq] at h
        rw [← h.1, ← h.2]
        dsimp only
        omega
      | none =>
        rw [hh] at h
        exact ih (pos + 1) m1 m2 h

/-- The header loop changes no byte at or after the position where it stops. -/
theorem header_loop_drop_ge (sock_fd : Nat) : ∀ (fuel : Nat) (st : HeaderState) (k : Nat),
    (header_loop sock_fd fuel st).offset ≤ k →
    (header_loop sock_fd fuel st).buf.drop k = st.buf.drop k := by
  intro fuel
  induction fuel with
  | zero => intro st k _; rfl
  | succ fuel ih =>
    intro st k h
    unfold header_loop at h ⊢
    split at h
    · rename_i m1 m2 hm
      have hlt := regexec_HEADEX_some_lt _ _ _ _ hm
      have hoff := header_loop_offset sock_fd fuel (header_step sock_fd st m1 m2)
      rw [header_step_offset] at hoff
      rw [ih _ k h, header_step_buf, List.drop_set_of_lt _ _ (by omega),
        List.drop_set_of_lt _ _ (by omega)]
    · rfl

theorem header_final_drop_ge (w : World) (sock_fd : Nat) (buf : List Nat) (n t k : Nat)
    (h : (header_final w sock_fd buf n t).offset ≤ k) :
    (header_final w sock_fd buf n t).buf.drop k = buf.drop k := by
  unfold header_final at h ⊢
  have hoff := header_loop_offset sock_fd (buf.length + 1) (header_init w buf n t)
  rw [header_loop_drop_ge sock_fd _ _ k h]
  simp only [header_init] at hoff h ⊢
  unfold reqline_buf
  rw [List.drop_set_of_lt _ _ (by omega), List.drop_set_of_lt _ _ (by omega),
    List.drop_set_of_lt _ _ (by omega)]

/-! ## What `read_until` hands to the parser -/

theorem read_until_loop_length (n : Nat) : ∀ (reads : List (List Nat)) (acc : List Nat),
    acc.length ≤ n → (read_until_loop n reads acc).1.length ≤ n := by
  intro reads
  induction reads with
  | nil => intro acc h; exact h
  | cons c cs ih =>
    intro acc h
    unfold read_until_loop
    split_ifs with h1 h2
    · exact h
    · apply ih
      rw [List.length_append]
      omega
    · simp only [List.length_append, List.length_take]
      omega

/-- When `read_until` does not fail, the count it returns is the length of the
buffer it filled, at most `n`: nothing lies beyond the bytes counted. -/
theorem read_until_buffer (w : World) (n : Nat) (h : (read_until w n).1 ≠ -1) :
    (read_until w n).1 = ((read_until w n).2.1.length : Int) ∧ (read_until w n).2.1.length ≤ n := by
  unfold read_until at h ⊢
  rw [show next_fault w = ((next_fault w).1, (next_fault w).2) from rfl, next_fault_snd] at h ⊢
  cases hf : (next_fault w).1 with
  | some f => rw [hf] at h; simp at h
  | none =>
    rw [hf] at h
    dsimp only at h ⊢
    have hlen := read_until_loop_length n w.sock_in [] (Nat.zero_le _)
    cases hl : read_until_loop n w.sock_in [] with
    | mk acc rs =>
      obtain ⟨rest, starved⟩ := rs
      rw [hl] at h hlen
      dsimp only at h hlen ⊢
      split_ifs at h ⊢ with hs
      · simp at h
      · exact ⟨rfl, hlen⟩

/-- The buffer and count that `process_in_thread` passes to `parse_request`
satisfy what the parser relies on: the count is between 0 and `BUFSIZE`, and
the buffer is zero from that index on. -/
theorem read_until_zero_beyond (w : World) (h : (read_until w BUFSIZE).1 ≠ -1) :
    0 ≤ (read_until w BUFSIZE).1 ∧ (read_until w BUFSIZE).1 ≤ (BUFSIZE : Int) ∧
      ∀ i : Nat, (read_until w BUFSIZE).1 ≤ (i : Int) → (read_until w BUFSIZE).2.1.getD i 0 = 0 := by
  obtain ⟨heq, hle⟩ := read_until_buffer w BUFSIZE h
  refine ⟨by rw [heq]; exact Int.natCast_nonneg _, by rw [heq]; exact_mod_cast hle, ?_⟩
  intro i hi
  rw [heq] at hi
  exact getD_zero_of_length_le _ i (by exact_mod_cast hi)

/-! # The claims -/

/-! ## The first scenario of the specification -/

/-- The first scenario of the specification runs as described: `PUT /a` with
body `hello` is answered 201 Created and logged, and the following `GET /a`
returns 200 OK with `Content-Length: 5` and body `hello`. -/
theorem scenario_S1_put_then_get :
    parse_request World.init 4 (str "PUT /a HTTP/1.1\r\nContent-Length: 5\r\n\r\nhello") 43
        = (some (put_a_5 5), World.init) ∧
    sends (serve World.init ⟨[str "PUT /a HTTP/1.1\r\nContent-Length: 5\r\n\r\nhello"], true⟩
        4).trace = [(4, CREATED)] ∧
    audit_lines (serve World.init
        ⟨[str "PUT /a HTTP/1.1\r\nContent-Length: 5\r\n\r\nhello"], true⟩ 4).trace
      = [str "PUT,/a,201,0\n"] ∧
    sends (events_since
        (serve World.init ⟨[str "PUT /a HTTP/1.1\r\nContent-Length: 5\r\n\r\nhello"], true⟩ 4)
        (serve
          (serve World.init ⟨[str "PUT /a HTTP/1.1\r\nContent-Length: 5\r\n\r\nhello"], true⟩ 4)
          ⟨[str "GET /a HTTP/1.1\r\n\r\n"], true⟩ 5))
      = [(5, str "HTTP/1.1 200 OK\r\nContent-Length: 5\r\n\r\n"), (5, str "hello")] :=
  ⟨by rfl, by decide, by decide, by decide⟩

/-! ## C1: PUT then GET -/

/-- C1 fails as stated, in two ways.
(a) By design: when the target `a` is an existing file the server may not
write, `PUT /a` with body `hello` is answered 403 Forbidden (the `EACCES`
branch of `process_put`), and the following `GET /a` returns the old content.
(b) By a defect of the parser: the client sends, in one segment,
`PUT /a HTTP/1.1` with `Content-Length: 12` and the 12-byte body
`k: v\r\n\r\nrest`.  `HEADEX` has no `^`, so the header loop of `parse_request`
goes on matching inside the body, takes `k: v` for a header and hands over only
`rest`; the PUT is answered 201 Created and the following GET returns 200 OK
with `Content-Length: 4` and body `rest`. -/
theorem C1_round_trip_counterexample :
    (sends (serve World.withReadOnlyFile
        ⟨[str "PUT /a HTTP/1.1\r\nContent-Length: 5\r\n\r\nhello"], true⟩ 4).trace
      = [(4, FORBIDDEN)] ∧
    sends (events_since
        (serve World.withReadOnlyFile
          ⟨[str "PUT /a HTTP/1.1\r\nContent-Length: 5\r\n\r\nhello"], true⟩ 4)
        (serve
          (serve World.withReadOnlyFile
            ⟨[str "PUT /a HTTP/1.1\r\nContent-Length: 5\r\n\r\nhello"], true⟩ 4)
          ⟨[str "GET /a HTTP/1.1\r\n\r\n"], true⟩ 5))
      = [(5, str "HTTP/1.1 200 OK\r\nContent-Length: 3\r\n\r\n"), (5, str "old")]) ∧
    ((str "k: v\r\n\r\nrest").length = 12 ∧
    sends (serve World.init
        ⟨[str "PUT /a HTTP/1.1\r\nContent-Length: 12\r\n\r\nk: v\r\n\r\nrest"], true⟩ 4).trace
      = [(4, CREATED)] ∧
    sends (events_since
        (serve World.init
          ⟨[str "PUT /a HTTP/1.1\r\nContent-Length: 12\r\n\r\nk: v\r\n\r\nrest"], true⟩ 4)
        (serve
          (serve World.init
            ⟨[str "PUT /a HTTP/1.1\r\nContent-Length: 12\r\n\r\nk: v\r\n\r\nrest"], true⟩ 4)
          ⟨[str "GET /a HTTP/1.1\r\n\r\n"], true⟩ 5))
      = [(5, str "HTTP/1.1 200 OK\r\nContent-Length: 4\r\n\r\n"), (5, str "rest")]) := by
  decide

/-- C1, amended: PUT then GET through the worker.  The target `X` has 1 to 63
bytes of `[a-zA-Z0-9.-]`; the body is `P` followed by the later reads, fewer
than 2^31 bytes in all; the first read brings
`PUT /X HTTP/1.1\r\nContent-Length: <decimal length of the body>\r\n\r\n` and `P`
(at most `BUFSIZE` bytes together), and `P` contains no header-shaped text;
`X` is absent from a writable directory or is a regular file the server may
read and write; no call fails for outside reasons and `errno` is not a stale
`EINVAL`.  Then the PUT is answered 201 Created (target absent) or 200 OK, and
`GET /X HTTP/1.1` on the next connection is answered 200 OK with
`Content-Length` the length of the body and exactly the body. -/
theorem C1_put_then_get_round_trip (w : World) (X ds P : List Nat) (later : List (List Nat))
    (fd1 fd2 : Nat) (eof1 eof2 : Bool)
    (hX1 : 1 ≤ X.length) (hX2 : X.length ≤ 63) (hX : ∀ c ∈ X, isNameChar c = true)
    (hds1 : 1 ≤ ds.length) (hds2 : ds.length ≤ 128) (hds : ∀ c ∈ ds, isDigit c = true)
    (hval : digitsVal ds = (P ++ later.flatten).length)
    (hsize : (P ++ later.flatten).length < 2147483648)
    (hfit : (put_text X ds P).length ≤ BUFSIZE)
    (hP : regexec_HEADEX P 0 = none)
    (hfaults : w.faults = []) (herrno : w.errno ≠ EINVAL)
    (htarget : (w.fs X = none ∧ w.cwd_writable = true) ∨ ∃ c, w.fs X = some (.file true true c)) :
    sends (serve w ⟨put_text X ds P :: later, eof1⟩ fd1).trace =
        sends w.trace ++ [(fd1, if w.fs X = none then CREATED else OK)] ∧
      sends (serve (serve w ⟨put_text X ds P :: later, eof1⟩ fd1) ⟨[get_text X], eof2⟩ fd2).trace =
        sends (serve w ⟨put_text X ds P :: later, eof1⟩ fd1).trace ++
          [(fd2, str "HTTP/1.1 200 OK\r\nContent-Length: " ++
              fmt_d (P ++ later.flatten).length ++ str "\r\n\r\n"),
           (fd2, P ++ later.flatten)] := by
  obtain ⟨h1, h2, h3⟩ := serve_put_text w X ds P later fd1 eof1 hX1 hX2 hX hds1 hds2 hds hval
    hsize hfit hP hfaults herrno htarget
  exact ⟨h1, serve_get_text _ X _ true fd2 eof2 hX1 hX2 hX h3 h2 hsize⟩

/-- C1, amended, on the first scenario of the specification with the body
`hello` split: `he` comes with the headers, `l` and `lo` in two later reads. -/
theorem C1_put_then_get_round_trip_witness :
    sends (serve World.init ⟨put_text (str "a") (str "5") (str "he") :: [str "l", str "lo"], true⟩
        4).trace =
        sends World.init.trace ++
          [(4, if World.init.fs (str "a") = none then CREATED else OK)] ∧
      sends (serve
          (serve World.init
            ⟨put_text (str "a") (str "5") (str "he") :: [str "l", str "lo"], true⟩ 4)
          ⟨[get_text (str "a")], true⟩ 5).trace =
        sends (serve World.init
            ⟨put_text (str "a") (str "5") (str "he") :: [str "l", str "lo"], true⟩ 4).trace ++
          [(5, str "HTTP/1.1 200 OK\r\nContent-Length: " ++
              fmt_d (str "he" ++ [str "l", str "lo"].flatten).length ++ str "\r\n\r\n"),
           (5, str "he" ++ [str "l", str "lo"].flatten)] :=
  C1_put_then_get_round_trip World.init (str "a") (str "5") (str "he") [str "l", str "lo"] 4 5
    true true (by decide) (by decide) (by decide) (by decide) (by decide) (by decide) (by decide)
    (by decide) (by decide) (by decide) rfl (by decide) (Or.inl ⟨rfl, rfl⟩)

/-! ## C2: PUT status and prior existence -/

/-- C2: `process_put` answers 201 Created only when the target was absent when
the exclusive create was attempted, and 200 OK only when it was present; the
directory probe and the writer lock that precede the create leave the file
system as the handler found it.  Hence, of two successful PUTs to one target
handled one after the other (the second starts from the file system the first
left), the second is answered 200 OK. -/
theorem C2_put_status_reflects_prior_existence (w : World) (r : Request) :
    (file_write_lock (posix_open w r.fileNameStr O_WRONLY_DIRECTORY).2 r.fileNameStr).fs = w.fs ∧
    (answers w (process_put w r).2 r.sock_fd CREATED → w.fs r.fileNameStr = none) ∧
    (answers w (process_put w r).2 r.sock_fd OK → w.fs r.fileNameStr ≠ none) ∧
    (∀ (w' : World) (r' : Request), (process_put w r).1 = EXIT_SUCCESS →
      w'.fs = (process_put w r).2.fs → r'.fileNameStr = r.fileNameStr →
      (process_put w' r').1 = EXIT_SUCCESS →
      answers w' (process_put w' r').2 r'.sock_fd OK) := by
  refine ⟨?_, fun h => (process_put_created w r h).2.1, fun h => (process_put_ok w r h).2.1, ?_⟩
  · rw [file_write_lock_fs, posix_open_fs_of_plain _ _ _ rfl rfl]
  · intro w' r' h1 hfs hname h2
    have hpres : w'.fs r'.fileNameStr ≠ none := by
      rw [hfs, hname]; exact process_put_success_present w r h1
    rcases process_put_cases w' r' with ⟨-, h3⟩ | ⟨h3, -⟩ | ⟨-, -, -, h4, -⟩ | ⟨-, -, h4, -⟩
    · rw [h3] at h2; exact absurd h2 EXIT_FAILURE_ne_SUCCESS
    · rw [h3] at h2; exact absurd h2 EXIT_FAILURE_ne_SUCCESS
    · exact absurd h4 hpres
    · exact h4

/-- C2 on the first scenario of the specification: in an empty directory
`PUT /a` with body `hello` is answered 201, and the same PUT handled again on
the resulting file system is answered 200. -/
theorem C2_put_status_reflects_prior_existence_witness :
    answers World.init (process_put World.init (put_a_5 5)).2 4 CREATED ∧
      World.init.fs (str "a") = none ∧
      answers (process_put World.init (put_a_5 5)).2
        (process_put (process_put World.init (put_a_5 5)).2 (put_a_5 5)).2 4 OK :=
  ⟨by unfold answers; decide,
    (C2_put_status_reflects_prior_existence World.init (put_a_5 5)).2.1
      (by unfold answers; decide),
    (C2_put_status_reflects_prior_existence World.init (put_a_5 5)).2.2.2
      (process_put World.init (put_a_5 5)).2 (put_a_5 5) (by decide) rfl rfl (by decide)⟩

/-! ## C3: bytes written by a PUT -/

/-- C3 fails as stated: `PUT /a` declares `Content-Length: 5`, the header read
brought the two body bytes `he`, and the client then closes the connection.
`pass_n_bytes` returns 0, which is not `-1`, so the PUT is answered 201 Created
although only 2 bytes were written to the file. -/
theorem C3_short_body_counterexample :
    (put_a_5 2).content_length = 5 ∧
      sends (process_put (World.init.withInput []) (put_a_5 2)).2.trace = [(4, CREATED)] ∧
      (file_writes (process_put (World.init.withInput []) (put_a_5 2)).2.trace (str "a")).length
        = 2 := by
  decide

/-- C3, amended: when a PUT is answered 200 or 201, the pre-buffered body is
what the request says (`remaining_bytes` bytes, no more than the declared
`Content-Length`), and the socket goes on to deliver at least
`Content-Length - remaining_bytes` bytes, then the bytes `process_put` wrote to
the target (pre-buffered plus spliced) number exactly `Content-Length`. -/
theorem C3_bytes_written_eq_content_length (w : World) (r : Request)
    (hans : answers w (process_put w r).2 r.sock_fd CREATED ∨
      answers w (process_put w r).2 r.sock_fd OK)
    (hbody : (r.body.length : Int) = r.remaining_bytes)
    (hle : r.remaining_bytes ≤ r.content_length)
    (hint : r.content_length < 2147483648)
    (hsock : r.content_length - r.remaining_bytes ≤ (w.sock_in.flatten.length : Int)) :
    ((file_writes (process_put w r).2.trace r.fileNameStr).length : Int) =
      (file_writes w.trace r.fileNameStr).length + r.content_length := by
  have hfw : file_writes (process_put w r).2.trace r.fileNameStr =
      file_writes w.trace r.fileNameStr ++ (r.body ++ spliced w (put_remaining r)) := by
    rcases hans with h | h
    · exact (process_put_created w r h).2.2.2
    · exact (process_put_ok w r h).2.2.2
  have hrem := put_remaining_eq r hle (by omega)
  have hsp : (spliced w (put_remaining r)).length = put_remaining r := by
    unfold spliced
    rw [List.length_take, Nat.min_eq_left (by omega)]
  rw [hfw, List.length_append, List.length_append, hsp]
  push_cast
  omega

/-- C3, amended, on the first scenario of the specification with the body split:
`he` arrives with the headers and `llo` later. -/
theorem C3_bytes_written_eq_content_length_witness :
    ((file_writes (process_put (World.init.withInput [str "llo"]) (put_a_5 2)).2.trace
        (put_a_5 2).fileNameStr).length : Int) =
      (file_writes (World.init.withInput [str "llo"]).trace (put_a_5 2).fileNameStr).length +
        (put_a_5 2).content_length :=
  C3_bytes_written_eq_content_length (World.init.withInput [str "llo"]) (put_a_5 2)
    (Or.inl (by unfold answers; decide)) (by decide) (by decide) (by decide) (by decide)

/-! ## C4: methods other than GET and PUT -/

/-- C4 at a failing input: the request `GETX /a HTTP/1.1` parses, its method is
neither `GET` nor `PUT`, and `process_request` (which compares the first three
bytes only) runs `process_get`: directory probe, reader lock, open, the answer
404 Not Found and the audit line `GET,/a,404,0`.  No 501 is sent. -/
theorem C4_GETX_is_handled_as_GET :
    (parse_request World.init 5 (str "GETX /a HTTP/1.1\r\n\r\n") 20).1.map Request.commandStr
      = some (str "GETX") ∧
    (serve World.init ⟨[str "GETX /a HTTP/1.1\r\n\r\n"], true⟩ 5).trace =
      [.open_ (str "a") O_RDONLY_DIRECTORY false, .lock .reader 0,
       .open_ (str "a") O_RDONLY false, .send 5 NOT_FOUND, .log (str "GET,/a,404,0\n"),
       .unlock .reader 0, .close_sock 5] := by
  decide

/-! ## C5: versions other than HTTP/1.1 -/

/-- C5: a parsed request whose version string is not `HTTP/1.1`, whatever its
method, makes `process_request` return failure having done one thing only:
written the 505 response to the socket.  The resulting world is the incoming
one with that single `send` event appended, so no file was opened, no lock
taken and no audit line printed, and the method was never looked at. -/
theorem C5_version_not_supported (w : World) (sock_fd : Nat) (buf : List Nat) (bytes_read : Int)
    (req : Request) (w1 : World)
    (hparse : parse_request w sock_fd buf bytes_read = (some req, w1))
    (hversion : req.versionStr ≠ str "HTTP/1.1") :
    process_request w1 req =
      (EXIT_FAILURE, { w1 with trace := w1.trace ++ [Event.send sock_fd VERSION_NOT_SUPPORTED] }) := by
  have hfd : req.sock_fd = sock_fd := by
    obtain ⟨n, t, -, hfd, -⟩ := parse_request_strings w sock_fd buf bytes_read req w1 hparse
    exact hfd
  have hcmp : strncmp_eq 8 (req.buf.drop req.version) (str "HTTP/1.1") = false := by
    cases hc : strncmp_eq 8 (req.buf.drop req.version) (str "HTTP/1.1") with
    | false => rfl
    | true => exact absurd (version_test_exact w sock_fd buf bytes_read req w1 hparse hc) hversion
  unfold process_request
  rw [hcmp, hfd]
  rfl

/-- C5 on `PUT /a HTTP/2.0` with a `Content-Length` header and a body. -/
theorem C5_version_not_supported_witness :
    parse_request World.init 5 (str "PUT /a HTTP/2.0\r\nContent-Length: 2\r\n\r\nhi") 40
        = (some C5_request, World.init) ∧
      C5_request.versionStr ≠ str "HTTP/1.1" ∧
      process_request World.init C5_request =
        (EXIT_FAILURE,
          { World.init with
            trace := World.init.trace ++ [Event.send 5 VERSION_NOT_SUPPORTED] }) :=
  ⟨by rfl, by decide,
    C5_version_not_supported World.init 5 (str "PUT /a HTTP/2.0\r\nContent-Length: 2\r\n\r\nhi") 40
      C5_request World.init (by rfl) (by decide)⟩

/-! ## C6: deviations from the grammar -/

/-- C6 at a failing input: in `GET /a HTTP/1.1\r\njunk\r\nHost: x\r\n\r\n` the
line `junk` is not a header.  `HEADEX` has no `^`: `regexec` skips the junk
line and matches `Host: x`, the pointer moves past that match, and
`parse_request` succeeds.  `process_request` is called (it answers 404 for the
missing file), and no 400 is sent. -/
theorem C6_junk_line_before_header_is_accepted :
    (parse_request World.init 5 (str "GET /a HTTP/1.1\r\njunk\r\nHost: x\r\n\r\n") 34).1.isSome
      = true ∧
    (serve World.init ⟨[str "GET /a HTTP/1.1\r\njunk\r\nHost: x\r\n\r\n"], true⟩ 5).trace =
      [.open_ (str "a") O_RDONLY_DIRECTORY false, .lock .reader 0,
       .open_ (str "a") O_RDONLY false, .send 5 NOT_FOUND, .log (str "GET,/a,404,0\n"),
       .unlock .reader 0, .close_sock 5] := by
  decide

/-! ## C7: malformed Content-Length -/

/-- C7 at failing inputs: `Content-Length: abc`, `Content-Length: 12x` and
`Content-Length: -5` all parse successfully, with `content_length` 0, 12 and
-5.  Where `strtol` sets `EINVAL` for `abc`, `parse_request` writes a 400
response and still returns success; the worker then runs `process_put`, which
creates the file and writes a second response, 201 Created. -/
theorem C7_malformed_content_length_is_accepted :
    (parse_request World.init 4 (str "PUT /a HTTP/1.1\r\nContent-Length: abc\r\n\r\n") 40).1.map
        Request.content_length = some 0 ∧
    (parse_request World.init 4 (str "PUT /a HTTP/1.1\r\nContent-Length: 12x\r\n\r\n") 40).1.map
        Request.content_length = some 12 ∧
    (parse_request World.init 4 (str "PUT /a HTTP/1.1\r\nContent-Length: -5\r\n\r\n") 39).1.map
        Request.content_length = some (-5) ∧
    (parse_request World.initEinval 4 (str "PUT /a HTTP/1.1\r\nContent-Length: abc\r\n\r\n")
        40).1.map Request.content_length = some 0 ∧
    sends (serve World.initEinval ⟨[str "PUT /a HTTP/1.1\r\nContent-Length: abc\r\n\r\n"], true⟩
        4).trace = [(4, BAD_REQUEST), (4, CREATED)] ∧
    sends (serve World.init ⟨[str "PUT /a HTTP/1.1\r\nContent-Length: abc\r\n\r\n"], true⟩
        4).trace = [(4, CREATED)] := by
  decide

/-! ## C8: PUT without Content-Length -/

/-- C8 fails as stated for a negative `Content-Length` other than `-1`: the
request `PUT /a` with `Content-Length: -5` parses, and `process_put` takes the
writer lock, creates the file and answers 201 Created. -/
theorem C8_negative_length_counterexample :
    parse_request World.init 4 (str "PUT /a HTTP/1.1\r\nContent-Length: -5\r\n\r\n") 39
        = (some put_a_minus5, World.init) ∧
      put_a_minus5.content_length < 0 ∧
      (process_put (World.init.withInput []) put_a_minus5).2.trace =
        [.open_ (str "a") O_WRONLY_DIRECTORY false, .lock .writer 0,
         .open_ (str "a") O_WRONLY_CREAT_EXCL true, .write (str "a") [], .splice_in (str "a") [],
         .send 4 CREATED, .log (str "PUT,/a,201,0\n"), .close_file (str "a"),
         .unlock .writer 0] ∧
      (process_put (World.init.withInput []) put_a_minus5).2.fs (str "a") =
        some (.file true true []) :=
  ⟨by rfl, by decide, by decide, by decide⟩

/-- C8, amended: when `content_length` holds `-1`, the value `parse_request`
leaves when there is no `Content-Length` header, `process_put` returns failure
having done one thing only: written the 400 response.  The world is otherwise
unchanged, so no file was created, truncated or written and no lock taken. -/
theorem C8_put_without_content_length (w : World) (r : Request) (h : r.content_length = -1) :
    process_put w r =
      (EXIT_FAILURE, { w with trace := w.trace ++ [Event.send r.sock_fd BAD_REQUEST] }) := by
  unfold process_put
  rw [if_pos h]
  rfl

/-- C8, amended, on `PUT /a HTTP/1.1` without any header. -/
theorem C8_put_without_content_length_witness :
    parse_request World.init 4 (str "PUT /a HTTP/1.1\r\n\r\n") 19
        = (some put_a_no_length, World.init) ∧
      process_put World.init put_a_no_length =
        (EXIT_FAILURE,
          { World.init with trace := World.init.trace ++ [Event.send 4 BAD_REQUEST] }) :=
  ⟨by rfl, C8_put_without_content_length World.init put_a_no_length (by decide)⟩

/-! ## C9: end of stream before the declared length -/

/-- C9 fails as stated: `PUT /b` declares `Content-Length: 10`; three body
bytes came with the headers, two more arrive, then the client closes.
`pass_n_bytes` returns 2 (end of stream is not an error), and `process_put`
answers 201 Created, not 500; the file holds the five bytes received. -/
theorem C9_early_eof_counterexample :
    parse_request World.init 4 (str "PUT /b HTTP/1.1\r\nContent-Length: 10\r\n\r\nabc") 42
        = (some put_b_10, World.init) ∧
      sends (process_put (World.init.withInput [str "de"]) put_b_10).2.trace = [(4, CREATED)] ∧
      (process_put (World.init.withInput [str "de"]) put_b_10).2.fs (str "b") =
        some (.file true true (str "abcde")) :=
  ⟨by rfl, by decide, by decide⟩

/-- C9, amended: when the connection ends in an orderly way before the
declared `Content-Length` bytes of body have come (`remaining_bytes` with the
headers, fewer than `Content-Length - remaining_bytes` afterwards), no call
fails for other reasons, and the target is absent from a writable directory or
is a writable regular file, then `process_put` succeeds and answers 201 Created
(target absent) or 200 OK (target present), never 500; it has written the
bytes that did arrive. -/
theorem C9_early_eof_is_answered_as_success (w : World) (r : Request)
    (hcl : r.content_length ≠ -1)
    (hfaults : w.faults = []) (heof : w.sock_eof = true)
    (hbody : (r.body.length : Int) = r.remaining_bytes)
    (hint : r.content_length < 2147483648)
    (hshort : r.remaining_bytes + (w.sock_in.flatten.length : Int) < r.content_length)
    (htarget : (w.fs r.fileNameStr = none ∧ w.cwd_writable = true) ∨
      ∃ rd c, w.fs r.fileNameStr = some (.file rd true c)) :
    (process_put w r).1 = EXIT_SUCCESS ∧
      answers w (process_put w r).2 r.sock_fd
        (if w.fs r.fileNameStr = none then CREATED else OK) ∧
      ¬ answers w (process_put w r).2 r.sock_fd INTERNAL_SERVER_ERROR ∧
      file_writes (process_put w r).2.trace r.fileNameStr =
        file_writes w.trace r.fileNameStr ++ (r.body ++ w.sock_in.flatten) := by
  have hrem := put_remaining_eq r (by omega) (by omega)
  have hsucc : (process_put w r).1 = EXIT_SUCCESS := by
    rcases htarget with ⟨h1, h2⟩ | ⟨rd, c, h1⟩
    · obtain ⟨w1, ho, hf1, -⟩ := process_put_open_absent w r hfaults h1 h2
      obtain ⟨-, -, -, -, -, hin, he⟩ := process_put_open_ok w r _ _ _ ho
      rw [process_put_eq_of_open_ok w r _ _ _ hcl ho]
      exact process_put_body_short_eof w1 r _ _ hf1 (by rw [he, heof]) (by omega)
        (by rw [hin]; omega) (by rw [hin]; omega)
    · obtain ⟨w1, ho, hf1, -⟩ := process_put_open_present w r hfaults rd c h1
      obtain ⟨-, -, -, -, -, hin, he⟩ := process_put_open_ok w r _ _ _ ho
      rw [process_put_eq_of_open_ok w r _ _ _ hcl ho]
      exact process_put_body_short_eof w1 r _ _ hf1 (by rw [he, heof]) (by omega)
        (by rw [hin]; omega) (by rw [hin]; omega)
  have hsp : spliced w (put_remaining r) = w.sock_in.flatten := by
    unfold spliced
    exact List.take_of_length_le (by omega)
  obtain ⟨d1, d2, d3, d4, d5, d6, d7⟩ := responses_distinct
  rcases process_put_cases w r with ⟨-, h1⟩ | ⟨h1, -⟩ | ⟨-, -, h1, h2, -, h3, -⟩ |
    ⟨-, -, h1, h2, -, h3, -⟩
  · rw [h1] at hsucc; exact absurd hsucc EXIT_FAILURE_ne_SUCCESS
  · rw [h1] at hsucc; exact absurd hsucc EXIT_FAILURE_ne_SUCCESS
  · refine ⟨hsucc, by rw [if_pos h2]; exact h1, ?_, by rw [h3, hsp]⟩
    exact fun h => d5 (answers_unique _ _ _ _ _ h h1)
  · refine ⟨hsucc, by rw [if_neg h2]; exact h1, ?_, by rw [h3, hsp]⟩
    exact fun h => d6 (answers_unique _ _ _ _ _ h h1)

/-- C9, amended, on `PUT /b` declaring 10 bytes of which 3 come with the
headers and 2 more before the client closes. -/
theorem C9_early_eof_is_answered_as_success_witness :
    (process_put (World.init.withInput [str "de"]) put_b_10).1 = EXIT_SUCCESS ∧
      answers (World.init.withInput [str "de"])
        (process_put (World.init.withInput [str "de"]) put_b_10).2 put_b_10.sock_fd
        (if (World.init.withInput [str "de"]).fs put_b_10.fileNameStr = none then CREATED
          else OK) ∧
      ¬ answers (World.init.withInput [str "de"])
        (process_put (World.init.withInput [str "de"]) put_b_10).2 put_b_10.sock_fd
        INTERNAL_SERVER_ERROR ∧
      file_writes (process_put (World.init.withInput [str "de"]) put_b_10).2.trace
          put_b_10.fileNameStr =
        file_writes (World.init.withInput [str "de"]).trace put_b_10.fileNameStr ++
          (put_b_10.body ++ (World.init.withInput [str "de"]).sock_in.flatten) :=
  C9_early_eof_is_answered_as_success (World.init.withInput [str "de"]) put_b_10 (by decide) rfl
    rfl (by decide) (by decide) (by decide) (Or.inl ⟨rfl, rfl⟩)

/-! ## C10: directory targets -/

/-- C10 at a failing input: `d` is a directory and the request is
`PUT /d HTTP/1.1` with `Content-Length: 5` and body `hello`.  The probe
`open(d, O_WRONLY | O_DIRECTORY)` fails (`EISDIR`), so `process_put` takes the
writer lock, the exclusive create fails with `EEXIST`, the truncating open
fails with `EISDIR`, and the answer is 500 with the audit line `PUT,/d,500,0`.
The same target in a GET is answered 403 without any lock. -/
theorem C10_put_on_directory_is_500_under_lock :
    (serve World.withDirectory ⟨[str "PUT /d HTTP/1.1\r\nContent-Length: 5\r\n\r\nhello"], true⟩
        4).trace =
      [.open_ (str "d") O_WRONLY_DIRECTORY false, .lock .writer 0,
       .open_ (str "d") O_WRONLY_CREAT_EXCL false, .open_ (str "d") O_WRONLY_CREAT_TRUNC false,
       .send 4 INTERNAL_SERVER_ERROR, .log (str "PUT,/d,500,0\n"), .unlock .writer 0,
       .close_sock 4] ∧
    (serve World.withDirectory ⟨[str "GET /d HTTP/1.1\r\n\r\n"], true⟩ 5).trace =
      [.open_ (str "d") O_RDONLY_DIRECTORY true, .send 5 FORBIDDEN,
       .log (str "GET,/d,403,0\n"), .close_sock 5] := by
  decide


set_option maxRecDepth 100000

/-! ## C11: headers with other names -/

/-- C11 at failing inputs: the headers `Content-LengthX: 7` and
`Content-Length-Hint: 7` are taken for `Content-Length`, because
`strncmp(buf, "Content-Length", 14)` compares the first 14 bytes only (the test
for `Request-Id` uses 11 and so includes the NUL): the parsed `content_length`
is 7 where the same request without the header has -1, and after
`Content-Length: 2` it is 7 instead of 2.  The GET with the extra header is
answered 400 instead of being served.  `Host: x` and `Request-IdX: 7` are
ignored. -/
theorem C11_longer_name_is_taken_for_content_length :
    (parse_request World.init 5 (str "GET /a HTTP/1.1\r\n\r\n") 19).1.map
        Request.content_length = some (-1) ∧
    (parse_request World.init 5 (str "GET /a HTTP/1.1\r\nContent-LengthX: 7\r\n\r\n") 39).1.map
        Request.content_length = some 7 ∧
    (parse_request World.init 5 (str "GET /a HTTP/1.1\r\nContent-Length-Hint: 7\r\n\r\n") 43).1.map
        Request.content_length = some 7 ∧
    (parse_request World.init 4
        (str "PUT /a HTTP/1.1\r\nContent-Length: 2\r\nContent-LengthX: 7\r\n\r\nhi") 60).1.map
        Request.content_length = some 7 ∧
    (parse_request World.init 5 (str "GET /a HTTP/1.1\r\nHost: x\r\n\r\n") 28).1.map
        (fun r => (r.content_length, r.request_ID)) = some (-1, 0) ∧
    (parse_request World.init 5 (str "GET /a HTTP/1.1\r\nRequest-IdX: 7\r\n\r\n") 35).1.map
        (fun r => (r.content_length, r.request_ID)) = some (-1, 0) ∧
    sends (serve (World.withFile (str "a") (str "hello"))
        ⟨[str "GET /a HTTP/1.1\r\nContent-LengthX: 7\r\n\r\n"], true⟩ 5).trace =
      [(5, BAD_REQUEST)] ∧
    sends (serve (World.withFile (str "a") (str "hello"))
        ⟨[str "GET /a HTTP/1.1\r\n\r\n"], true⟩ 5).trace =
      [(5, str "HTTP/1.1 200 OK\r\nContent-Length: 5\r\n\r\n"), (5, str "hello")] := by
  decide

/-! ## C12: the alphabet of the target -/

/-- C12 fails as stated: `.` is in the class of the target, so
`GET /.. HTTP/1.1` is accepted with the file name `..`, and so is `a..b`.
`process_get` passes `..` to `open` as it is: in a working directory with its
entries `.` and `..` the directory probe succeeds, and the answer is 403 with
the audit line `GET,/..,403,0`. -/
theorem C12_dot_dot_counterexample :
    (parse_request World.init 5 (str "GET /.. HTTP/1.1\r\n\r\n") 20).1.map Request.fileNameStr =
      some (str "..") ∧
    (parse_request World.init 5 (str "GET /a..b HTTP/1.1\r\n\r\n") 22).1.map Request.fileNameStr =
      some (str "a..b") ∧
    (serve World.withDots ⟨[str "GET /.. HTTP/1.1\r\n\r\n"], true⟩ 5).trace =
      [.open_ (str "..") O_RDONLY_DIRECTORY true, .send 5 FORBIDDEN,
       .log (str "GET,/..,403,0\n"), .close_sock 5] := by
  decide

/-- C12 as amended: the file name of every request `parse_request` accepts is 1
to 63 bytes long, each of them a letter, a digit, `.` or `-`; in particular it
contains no `/` (it may be `.` or `..` or contain consecutive dots). -/
theorem C12_file_name_alphabet (w : World) (sock_fd : Nat) (buf : List Nat) (bytes_read : Int)
    (req : Request) (w1 : World)
    (hparse : parse_request w sock_fd buf bytes_read = (some req, w1)) :
    1 ≤ req.fileNameStr.length ∧ req.fileNameStr.length ≤ 63 ∧
      (∀ c ∈ req.fileNameStr, isNameChar c = true) ∧ 47 ∉ req.fileNameStr := by
  obtain ⟨n, t, hl, -, -, hname, -⟩ := parse_request_strings w sock_fd buf bytes_read req w1 hparse
  have htw : req.fileNameStr = (buf.drop (n + 2)).takeWhile isNameChar := by
    rw [hname, hl.t_eq, take_span]
  have hlen : req.fileNameStr.length = t := by
    rw [htw, hl.t_eq]
    rfl
  have hall : ∀ c ∈ req.fileNameStr, isNameChar c = true := by
    intro c hc
    rw [htw] at hc
    exact List.mem_takeWhile_imp hc
  refine ⟨by rw [hlen]; exact hl.t_pos, by rw [hlen]; exact hl.t_le, hall, ?_⟩
  intro h47
  have := hall 47 h47
  revert this
  decide

/-- C12 as amended, on `GET /a HTTP/1.1`. -/
theorem C12_file_name_alphabet_witness :
    parse_request World.init 5 (str "GET /a HTTP/1.1\r\n\r\n") 19 = (some get_a, World.init) ∧
    (1 ≤ get_a.fileNameStr.length ∧ get_a.fileNameStr.length ≤ 63 ∧
      (∀ c ∈ get_a.fileNameStr, isNameChar c = true) ∧ 47 ∉ get_a.fileNameStr) :=
  ⟨by rfl, C12_file_name_alphabet World.init 5 (str "GET /a HTTP/1.1\r\n\r\n") 19 get_a World.init
    (by rfl)⟩

/-! ## C13: length of the target -/

/-- The boundary of `REQEX` on the length of the target.  Take a request made
of a method of 1 to 8 letters, a target, a version
`HTTP/d.d`, conforming headers `hs`, the CR LF terminator and body bytes in
which `regexec` finds no header.  With a target `X` of exactly 63 bytes of
`[A-Za-z0-9.-]`, `parse_request` succeeds and the file name is `X`.  More
generally, whatever text `tail` follows the request line: if the request is
accepted with some target `X0` of 1 to 63 such bytes, it is accepted with `X`
in its place, with file name `X`.  With a target `Y` of 64 or more such bytes,
whatever follows it, `parse_request` fails and what it does is write the 400
response. -/
theorem target_length_boundary (w : World) (sock_fd : Nat) (m X Y : List Nat) (d1 d2 : Nat)
    (hs : List (List Nat × List Nat)) (body rest : List Nat) (bytes_read : Int)
    (hm1 : 1 ≤ m.length) (hm2 : m.length ≤ 8) (hm : ∀ c ∈ m, isAlpha c = true)
    (hX63 : X.length = 63) (hX : ∀ c ∈ X, isNameChar c = true)
    (hY64 : 64 ≤ Y.length) (hY : ∀ c ∈ Y, isNameChar c = true)
    (hd1 : isDigit d1 = true) (hd2 : isDigit d2 = true)
    (hhs : ∀ h ∈ hs, conforming_header h) (hbody : regexec_HEADEX body 0 = none) :
    (∃ req w1, parse_request w sock_fd
        (request_text m X d1 d2 (headers_text hs (13 :: 10 :: body))) bytes_read = (some req, w1) ∧
      req.fileNameStr = X) ∧
    (∀ (X0 tail : List Nat) (b0 : Int), 1 ≤ X0.length → X0.length ≤ 63 →
      (∀ c ∈ X0, isNameChar c = true) →
      (parse_request w sock_fd (request_text m X0 d1 d2 tail) b0).1.isSome = true →
      ∃ req w1, parse_request w sock_fd (request_text m X d1 d2 tail) bytes_read = (some req, w1) ∧
        req.fileNameStr = X) ∧
    parse_request w sock_fd (request_text m Y d1 d2 rest) bytes_read =
      (none, dprintf w sock_fd BAD_REQUEST) := by
  refine ⟨?_, ?_, ?_⟩
  · obtain ⟨req, w1, hp, -, hname, -⟩ := parse_request_conforming w sock_fd m X d1 d2 hs body
      bytes_read hm1 hm2 hm (by omega) (by omega) hX hd1 hd2 hhs hbody
    exact ⟨req, w1, hp, hname⟩
  · intro X0 tail b0 h1 h2 h3 h0
    exact parse_request_target_frame w sock_fd m X X0 d1 d2 tail bytes_read b0 hm1 hm2 hm
      (by omega) (by omega) hX h1 h2 h3 hd1 hd2 h0
  · apply parse_request_none_of_no_reqline
    exact regexec_REQEX_long_target m Y _ hm hY hY64

/-- The boundary on `GET` with a target of 63 letters `a`, one header `Host: x`
and no body, and on the same request line with a target of 64 letters `a`. -/
theorem target_length_boundary_example :
    (∃ req w1, parse_request World.init 5
        (request_text (str "GET") (List.replicate 63 97) 49 49
          (headers_text [(str "Host", str "x")] (13 :: 10 :: []))) 90 = (some req, w1) ∧
      req.fileNameStr = List.replicate 63 97) ∧
    (∀ (X0 tail : List Nat) (b0 : Int), 1 ≤ X0.length → X0.length ≤ 63 →
      (∀ c ∈ X0, isNameChar c = true) →
      (parse_request World.init 5 (request_text (str "GET") X0 49 49 tail) b0).1.isSome = true →
      ∃ req w1, parse_request World.init 5
          (request_text (str "GET") (List.replicate 63 97) 49 49 tail) 90 = (some req, w1) ∧
        req.fileNameStr = List.replicate 63 97) ∧
    parse_request World.init 5 (request_text (str "GET") (List.replicate 64 97) 49 49 [13, 10]) 90 =
      (none, dprintf World.init 5 BAD_REQUEST) :=
  target_length_boundary World.init 5 (str "GET") (List.replicate 63 97) (List.replicate 64 97)
    49 49 [(str "Host", str "x")] [] [13, 10] 90 (by decide) (by decide) (by decide) (by decide)
    (by decide) (by decide) (by decide) (by decide) (by decide)
    (fun h hh => by
      rw [List.mem_singleton] at hh
      subst hh
      exact ⟨by decide, by decide, by decide, by decide, by decide, by decide⟩)
    (by rfl)

/-- C13 at a failing input: the conforming request `PUT /<63 letters a>
HTTP/1.1` with `Content-Length: 8` and the 8 body bytes `x-y: 1\r\n`.  `HEADEX`
has no `^`, so after the `Content-Length` header `regexec` skips the CR LF of
the terminator and matches `x-y: 1\r\n` in the body; the loop then stands at
the end of the buffer, finds no CR LF there, and `parse_request` fails: the
request with a target of 63 bytes is answered 400.  With the 8 body bytes
`12345678` the same request is accepted, with the 63 bytes as file name; with a
target of 64 letters it is rejected. -/
theorem C13_target_of_63_bytes_is_rejected :
    (parse_request World.init 4
        (request_text (str "PUT") (List.replicate 63 97) 49 49
          (str "Content-Length: 8\r\n\r\nx-y: 1\r\n")) 108).1.isSome = false ∧
    sends (serve World.init
        ⟨[request_text (str "PUT") (List.replicate 63 97) 49 49
          (str "Content-Length: 8\r\n\r\nx-y: 1\r\n")], true⟩ 4).trace = [(4, BAD_REQUEST)] ∧
    (request_text (str "PUT") (List.replicate 63 97) 49 49
        (str "Content-Length: 8\r\n\r\nx-y: 1\r\n")).length = 108 ∧
    (parse_request World.init 4
        (request_text (str "PUT") (List.replicate 63 97) 49 49
          (str "Content-Length: 8\r\n\r\n12345678")) 108).1.map Request.fileNameStr =
      some (List.replicate 63 97) ∧
    sends (serve World.init
        ⟨[request_text (str "PUT") (List.replicate 63 97) 49 49
          (str "Content-Length: 8\r\n\r\n12345678")], true⟩ 4).trace = [(4, CREATED)] ∧
    sends (serve World.init
        ⟨[request_text (str "PUT") (List.replicate 64 97) 49 49
          (str "Content-Length: 8\r\n\r\n12345678")], true⟩ 4).trace = [(4, BAD_REQUEST)] := by
  decide

/-! ## C14: length of header names and values -/

/-- C14 at failing inputs.  A header whose name is 129 letters `a` is accepted:
`HEADEX` has no `^`, so `regexec` matches from the second letter on, a name of
128.  A header `k` whose value is 129 letters is skipped when a well-formed
header follows it (`regexec` matches `Host: x` further on), and the request is
accepted.  Only when nothing well-formed follows the over-long value does
`parse_request` fail and write 400. -/
theorem C14_overlong_header_is_accepted :
    (parse_request World.init 5
        (str "GET /a HTTP/1.1\r\n" ++ header_text (List.replicate 129 97) (str "v") [13, 10])
        153).1.isSome = true ∧
    sends (parse_request World.init 5
        (str "GET /a HTTP/1.1\r\n" ++ header_text (List.replicate 129 97) (str "v") [13, 10])
        153).2.trace = [] ∧
    (parse_request World.init 5
        (str "GET /a HTTP/1.1\r\n" ++
          header_text (str "k") (List.replicate 129 97) (str "Host: x\r\n\r\n")) 162).1.isSome
      = true ∧
    sends (parse_request World.init 5
        (str "GET /a HTTP/1.1\r\n" ++
          header_text (str "k") (List.replicate 129 97) (str "Host: x\r\n\r\n")) 162).2.trace
      = [] ∧
    (parse_request World.init 5
        (str "GET /a HTTP/1.1\r\n" ++ header_text (str "k") (List.replicate 129 97) [13, 10])
        153).1.isSome = false ∧
    sends (parse_request World.init 5
        (str "GET /a HTTP/1.1\r\n" ++ header_text (str "k") (List.replicate 129 97) [13, 10])
        153).2.trace = [(5, BAD_REQUEST)] := by
  decide

/-! ## C15: a GET whose splice fails -/

/-- C16 at a failing input: `PUT /a HTTP/1.1` with `Content-Length: 5` whose
header read brought `he`, on a connection that then delivers nothing and stays
open, so that `pass_n_bytes` fails (timeout).  The 500 response is written and
no audit line is: the branch `pass_n_bytes(...) == -1` of `process_put` has no
`fprintf`.  When it is `write_n_bytes` that fails (here by `ENOSPC`), the branch
next to it writes the same response and the line `PUT,/a,500,0`. -/
theorem C16_put_splice_error_is_not_logged :
    sends (serve World.init ⟨[str "PUT /a HTTP/1.1\r\nContent-Length: 5\r\n\r\nhe"], false⟩
        4).trace = [(4, INTERNAL_SERVER_ERROR)] ∧
    audit_lines (serve World.init ⟨[str "PUT /a HTTP/1.1\r\nContent-Length: 5\r\n\r\nhe"], false⟩
        4).trace = [] ∧
    sends (serve { World.init with faults := [none, none, none, some .enospc] }
        ⟨[str "PUT /a HTTP/1.1\r\nContent-Length: 5\r\n\r\nhe"], false⟩ 4).trace =
      [(4, INTERNAL_SERVER_ERROR)] ∧
    audit_lines (serve { World.init with faults := [none, none, none, some .enospc] }
        ⟨[str "PUT /a HTTP/1.1\r\nContent-Length: 5\r\n\r\nhe"], false⟩ 4).trace =
      [str "PUT,/a,500,0\n"] := by
  decide

/-! ## C17: the worker loop -/

/-- C17 at a failing input: a worker is handed a connection (descriptor 4) on
which nothing arrives before the timeout, and then a connection (descriptor 5)
that sends `GET /a HTTP/1.1`.  `read_until` returns -1 for the first, the
worker writes 400 to it and leaves `process_in_thread` through `return NULL`:
descriptor 4 is not closed and the second connection is never handled.  When
the first connection is closed by the peer instead (`read_until` returns 0),
the parse fails, the descriptor is closed and the worker goes on to the second
connection. -/
theorem C17_worker_returns_when_read_fails :
    (process_in_thread World.init
        [(⟨[], false⟩, 4), (⟨[str "GET /a HTTP/1.1\r\n\r\n"], true⟩, 5)]).1 = false ∧
    (process_in_thread World.init
        [(⟨[], false⟩, 4), (⟨[str "GET /a HTTP/1.1\r\n\r\n"], true⟩, 5)]).2.trace =
      [.send 4 BAD_REQUEST] ∧
    (process_in_thread World.init
        [(⟨[], true⟩, 4), (⟨[str "GET /a HTTP/1.1\r\n\r\n"], true⟩, 5)]).1 = true ∧
    (process_in_thread World.init
        [(⟨[], true⟩, 4), (⟨[str "GET /a HTTP/1.1\r\n\r\n"], true⟩, 5)]).2.trace =
      [.send 4 BAD_REQUEST, .close_sock 4,
       .open_ (str "a") O_RDONLY_DIRECTORY false, .lock .reader 0,
       .open_ (str "a") O_RDONLY false, .send 5 NOT_FOUND, .log (str "GET,/a,404,0\n"),
       .unlock .reader 0, .close_sock 5] := by
  decide

/-! ## C18: hand-off of the pre-buffered body -/

/-- C18 at failing inputs.  The header block
`PUT /f HTTP/1.1\r\nContent-Length: 12\r\n\r\n` (39 bytes) is followed by the body
`x-y: 1\r\n\r\nZZ` (12 bytes).  `HEADEX` has no `^`, so after the one header
`regexec` skips the CR LF of the terminator and matches `x-y: 1\r\n` inside the
body: `parse_request` writes NULs over the `:` and the `\r` of the body, sets
`message_body` to offset 49 instead of 39 and `remaining_bytes` to 2 instead of
12, and the file stored is `ZZ`.  With the body `x-y: 1\r\n` alone the parse
fails. -/
theorem C18_header_shaped_body_is_consumed :
    (parse_request World.init 4
        (str "PUT /f HTTP/1.1\r\nContent-Length: 12\r\n\r\nx-y: 1\r\n\r\nZZ") 51).1.map
        (fun r => (r.message_body, r.remaining_bytes, r.buf.drop 39, r.body)) =
      some (49, 2, str "x-y\x00 1\x00\n\r\nZZ", str "ZZ") ∧
    file_writes (serve World.init
        ⟨[str "PUT /f HTTP/1.1\r\nContent-Length: 12\r\n\r\nx-y: 1\r\n\r\nZZ"], true⟩ 4).trace
        (str "f") = str "ZZ" ∧
    sends (serve World.init
        ⟨[str "PUT /f HTTP/1.1\r\nContent-Length: 12\r\n\r\nx-y: 1\r\n\r\nZZ"], true⟩ 4).trace =
      [(4, CREATED)] ∧
    (parse_request World.init 4
        (str "PUT /f HTTP/1.1\r\nContent-Length: 8\r\n\r\nx-y: 1\r\n") 46).1.isSome = false := by
  decide

/-! ## C19: lock pairing -/

/-- C19: every run of `process_get` and every run of `process_put`, taken as
the events it appends to the trace, respects the lock discipline
(`lock_paired`): the run either ends without any lock operation, having only
written 400 or probed the target as a directory and written and logged 403; or
it consists of the failed directory probe, the acquisition of the lock of the
target (reader lock for GET, writer lock for PUT), events none of which is a
lock operation, and last the release in the same mode of the same node.  So
each acquisition is followed by exactly one release, nothing is released that
was not acquired, one lock at most is held, and every `open` for data, `fstat`,
write and splice lies between the acquire and the release.  The node is the one
`get_node` yields for the target in the registry the run starts from, and its
entry holds the target string. -/
theorem C19_lock_pairing (w : World) (r : Request) :
    (∃ evs, (process_get w r).2.trace = w.trace ++ evs ∧
      lock_paired .reader (get_node w.registry r.fileNameStr).1 r.fileNameStr O_RDONLY_DIRECTORY
        r.sock_fd evs) ∧
    (∃ evs, (process_put w r).2.trace = w.trace ++ evs ∧
      lock_paired .writer (get_node w.registry r.fileNameStr).1 r.fileNameStr O_WRONLY_DIRECTORY
        r.sock_fd evs) ∧
    (get_node w.registry r.fileNameStr).2.get? (get_node w.registry r.fileNameStr).1 =
      some r.fileNameStr :=
  ⟨process_get_lock_paired w r, process_put_lock_paired w r, get_node_entry _ _⟩

/-! ## C20: the registry under interleaved calls of `get_node` -/

/-- The two steps of a caller, taken one after the other, are `get_node`. -/
theorem Caller.step_step (reg : List (List Nat)) (f : List Nat) :
    Caller.step (Caller.step reg (.scanning f)).2 (Caller.step reg (.scanning f)).1 =
      (.returned (get_node reg f).1, (get_node reg f).2) := by
  unfold get_node
  cases h : get_node_scan reg f 0 <;> simp [Caller.step, h]

theorem get_node_scan_none : ∀ (reg : List (List Nat)) (f : List Nat) (i : Nat),
    get_node_scan reg f i = none → f ∉ reg := by
  intro reg
  induction reg with
  | nil => intro f i _; simp
  | cons g rest ih =>
    intro f i h
    unfold get_node_scan at h
    by_cases hfg : f = g
    · rw [if_pos hfg] at h
      simp at h
    · rw [if_neg hfg] at h
      have := ih f (i + 1) h
      simp [hfg, this]

/-- Calls of `get_node` that do not overlap keep the file names of the registry
distinct. -/
theorem get_node_nodup (reg : List (List Nat)) (f : List Nat) (h : reg.Nodup) :
    (get_node reg f).2.Nodup := by
  unfold get_node
  cases hs : get_node_scan reg f 0 with
  | some i => exact h
  | none =>
    have hnot := get_node_scan_none reg f 0 hs
    simp only [add_node]
    rw [List.nodup_append]
    refine ⟨h, List.nodup_singleton f, ?_⟩
    intro x hx hx'
    rw [List.mem_singleton] at hx'
    subst hx'
    exact hnot hx

/-- C20 at a failing input: two threads call `get_node("a")` on an empty
registry.  Both scan before either appends, both scans find nothing, and both
call `add_node`, which appends without looking at the list again: the registry
ends with two entries `a`, and the two callers hold different nodes (0 and 1),
that is two different rwlocks for the same path.  When the calls do not
overlap, the second finds the entry of the first. -/
theorem C20_interleaved_get_node_duplicates :
    run_callers [0, 1, 0, 1] ([], [.scanning (str "a"), .scanning (str "a")]) =
      ([str "a", str "a"], [.returned 0, .returned 1]) ∧
    run_callers [0, 0, 1, 1] ([], [.scanning (str "a"), .scanning (str "a")]) =
      ([str "a"], [.returned 0, .returned 0]) := by
  decide


/-! ## C21: the parser stays inside the bytes received -/

/-- C21: let the buffer be zero from index `bytes_read` on, with
`0 ≤ bytes_read ≤ BUFSIZE`, and let `parse_request` return success.  Then the
request was filled in by the branch that found CR LF after the header loop:
`message_body` is the position after that CR LF, `content_length` and
`request_ID` are what the loop computed from -1 and 0.  The CR LF are bytes of
the buffer as received, so `message_body ≤ bytes_read`;
`remaining_bytes = bytes_read - message_body ≥ 0`; the `remaining_bytes` bytes
at `message_body` end exactly at index `bytes_read`; and the bytes
`process_put` hands to `write_n_bytes` are the received bytes from
`message_body` up to `bytes_read`, unchanged by the parser. -/
theorem C21_parser_output_within_received_bytes (w : World) (sock_fd : Nat) (buf : List Nat)
    (bytes_read : Int) (req : Request) (w1 : World)
    (h0 : 0 ≤ bytes_read) (h1 : bytes_read ≤ (BUFSIZE : Int))
    (hzero : ∀ i : Nat, bytes_read ≤ (i : Int) → buf.getD i 0 = 0)
    (hparse : parse_request w sock_fd buf bytes_read = (some req, w1)) :
    (∃ n t, ReqLine buf n t ∧
      req.message_body = (header_final w sock_fd buf n t).offset + 2 ∧
      req.content_length = (header_final w sock_fd buf n t).content_length ∧
      req.request_ID = (header_final w sock_fd buf n t).request_ID) ∧
    2 ≤ req.message_body ∧
    buf.getD (req.message_body - 2) 0 = 13 ∧ buf.getD (req.message_body - 1) 0 = 10 ∧
    (req.message_body : Int) ≤ bytes_read ∧
    req.remaining_bytes = bytes_read - (req.message_body : Int) ∧
    0 ≤ req.remaining_bytes ∧
    ((req.message_body + toSizeT req.remaining_bytes : Nat) : Int) = bytes_read ∧
    req.body = (buf.drop req.message_body).take (bytes_read - (req.message_body : Int)).toNat := by
  obtain ⟨n, t, hl, hcr, hlf, hreq, -⟩ := parse_request_some w sock_fd buf bytes_read req w1 hparse
  have hcr' : buf.getD (header_final w sock_fd buf n t).offset 0 = 13 := by
    rw [← header_final_nonzero w sock_fd buf n t _ (by rw [hcr]; decide)]
    exact hcr
  have hlf' : buf.getD ((header_final w sock_fd buf n t).offset + 1) 0 = 10 := by
    rw [← header_final_nonzero w sock_fd buf n t _ (by rw [hlf]; decide)]
    exact hlf
  have hdrop := header_final_drop_ge w sock_fd buf n t ((header_final w sock_fd buf n t).offset + 2)
    (by omega)
  have hB : (BUFSIZE : Int) = 4096 := rfl
  rw [hB] at h1
  have hk : (((header_final w sock_fd buf n t).offset + 1 : Nat) : Int) < bytes_read := by
    by_contra hc
    have := hzero ((header_final w sock_fd buf n t).offset + 1) (by omega)
    rw [hlf'] at this
    exact absurd this (by decide)
  have hrem : toInt32 (bytes_read - (((header_final w sock_fd buf n t).offset + 2 : Nat) : Int)) =
      bytes_read - (((header_final w sock_fd buf n t).offset + 2 : Nat) : Int) := by
    unfold toInt32
    push_cast at hk ⊢
    omega
  have hsz : toSizeT (bytes_read - (((header_final w sock_fd buf n t).offset + 2 : Nat) : Int)) =
      (bytes_read - (((header_final w sock_fd buf n t).offset + 2 : Nat) : Int)).toNat := by
    unfold toSizeT
    rw [Int.emod_eq_of_lt (by push_cast at hk ⊢; omega) (by push_cast at hk ⊢; omega)]
  subst hreq
  simp only [Request.body]
  rw [hrem, hsz, hdrop]
  refine ⟨⟨n, t, hl, rfl, rfl, rfl⟩, by omega, ?_, ?_, ?_, rfl, ?_, ?_, rfl⟩
  · rw [Nat.add_sub_cancel]
    exact hcr'
  · exact hlf'
  · push_cast at hk ⊢
    omega
  · push_cast at hk ⊢
    omega
  · push_cast at hk ⊢
    omega

/-- C21 on `PUT /a HTTP/1.1` with `Content-Length: 5` whose header read brought
the first two bytes `he` of the body: 40 bytes received, body at index 38. -/
theorem C21_parser_output_within_received_bytes_witness :
    (∃ n t, ReqLine (str "PUT /a HTTP/1.1\r\nContent-Length: 5\r\n\r\nhe") n t ∧
      (put_a_5 2).message_body =
        (header_final World.init 4 (str "PUT /a HTTP/1.1\r\nContent-Length: 5\r\n\r\nhe")
          n t).offset + 2 ∧
      (put_a_5 2).content_length =
        (header_final World.init 4 (str "PUT /a HTTP/1.1\r\nContent-Length: 5\r\n\r\nhe")
          n t).content_length ∧
      (put_a_5 2).request_ID =
        (header_final World.init 4 (str "PUT /a HTTP/1.1\r\nContent-Length: 5\r\n\r\nhe")
          n t).request_ID) ∧
    2 ≤ (put_a_5 2).message_body ∧
    (str "PUT /a HTTP/1.1\r\nContent-Length: 5\r\n\r\nhe").getD ((put_a_5 2).message_body - 2) 0
      = 13 ∧
    (str "PUT /a HTTP/1.1\r\nContent-Length: 5\r\n\r\nhe").getD ((put_a_5 2).message_body - 1) 0
      = 10 ∧
    ((put_a_5 2).message_body : Int) ≤ 40 ∧
    (put_a_5 2).remaining_bytes = 40 - ((put_a_5 2).message_body : Int) ∧
    0 ≤ (put_a_5 2).remaining_bytes ∧
    (((put_a_5 2).message_body + toSizeT (put_a_5 2).remaining_bytes : Nat) : Int) = 40 ∧
    (put_a_5 2).body =
      ((str "PUT /a HTTP/1.1\r\nContent-Length: 5\r\n\r\nhe").drop (put_a_5 2).message_body).take
        (40 - ((put_a_5 2).message_body : Int)).toNat :=
  C21_parser_output_within_received_bytes World.init 4
    (str "PUT /a HTTP/1.1\r\nContent-Length: 5\r\n\r\nhe") 40 (put_a_5 2) World.init
    (by decide) (by decide)
    (fun i hi => getD_zero_of_length_le _ i (by
      have hlen : (str "PUT /a HTTP/1.1\r\nContent-Length: 5\r\n\r\nhe").length = 40 := by decide
      omega))
    (by rfl)

end HttpServer
